import Mathlib

/-!
# Promo-code validation service (`internal/services/promo.go`)

A shallow embedding of the promo-code service of the kart-challenge backend:
the service state, the consensus step `replaceWithRealCodes`, the background
refresh cycle `downloadCodesAsync`, the seeding step `LoadMockPromoCodes`, the
query operations `IsValidPromoCode`, `GetValidCodesCount` and
`GetServiceStatus`, the candidate extraction of `processGzipFile`, its sibling
`downloadAndProcessCouponFile` of package `models`, and `SanitizeString` of
package `utils`.

Conventions of the embedding.

* A Go `string` that the program inspects byte by byte (a promo code) is a
  `GoString`, the list of its bytes.  Strings that are only produced and
  compared as wholes (error messages, status tags, URLs) are Lean strings.
* A Go `map[string]bool` is modelled by its key set (`CodeSet`).  Every write
  to such a map in the package stores `true`, so a lookup `m[k]` yields `true`
  exactly when `k` is a key, `len(m)` is the number of keys and `range m`
  visits the keys; a `nil` map reads as the empty set.
* The methods mutate `*PromoCodeService`; here they take the state and return
  the new state (together with the returned `error`, when there is one).
* A Go `error` is modelled by its message, `nil` by `none`.
* Everything the refresh cycle obtains from outside the process (the temporary
  directory, the three downloads) is an explicit argument, `RefreshEnv`.
* Refresh cycles run in goroutines; the embedding is sequential and treats a
  completed cycle as one step.
* The library functions `strings.ToUpper` and `strings.Fields` are modelled
  exactly on strings of ASCII bytes; on other strings they depend on the
  Unicode tables of the Go runtime, and that branch is an argument
  (`unicodeUpper`, `unicodeFields`).  `strings.Trim` with the ASCII cutset of
  the repository works byte by byte on every string.
-/

namespace services

/-! ## Strings and maps -/

/-- A Go string: its sequence of bytes. -/
abbrev GoString := List Nat

/-- The bytes of an ASCII literal. -/
def str (s : String) : GoString := s.toList.map Char.toNat

/-- A Go `map[string]bool` all of whose stored values are `true`. -/
abbrev CodeSet := Finset GoString

/-- The conversion `int32(n)`: wrap into the signed 32-bit range. -/
def int32 (n : Int) : Int := (n + 2 ^ 31) % 2 ^ 32 - 2 ^ 31

/-! ## The service state -/

/-- The fields of `PromoCodeService` (the two mutexes carry no data). -/
structure PromoCodeService where
  /-- Field `validCodes map[string]bool`. -/
  validCodes : CodeSet
  /-- Field `isLoaded int32`: 0 = loading, 1 = loaded. -/
  isLoaded : Int
  /-- Field `loadError error`. -/
  loadError : Option String
  /-- Field `codesCount int32`. -/
  codesCount : Int
deriving DecidableEq

/-- The constructor `NewPromoCodeService`: empty map, zero values elsewhere. -/
def NewPromoCodeService : PromoCodeService :=
  { validCodes := ∅, isLoaded := 0, loadError := none, codesCount := 0 }

/-- The method `setLoadError`. -/
def setLoadError (p : PromoCodeService) (err : String) : PromoCodeService :=
  { p with loadError := some err }

/-- The seed list `mockCodes` of `LoadMockPromoCodes`. -/
def mockCodes : List GoString :=
  [str "HAPPYHRS", str "FIFTYOFF", str "WELCOME1", str "NEWUSER2", str "DISCOUNT",
   str "SAVE20PC", str "FREESHIP", str "SUMMER25", str "AUTUMN30", str "WINTER15",
   str "STUDENT", str "BIRTHDAY", str "LOYALTY5", str "REFERRAL", str "COMEBACK"]

/-- The method `LoadMockPromoCodes`: every seed is written into the existing
map, then `codesCount` is set to the length of the seed list. -/
def LoadMockPromoCodes (p : PromoCodeService) : PromoCodeService :=
  { p with
    validCodes := mockCodes.foldl (fun m code => insert code m) p.validCodes
    codesCount := int32 mockCodes.length }

/-! ## Format check and membership query -/

/-- The character test of `isValidPromoCodeFormat`:
`(c >= 'A' && c <= 'Z') || (c >= '0' && c <= '9')`. -/
def isUpperOrDigit (c : Nat) : Bool :=
  (decide (65 ≤ c) && decide (c ≤ 90)) || (decide (48 ≤ c) && decide (c ≤ 57))

/-- The byte loop of `isValidPromoCodeFormat`: scan from the left, return
`false` at the first byte that fails the character test. -/
def isValidPromoCodeFormat.loop : GoString → Bool
  | [] => true
  | c :: rest => if !isUpperOrDigit c then false else isValidPromoCodeFormat.loop rest

/-- The function `isValidPromoCodeFormat`. -/
def isValidPromoCodeFormat (code : GoString) : Bool :=
  let n := code.length
  if n < 8 ∨ n > 10 then false else isValidPromoCodeFormat.loop code

/-- The ASCII branch of `strings.ToUpper`: bytes `a`..`z` are shifted by
`'a' - 'A'`, every other byte is copied. -/
def asciiUpper (s : GoString) : GoString :=
  s.map (fun c => if 97 ≤ c ∧ c ≤ 122 then c - 32 else c)

/-- The library function `strings.ToUpper`.  A string without a byte
`>= utf8.RuneSelf` (0x80) takes the ASCII branch; any other string is
`strings.Map(unicode.ToUpper, s)`, which depends on the Unicode tables of the
Go runtime and is the argument `unicodeUpper`. -/
def ToUpper (unicodeUpper : GoString → GoString) (s : GoString) : GoString :=
  if s.all (fun c => decide (c < 128)) then asciiUpper s else unicodeUpper s

/-- The method `IsValidPromoCode`. -/
def IsValidPromoCode (unicodeUpper : GoString → GoString) (p : PromoCodeService)
    (code : GoString) : Bool :=
  let upperCode := ToUpper unicodeUpper code
  if !isValidPromoCodeFormat upperCode then false
  else decide (upperCode ∈ p.validCodes)

/-- The method `GetValidCodesCount`. -/
def GetValidCodesCount (p : PromoCodeService) : Int := p.codesCount

/-- The struct `ServiceStatus`. -/
structure ServiceStatus where
  Status : String
  DataSource : String
  CodesLoaded : Int
  IsFullyLoaded : Bool
  LastError : String
deriving DecidableEq

/-- The method `GetServiceStatus`. -/
def GetServiceStatus (p : PromoCodeService) : ServiceStatus :=
  let codesLoaded := GetValidCodesCount p
  let isFullyLoaded := decide (p.isLoaded = 1)
  let lastError := match p.loadError with
    | some err => err
    | none => ""
  if isFullyLoaded then
    { Status := "ready", DataSource := "remote", CodesLoaded := codesLoaded,
      IsFullyLoaded := isFullyLoaded, LastError := lastError }
  else if codesLoaded > 0 then
    { Status := "loading", DataSource := "mock", CodesLoaded := codesLoaded,
      IsFullyLoaded := isFullyLoaded, LastError := lastError }
  else
    { Status := "initializing", DataSource := "none", CodesLoaded := codesLoaded,
      IsFullyLoaded := isFullyLoaded, LastError := lastError }

/-! ## Consensus -/

/-- The first loop of `replaceWithRealCodes`: `codeCount[code]++` for every
key `code` of every map of `fileCodes`.  The `map[string]int` is a multiset:
`codeCount[code]` is the multiplicity of `code` (0 when absent) and the keys
are the codes of positive multiplicity. -/
def countOccurrences (fileCodes : List CodeSet) : Multiset GoString :=
  fileCodes.foldl (fun codeCount fileCodeMap => codeCount + fileCodeMap.val) 0

/-- The variable `minOccurrences` of `replaceWithRealCodes`. -/
def minOccurrences (successCount : Int) : Nat :=
  if successCount = 1 then 1 else 2

/-- The second loop of `replaceWithRealCodes`: the keys of `codeCount` whose
count is at least `minOccurrences`. -/
def buildValidCodes (codeCount : Multiset GoString) (minOcc : Nat) : CodeSet :=
  codeCount.toFinset.filter (fun code => minOcc ≤ codeCount.count code)

/-- The method `replaceWithRealCodes`: the state it leaves and the error it
returns. -/
def replaceWithRealCodes (p : PromoCodeService) (fileCodes : List CodeSet)
    (successCount : Int) : PromoCodeService × Option String :=
  let codeCount := countOccurrences fileCodes
  let newValidCodes := buildValidCodes codeCount (minOccurrences successCount)
  if newValidCodes.card = 0 then
    (p, some "no valid codes found")
  else
    ({ p with validCodes := newValidCodes, codesCount := int32 newValidCodes.card }, none)

/-! ## The refresh cycle -/

/-- What one run of `downloadCodesAsync` obtains from outside the process. -/
structure RefreshEnv where
  /-- Outcome of `os.MkdirTemp`. -/
  mkdirTemp : Except String Unit
  /-- Outcome of `downloadAndProcessWithGrab` for a URL. -/
  download : String → Except String CodeSet

/-- The slice `urls` of `downloadCodesAsync`. -/
def urls : List String :=
  ["https://orderfoodonline-files.s3.ap-southeast-2.amazonaws.com/couponbase1.gz",
   "https://orderfoodonline-files.s3.ap-southeast-2.amazonaws.com/couponbase2.gz",
   "https://orderfoodonline-files.s3.ap-southeast-2.amazonaws.com/couponbase3.gz"]

/-- The download loop of `downloadCodesAsync`: `fileCodes` starts as
`len(urls)` nil maps; a failed download is skipped, a successful one stores
its codes at the index of its URL and increments `successCount`. -/
def downloadAll (env : RefreshEnv) : List CodeSet × Int :=
  urls.enum.foldl
    (fun (acc : List CodeSet × Int) (iu : Nat × String) =>
      match env.download iu.2 with
      | .error _ => acc
      | .ok codes => (acc.1.set iu.1 codes, acc.2 + 1))
    (List.replicate urls.length ∅, 0)

/-- The method `downloadCodesAsync`, one complete refresh cycle. -/
def downloadCodesAsync (env : RefreshEnv) (p : PromoCodeService) : PromoCodeService :=
  let p := { p with isLoaded := 0 }
  let p := { p with loadError := none }
  match env.mkdirTemp with
  | .error err => setLoadError p ("failed to create temp directory: " ++ err)
  | .ok _ =>
    let (fileCodes, successCount) := downloadAll env
    if successCount = 0 then
      setLoadError p "background download failed: no coupon files processed"
    else
      match replaceWithRealCodes p fileCodes successCount with
      | (p, some err) => setLoadError p ("background processing failed: " ++ err)
      | (p, none) => { p with isLoaded := 1 }

/-- The synchronous part of `Initialize`: the seeding step.  The cycle it
starts in the background is a later `downloadCodesAsync` step. -/
def Initialize (p : PromoCodeService) : PromoCodeService × Option String :=
  (LoadMockPromoCodes p, none)

/-- The synchronous part of `ForceReload`: it only starts a cycle in the
background, which is a later `downloadCodesAsync` step. -/
def ForceReload (p : PromoCodeService) : PromoCodeService := p

/-- The operations that change the state: the two public seeding entry points
and a refresh cycle (started by `Initialize` or `ForceReload`) running to
completion. -/
inductive Event where
  | init : Event
  | loadMock : Event
  | cycle : RefreshEnv → Event

/-- The state after one event. -/
def step (p : PromoCodeService) : Event → PromoCodeService
  | .init => (Initialize p).1
  | .loadMock => LoadMockPromoCodes p
  | .cycle env => downloadCodesAsync env p

/-- The state after a sequence of events. -/
def run (p : PromoCodeService) (events : List Event) : PromoCodeService :=
  events.foldl step p

/-- Equality of `Except` values is decidable. -/
instance instDecidableEqExcept {ε α : Type} [DecidableEq ε] [DecidableEq α] :
    DecidableEq (Except ε α)
  | .ok a, .ok b => decidable_of_iff (a = b) (by simp)
  | .error a, .error b => decidable_of_iff (a = b) (by simp)
  | .ok _, .error _ => isFalse (by simp)
  | .error _, .ok _ => isFalse (by simp)

/-! ## Library functions of package `strings` -/

/-- The table `asciiSpace` of package `strings`: tab, line feed, vertical tab,
form feed, carriage return and space. -/
def asciiSpace (c : Nat) : Bool :=
  c == 9 || c == 10 || c == 11 || c == 12 || c == 13 || c == 32

/-- The ASCII branch of `strings.Fields`: scan the bytes from the left, close
the current field at a space byte, drop empty fields.  The second argument is
the current field, latest byte first. -/
def asciiFields.scan : GoString → GoString → List GoString
  | [], cur => if cur.isEmpty then [] else [cur.reverse]
  | c :: rest, cur =>
    if asciiSpace c then
      if cur.isEmpty then asciiFields.scan rest []
      else cur.reverse :: asciiFields.scan rest []
    else asciiFields.scan rest (c :: cur)

/-- The ASCII branch of `strings.Fields`. -/
def asciiFields (s : GoString) : List GoString := asciiFields.scan s []

/-- The library function `strings.Fields`.  A string without a byte
`>= utf8.RuneSelf` takes the ASCII branch; any other string is
`strings.FieldsFunc(s, unicode.IsSpace)`, which depends on the Unicode tables
of the Go runtime and is the argument `unicodeFields`. -/
def Fields (unicodeFields : GoString → List GoString) (s : GoString) : List GoString :=
  if s.all (fun c => decide (c < 128)) then asciiFields s else unicodeFields s

/-- The cutset of the two `strings.Trim` calls of the repository:
the bytes of the fourteen punctuation characters. -/
def trimCutset : GoString := str ".,!?;:\"'()[]\x7b\x7d"

/-- The library function `strings.Trim` for a cutset of several ASCII bytes
(the `makeASCIISet` branch): `trimLeftASCII(trimRightASCII(s, as), as)`, byte
by byte. -/
def Trim (s cutset : GoString) : GoString :=
  (s.rdropWhile (fun c => decide (c ∈ cutset))).dropWhile (fun c => decide (c ∈ cutset))

/-- The function `SanitizeString` of package `utils`. -/
def SanitizeString (unicodeUpper : GoString → GoString) (s : GoString) : GoString :=
  ToUpper unicodeUpper (Trim s trimCutset)

/-! ## Candidate extraction -/

/-- The word loop of `processGzipFile` on the text of one read: every field is
trimmed and uppercased and, when it passes the format check, written into
`codes` (the counter `wordCount` is never read). -/
def extractCodes (unicodeFields : GoString → List GoString)
    (unicodeUpper : GoString → GoString) (codes : CodeSet) (text : GoString) : CodeSet :=
  (Fields unicodeFields text).foldl
    (fun codes word =>
      let cleaned := ToUpper unicodeUpper (Trim word trimCutset)
      if isValidPromoCodeFormat cleaned then insert cleaned codes else codes)
    codes

/-- What one call of `processGzipFile` obtains from the file system and from
the gzip reader.  The reader answers finitely many `Read` calls: those of
`reads` return their bytes with a nil error, the last one returns `lastData`
with `io.EOF` (`lastErr = none`) or with another error. -/
structure GzipFile where
  /-- Outcome of `os.Open`. -/
  openFile : Except String Unit
  /-- Outcome of `gzip.NewReader`. -/
  newReader : Except String Unit
  /-- The bytes `buffer[:n]` of the reads that return a nil error. -/
  reads : List GoString
  /-- The bytes `buffer[:n]` of the last read. -/
  lastData : GoString
  /-- The error of the last read: `none` for `io.EOF`. -/
  lastErr : Option String

/-- The body of the read loop of `processGzipFile` for one read: the words of
the chunk are processed when `n > 0`. -/
def processChunk (unicodeFields : GoString → List GoString)
    (unicodeUpper : GoString → GoString) (codes : CodeSet) (chunk : GoString) : CodeSet :=
  if chunk.length > 0 then extractCodes unicodeFields unicodeUpper codes chunk else codes

/-- The method `processGzipFile`. -/
def processGzipFile (unicodeFields : GoString → List GoString)
    (unicodeUpper : GoString → GoString) (filename : String) (f : GzipFile) :
    Except String CodeSet :=
  match f.openFile with
  | .error err => .error ("failed to open " ++ filename ++ ": " ++ err)
  | .ok _ =>
    match f.newReader with
    | .error err => .error ("failed to create gzip reader: " ++ err)
    | .ok _ =>
      let codes := f.reads.foldl (processChunk unicodeFields unicodeUpper) ∅
      let codes := processChunk unicodeFields unicodeUpper codes f.lastData
      match f.lastErr with
      | none => .ok codes
      | some err => .error ("failed to read file content: " ++ err)

/-- What one call of `downloadAndProcessCouponFile` of package `models`
obtains from the network and from the gzip reader. -/
structure CouponDownload where
  /-- Outcome of `http.Get`. -/
  httpGet : Except String Unit
  /-- Outcome of `gzip.NewReader`. -/
  newReader : Except String Unit
  /-- Outcome of `io.ReadAll`: the whole decompressed content. -/
  readAll : Except String GoString

/-- The function `isAlphanumeric` of package `models`.  It ranges over the
runes of `s`; a byte `>= 0x80` is part of a rune `>= 0x80` or decodes to
`utf8.RuneError`, which fails the test as the byte itself does, and a byte
`< 0x80` is its own rune, so the loop is the same over the bytes. -/
def models.isAlphanumeric : GoString → Bool
  | [] => true
  | r :: rest => if !isUpperOrDigit r then false else models.isAlphanumeric rest

/-- The function `downloadAndProcessCouponFile` of package `models`. -/
def models.downloadAndProcessCouponFile (unicodeFields : GoString → List GoString)
    (unicodeUpper : GoString → GoString) (d : CouponDownload) : Except String CodeSet :=
  match d.httpGet with
  | .error err => .error err
  | .ok _ =>
    match d.newReader with
    | .error err => .error err
    | .ok _ =>
      match d.readAll with
      | .error err => .error err
      | .ok content =>
        .ok ((Fields unicodeFields content).foldl
          (fun codes word =>
            let cleaned := ToUpper unicodeUpper (Trim word trimCutset)
            if decide (cleaned.length ≥ 8) && decide (cleaned.length ≤ 10)
                && models.isAlphanumeric cleaned then
              insert cleaned codes
            else codes)
          ∅)

/-! ## Package `strconv` and `utils.IsValidID` -/

/-- The two errors of package `strconv`: `ErrSyntax` and `ErrRange`. -/
inductive NumErr where
  | invalid : NumErr
  | outOfRange : NumErr
deriving DecidableEq

/-- The size of `int` in bits (`strconv.IntSize`) on the 64-bit platforms the
service is built for. -/
def intSize : Nat := 64

/-- The conversion `int64(n)`: wrap into the signed 64-bit range. -/
def int64 (n : Int) : Int := (n + 2 ^ 63) % 2 ^ 64 - 2 ^ 63

/-- The constant `maxUint64` of package `strconv`. -/
def maxUint64 : Nat := 2 ^ 64 - 1

/-- The digit loop of `strconv.ParseUint(s, 10, 0)` from the accumulator `n`,
with `cutoff = maxUint64/10 + 1` and `maxVal = 1<<IntSize - 1`: a byte that is
not a decimal digit is a syntax error; `n >= cutoff` and an overflowing
`n*10 + d` are range errors, returned with `maxVal`. -/
def ParseUint.loop : GoString → Nat → Nat × Option NumErr
  | [], n => (n, none)
  | c :: rest, n =>
    if 48 ≤ c ∧ c ≤ 57 then
      let d := c - 48
      if n ≥ maxUint64 / 10 + 1 then (2 ^ intSize - 1, some .outOfRange)
      else
        let n := n * 10 % 2 ^ 64
        let n1 := (n + d) % 2 ^ 64
        if n1 < n ∨ n1 > 2 ^ intSize - 1 then (2 ^ intSize - 1, some .outOfRange)
        else ParseUint.loop rest n1
    else (0, some .invalid)

/-- The library function `strconv.ParseUint(s, 10, 0)`. -/
def ParseUint (s : GoString) : Nat × Option NumErr :=
  if s = [] then (0, some .invalid) else ParseUint.loop s 0

/-- The library function `strconv.ParseInt(s, 10, 0)`: an optional sign, then
`ParseUint`, then the range check against `1 << (IntSize-1)`. -/
def ParseInt (s : GoString) : Int × Option NumErr :=
  match s with
  | [] => (0, some .invalid)
  | c :: rest =>
    let neg := decide (c = 45)
    let s := if c = 43 ∨ c = 45 then rest else c :: rest
    let (un, err) := ParseUint s
    if err = some .invalid then (0, some .invalid)
    else
      let cutoff : Nat := 2 ^ (intSize - 1)
      if !neg ∧ un ≥ cutoff then ((cutoff : Int) - 1, some .outOfRange)
      else if neg ∧ un > cutoff then (-(cutoff : Int), some .outOfRange)
      else
        let n := int64 un
        (if neg then int64 (-n) else n, none)

/-- The digit loop of the fast path of `strconv.Atoi`: `ch -= '0'` on a byte,
then `ch > 9` is a syntax error. -/
def Atoi.loop : GoString → Int → Int × Option NumErr
  | [], n => (n, none)
  | ch :: rest, n =>
    let ch := (ch + 256 - 48) % 256
    if ch > 9 then (0, some .invalid) else Atoi.loop rest (n * 10 + ch)

/-- The library function `strconv.Atoi`: short strings (1 to 18 bytes when
`int` has 64 bits) take the fast path, all others `ParseInt(s, 10, 0)`. -/
def Atoi (s : GoString) : Int × Option NumErr :=
  if (intSize = 32 ∧ (0 < s.length ∧ s.length < 10)) ∨
      (intSize = 64 ∧ (0 < s.length ∧ s.length < 19)) then
    match s with
    | [] => (0, some .invalid)
    | c :: rest =>
      if (c = 45 ∨ c = 43) ∧ rest.length < 1 then (0, some .invalid)
      else
        let (n, err) := Atoi.loop (if c = 45 ∨ c = 43 then rest else c :: rest) 0
        if err ≠ none then (0, err)
        else (if c = 45 then -n else n, none)
  else ParseInt s

/-- The function `IsValidID` of package `utils`. -/
def IsValidID (id : GoString) : Bool :=
  if id = [] then false
  else if (Atoi id).2 ≠ none then false
  else true

/-! ## Package `models` -/

/-- The struct `Product`.  `Price` is the decimal literal in hundredths; the
program only passes the value on. -/
structure Product where
  ID : GoString
  Name : String
  Price : Nat
  Category : String
deriving DecidableEq

/-- The struct `OrderItem`. -/
structure OrderItem where
  ProductID : GoString
  Quantity : Int
deriving DecidableEq

/-- The struct `OrderRequest`. -/
structure OrderRequest where
  CouponCode : GoString
  Items : List OrderItem
deriving DecidableEq

/-- The struct `Order`. -/
structure Order where
  ID : GoString
  Items : List OrderItem
  Products : List Product
deriving DecidableEq

/-- The struct `APIResponse`. -/
structure APIResponse where
  Code : Int
  Type' : String
  Message : GoString
deriving DecidableEq

/-- The struct `PromoServiceStatus`. -/
structure PromoServiceStatus where
  Status : String
  DataSource : String
  CodesLoaded : Int
  IsFullyLoaded : Bool
  LastError : String
deriving DecidableEq

/-- The struct `HealthResponse`. -/
structure HealthResponse where
  Status : String
  Service : String
  PromoCodes : Int
  PromoStatus : PromoServiceStatus
deriving DecidableEq

/-! ## The HTTP layer -/

/-- The value a handler passes to `c.JSON`. -/
inductive JSONBody where
  | apiResponse : APIResponse → JSONBody
  | product : Product → JSONBody
  | order : Order → JSONBody
  | health : HealthResponse → JSONBody
deriving DecidableEq

/-- What a handler reads from the request through `echo.Context`. -/
structure Request where
  /-- The result of `c.Request().Header.Get(name)`: the empty string when the
  header is missing. -/
  header : String → String
  /-- The result of `c.Param(name)`. -/
  param : String → GoString
  /-- The outcome of `c.Bind(&orderReq)`. -/
  bind : Except String OrderRequest

/-- An `echo.Context`: the request and the response written so far. -/
structure Context where
  request : Request
  status : Option Nat
  body : Option JSONBody

/-- An `echo.HandlerFunc`: the context it leaves and the error it returns. -/
abbrev HandlerFunc := Context → Context × Option String

/-- The method `c.JSON(code, body)`: write the status and the body, return a
nil error. -/
def Context.JSON (c : Context) (code : Nat) (body : JSONBody) : Context × Option String :=
  ({ c with status := some code, body := some body }, none)

/-- The middleware `APIKeyAuth`. -/
def APIKeyAuth (next : HandlerFunc) : HandlerFunc := fun c =>
  let apiKey := c.request.header "api_key"
  if apiKey ≠ "apitest" then
    c.JSON 401 (.apiResponse
      { Code := 401, Type' := "error", Message := str "Invalid or missing API key" })
  else next c

/-! ## Package `handlers`: products -/

/-- The catalog of `NewProductHandler`. -/
def products : List Product :=
  [{ ID := str "1", Name := "Chicken Waffle", Price := 1299, Category := "Waffle" },
   { ID := str "2", Name := "Belgian Waffle", Price := 1099, Category := "Waffle" },
   { ID := str "3", Name := "Pancake Stack", Price := 899, Category := "Pancake" },
   { ID := str "4", Name := "Avocado Toast", Price := 999, Category := "Toast" },
   { ID := str "5", Name := "Caesar Salad", Price := 1199, Category := "Salad" },
   { ID := str "6", Name := "Burger Deluxe", Price := 1499, Category := "Burger" },
   { ID := str "7", Name := "Fish & Chips", Price := 1399, Category := "Main" },
   { ID := str "8", Name := "Chocolate Cake", Price := 699, Category := "Dessert" }]

/-- The search loop of `GetProductByID` and `GetProduct` over a product
slice: the first product whose ID is `id`. -/
def findProduct : List Product → GoString → Option Product
  | [], _ => none
  | product :: rest, id => if product.ID = id then some product else findProduct rest id

/-- The method `GetProductByID`: the product (behind the returned pointer) and
the flag; `(nil, false)` is `(none, false)`. -/
def GetProductByID (id : GoString) : Option Product × Bool :=
  match findProduct products id with
  | some product => (some product, true)
  | none => (none, false)

/-- The method `GetProduct`. -/
def GetProduct : HandlerFunc := fun c =>
  let productID := c.request.param "productId"
  if !IsValidID productID then
    c.JSON 400 (.apiResponse
      { Code := 400, Type' := "error", Message := str "Invalid product ID format" })
  else
    match findProduct products productID with
    | some product => c.JSON 200 (.product product)
    | none =>
      c.JSON 404 (.apiResponse
        { Code := 404, Type' := "error", Message := str "Product not found" })

/-! ## Package `handlers`: health -/

/-- The variable `response` of `Health` when it is passed to `c.JSON`, for the
promo service state `p`. -/
def Health.response (p : PromoCodeService) : HealthResponse :=
  let promoStatus := GetServiceStatus p
  let response : HealthResponse :=
    { Status := "healthy"
      Service := "github.com/ilyulev/kart-challenge/backend-api"
      PromoCodes := promoStatus.CodesLoaded
      PromoStatus :=
        { Status := promoStatus.Status
          DataSource := promoStatus.DataSource
          CodesLoaded := promoStatus.CodesLoaded
          IsFullyLoaded := promoStatus.IsFullyLoaded
          LastError := promoStatus.LastError } }
  if promoStatus.CodesLoaded = 0 then { response with Status := "starting" }
  else if !promoStatus.IsFullyLoaded ∧ promoStatus.LastError ≠ "" then
    { response with Status := "degraded" }
  else response

/-- The method `Health` of `HealthHandler` for the promo service state `p`:
`httpStatus` is `http.StatusOK` on every path. -/
def Health (p : PromoCodeService) : HandlerFunc := fun c =>
  c.JSON 200 (.health (Health.response p))

/-! ## Package `handlers`: orders -/

/-- The clock reading that `generateOrderID` formats: the fields of
`time.Now()` in their ranges. -/
structure ClockTime where
  year : Nat
  month : Fin 13
  day : Fin 32
  hour : Fin 24
  minute : Fin 60
  second : Fin 60

/-- The digits of `x`, least significant first (at least one digit). -/
def revDigits : Nat → Nat → GoString
  | 0, _ => []
  | fuel + 1, x => (48 + x % 10) :: (if x / 10 = 0 then [] else revDigits fuel (x / 10))

/-- The function `appendInt(b, x, width)` of package `time` for `x >= 0`: the
decimal digits of `x`, zero-padded on the left to `width`. -/
def appendInt (x width : Nat) : GoString :=
  let digits := (revDigits (x + 1) x).reverse
  List.replicate (width - digits.length) 48 ++ digits

/-- The call `time.Now().Format("060102-150405")`: two-digit year, month, day,
a dash, then hour, minute and second. -/
def formatTimestamp (t : ClockTime) : GoString :=
  appendInt (t.year % 100) 2 ++ appendInt t.month 2 ++ appendInt t.day 2 ++ str "-"
    ++ appendInt t.hour 2 ++ appendInt t.minute 2 ++ appendInt t.second 2

/-- The table `hextable` of package `encoding/hex`. -/
def hextable : GoString := str "0123456789abcdef"

/-- The library function `hex.EncodeToString`: two table entries per byte. -/
def hexEncodeToString : List (Fin 256) → GoString
  | [] => []
  | v :: rest => hextable.getD (v.val / 16) 0 :: hextable.getD (v.val % 16) 0
      :: hexEncodeToString rest

/-- The outcome of `rand.Read(randomBytes)` on the 4-byte buffer. -/
inductive RandomRead where
  | failed : String → RandomRead
  | filled : Fin 256 → Fin 256 → Fin 256 → Fin 256 → RandomRead

/-- The method `generateOrderID`. -/
def generateOrderID (unicodeUpper : GoString → GoString) (now : ClockTime)
    (random : RandomRead) : GoString :=
  let timestamp := formatTimestamp now
  match random with
  | .failed _ => str "ORD-" ++ timestamp ++ str "-FALLBACK"
  | .filled b0 b1 b2 b3 =>
    let randomHex := hexEncodeToString [b0, b1, b2, b3]
    str "ORD-" ++ timestamp ++ str "-" ++ ToUpper unicodeUpper randomHex

/-- The item loop of `validateOrderRequest`. -/
def validateOrderRequest.loop : List OrderItem → Option GoString
  | [] => none
  | item :: rest =>
    if item.ProductID = [] then some (str "productId is required for all items")
    else if item.Quantity ≤ 0 then some (str "quantity must be greater than 0")
    else if !IsValidID item.ProductID then
      some (str "invalid productId format: " ++ item.ProductID)
    else validateOrderRequest.loop rest

/-- The method `validateOrderRequest`. -/
def validateOrderRequest (orderReq : OrderRequest) : Option GoString :=
  if orderReq.Items.length = 0 then some (str "order must contain at least one item")
  else validateOrderRequest.loop orderReq.Items

/-- The loop of `validateAndCollectProducts` from the products collected so
far.  The pointer is dereferenced only when `exists` is true, where it is not
nil. -/
def validateAndCollectProducts.loop :
    List OrderItem → List Product → Except GoString (List Product)
  | [], orderProducts => .ok orderProducts
  | item :: rest, orderProducts =>
    let (product, found) := GetProductByID item.ProductID
    if !found then .error (str "product with ID " ++ item.ProductID ++ str " not found")
    else
      match product with
      | some product => validateAndCollectProducts.loop rest (orderProducts ++ [product])
      | none => .error (str "invalid memory address or nil pointer dereference")

/-- The method `validateAndCollectProducts`. -/
def validateAndCollectProducts (items : List OrderItem) : Except GoString (List Product) :=
  validateAndCollectProducts.loop items []

/-- The method `PlaceOrder` for the promo service state `p`, the clock reading
and the outcome of the random read. -/
def PlaceOrder (unicodeUpper : GoString → GoString) (p : PromoCodeService)
    (now : ClockTime) (random : RandomRead) : HandlerFunc := fun c =>
  match c.request.bind with
  | .error _ =>
    c.JSON 400 (.apiResponse
      { Code := 400, Type' := "error", Message := str "Invalid request body" })
  | .ok orderReq =>
    match validateOrderRequest orderReq with
    | some err => c.JSON 422 (.apiResponse { Code := 422, Type' := "error", Message := err })
    | none =>
      match validateAndCollectProducts orderReq.Items with
      | .error err => c.JSON 422 (.apiResponse { Code := 422, Type' := "error", Message := err })
      | .ok orderProducts =>
        if orderReq.CouponCode ≠ [] ∧ !IsValidPromoCode unicodeUpper p orderReq.CouponCode then
          c.JSON 422 (.apiResponse
            { Code := 422, Type' := "error", Message := str "Invalid promo code" })
        else
          let orderID := generateOrderID unicodeUpper now random
          let order : Order :=
            { ID := orderID, Items := orderReq.Items, Products := orderProducts }
          c.JSON 200 (.order order)

/-! ## Requests of the scenarios -/

/-- A context for a request with the given `api_key` header, `productId`
parameter and bind outcome, before any response is written. -/
def newContext (apiKey : String) (productId : GoString) (bind : Except String OrderRequest) :
    Context :=
  { request :=
      { header := fun name => if name = "api_key" then apiKey else ""
        param := fun name => if name = "productId" then productId else []
        bind := bind }
    status := none
    body := none }

/-- A handler that answers 200 with the first catalog product. -/
def okHandler : HandlerFunc := fun c =>
  c.JSON 200 (.product
    { ID := str "1", Name := "Chicken Waffle", Price := 1299, Category := "Waffle" })

/-! ## Specification-side notions -/

/-- The tally of the specification: the number of entries of `fileCodes` that
contain `c`. -/
def tally (fileCodes : List CodeSet) (c : GoString) : Nat :=
  fileCodes.countP (fun m => decide (c ∈ m))

/-- The candidate sets of the sources whose download succeeded, in the order
of `urls`. -/
def successfulSets (env : RefreshEnv) : List CodeSet :=
  urls.filterMap (fun url =>
    match env.download url with
    | .ok codes => some codes
    | .error _ => none)

/-- The candidate set stored for a URL: its codes, or the nil map. -/
def storedSet (env : RefreshEnv) (url : String) : CodeSet :=
  match env.download url with
  | .ok codes => codes
  | .error _ => ∅

/-- The set `newValidCodes` that the consensus step of a cycle builds from the
result of the download loop. -/
def cycleValidCodes (env : RefreshEnv) : CodeSet :=
  buildValidCodes (countOccurrences (downloadAll env).1) (minOccurrences (downloadAll env).2)

/-- The trimming in the words of the specification: `s` without its longest
prefix and without its longest suffix made of cutset bytes. -/
def trimSpec (s : GoString) : GoString :=
  (s.dropWhile (fun c => decide (c ∈ trimCutset))).rdropWhile (fun c => decide (c ∈ trimCutset))

/-- The string `t` neither begins nor ends with a cutset byte. -/
def edgesClean (t : GoString) : Bool :=
  (match t.head? with
    | some c => !decide (c ∈ trimCutset)
    | none => true) &&
  (match t.getLast? with
    | some c => !decide (c ∈ trimCutset)
    | none => true)

/-! ## Scenario data -/

/-- A cycle in which every download fails. -/
def envAllFail : RefreshEnv :=
  { mkdirTemp := .ok (), download := fun _ => .error "connection refused" }

/-- The scenario of the specification: source A yields `CODE1234`, `ABCDEFGH`,
source B yields `CODE1234`, `ZZZZZZZZ`, source C fails. -/
def envScenario : RefreshEnv :=
  { mkdirTemp := .ok ()
    download := fun url =>
      if url = "https://orderfoodonline-files.s3.ap-southeast-2.amazonaws.com/couponbase1.gz" then
        .ok {str "CODE1234", str "ABCDEFGH"}
      else if url = "https://orderfoodonline-files.s3.ap-southeast-2.amazonaws.com/couponbase2.gz" then
        .ok {str "CODE1234", str "ZZZZZZZZ"}
      else .error "connection refused" }

/-- A cycle in which only the first source succeeds. -/
def envSingle : RefreshEnv :=
  { mkdirTemp := .ok ()
    download := fun url =>
      if url = "https://orderfoodonline-files.s3.ap-southeast-2.amazonaws.com/couponbase1.gz" then
        .ok {str "SAVE20OFF", str "CODE1234"}
      else .error "connection refused" }

/-- A cycle in which two sources succeed and share no code. -/
def envDisjoint : RefreshEnv :=
  { mkdirTemp := .ok ()
    download := fun url =>
      if url = "https://orderfoodonline-files.s3.ap-southeast-2.amazonaws.com/couponbase1.gz" then
        .ok {str "ABCDEFGH"}
      else if url = "https://orderfoodonline-files.s3.ap-southeast-2.amazonaws.com/couponbase2.gz" then
        .ok {str "ZZZZZZZZ"}
      else .error "connection refused" }

/-- A gzip file that opens and whose reader delivers `text` in one read that
also reports `io.EOF`. -/
def singleRead (text : GoString) : GzipFile :=
  { openFile := .ok (), newReader := .ok (), reads := [], lastData := text, lastErr := none }

/-- A gzip file that opens and whose reader delivers `text` in one read with a
nil error and then reports `io.EOF` with no bytes. -/
def singleReadThenEOF (text : GoString) : GzipFile :=
  { openFile := .ok (), newReader := .ok (), reads := [text], lastData := [], lastErr := none }

/-- A gzip file with the text `CODE1234` that the reader delivers in two reads,
`CODE` and `1234`, before `io.EOF`. -/
def fileSplitCode : GzipFile :=
  { openFile := .ok (), newReader := .ok (), reads := [str "CODE", str "1234"],
    lastData := [], lastErr := none }

/-- A gzip file with the 16-byte text `ABCDEFGHIJKLMNOP` that the reader
delivers in two reads of 8 bytes before `io.EOF`. -/
def fileSplitLong : GzipFile :=
  { openFile := .ok (), newReader := .ok (), reads := [str "ABCDEFGH", str "IJKLMNOP"],
    lastData := [], lastErr := none }

/-- A download of package `models` that succeeds with the given content. -/
def couponContent (content : GoString) : CouponDownload :=
  { httpGet := .ok (), newReader := .ok (), readAll := .ok content }

/-- The `k` low decimal digits of `i` as bytes, least significant first. -/
def decimalDigits : Nat → Nat → GoString
  | 0, _ => []
  | k + 1, i => (48 + i % 10) :: decimalDigits k (i / 10)

/-- The ten-digit decimal code of `i`, most significant digit first. -/
def decimalCode (i : Nat) : GoString := (decimalDigits 10 i).reverse

/-- The candidate set of the codes `0000000000` to `2147483647`. -/
def bigSnapshot : CodeSet := (Finset.range (2 ^ 31)).image decimalCode

/-- A cycle in which only the first source succeeds, with `bigSnapshot`. -/
def envBig : RefreshEnv :=
  { mkdirTemp := .ok ()
    download := fun url =>
      if url = "https://orderfoodonline-files.s3.ap-southeast-2.amazonaws.com/couponbase1.gz" then
        .ok bigSnapshot
      else .error "connection refused" }

/-! ## Specification-side notions of the handlers -/

/-- The character class `\d` of the order ID pattern. -/
def isDigitByte (c : Nat) : Bool := decide (48 ≤ c) && decide (c ≤ 57)

/-- The character class `[A-F0-9]` of the order ID pattern. -/
def isUpperHexByte (c : Nat) : Bool :=
  (decide (65 ≤ c) && decide (c ≤ 70)) || (decide (48 ≤ c) && decide (c ≤ 57))

/-- The pattern `^ORD-\d{6}-\d{6}-[A-F0-9]{8}$` of the order ID test: `ORD-`,
six digits, a dash, six digits, a dash and eight characters of `[A-F0-9]`. -/
def matchesOrderIDFormat (s : GoString) : Bool :=
  decide (s.length = 26) && decide (s.take 4 = str "ORD-") &&
  ((s.drop 4).take 6).all isDigitByte && decide ((s.drop 10).take 1 = str "-") &&
  ((s.drop 11).take 6).all isDigitByte && decide ((s.drop 17).take 1 = str "-") &&
  (s.drop 18).all isUpperHexByte

/-- The number that a string of decimal digits denotes, continuing from `n`. -/
def digitsValue (s : GoString) (n : Nat) : Nat :=
  s.foldl (fun n c => n * 10 + (c - 48)) n

/-- The number that a string of decimal digits denotes. -/
def decimalValue (s : GoString) : Nat := digitsValue s 0

/-- A decimal integer literal that fits `int`: an optional sign `+` or `-`
followed by at least one decimal digit, whose value is below 2^63, or equal to
2^63 after the sign `-`. -/
def isIntLiteral (id : GoString) : Bool :=
  match id with
  | [] => false
  | c :: rest =>
    let digits := if c = 43 ∨ c = 45 then rest else c :: rest
    !digits.isEmpty && digits.all isDigitByte &&
      (decide (decimalValue digits < 2 ^ 63) ||
        (decide (c = 45) && decide (decimalValue digits = 2 ^ 63)))

/-! ## Scenario data of the handlers -/

/-- A clock reading of the scenarios: 4 November 2026, 09:05:59. -/
def sampleTime : ClockTime :=
  { year := 2026, month := 11, day := 4, hour := 9, minute := 5, second := 59 }

/-- The state after a cycle that commits `bigSnapshot` and a second cycle in
which every download fails. -/
def stateBigThenFailed : PromoCodeService :=
  downloadCodesAsync envAllFail (downloadCodesAsync envBig NewPromoCodeService)

/-! ## The points of a refresh cycle -/

/-- The states of the service after each write of `replaceWithRealCodes`, in
program order, and the error it returns: the map is assigned under
`codesMutex` (promo.go:242-244), then the counter is stored (promo.go:247).
No state is written when the consensus set is empty. -/
def replaceWithRealCodes.points (p : PromoCodeService) (fileCodes : List CodeSet)
    (successCount : Int) : List PromoCodeService × Option String :=
  let codeCount := countOccurrences fileCodes
  let newValidCodes := buildValidCodes codeCount (minOccurrences successCount)
  if newValidCodes.card = 0 then
    ([], some "no valid codes found")
  else
    let p1 := { p with validCodes := newValidCodes }
    let p2 := { p1 with codesCount := int32 newValidCodes.card }
    ([p1, p2], none)

/-- The states of the service that a query running concurrently with one run
of `downloadCodesAsync` can find: the state before the cycle and the state
after each of its synchronised writes, in program order (the flag store of
promo.go:62, the error store of promo.go:66, the writes of
`replaceWithRealCodes` or of `setLoadError`, the flag store of promo.go:114). -/
def downloadCodesAsync.points (env : RefreshEnv) (p : PromoCodeService) :
    List PromoCodeService :=
  let p1 := { p with isLoaded := 0 }
  let p2 := { p1 with loadError := none }
  match env.mkdirTemp with
  | .error err => [p, p1, p2, setLoadError p2 ("failed to create temp directory: " ++ err)]
  | .ok _ =>
    let (fileCodes, successCount) := downloadAll env
    if successCount = 0 then
      [p, p1, p2, setLoadError p2 "background download failed: no coupon files processed"]
    else
      match replaceWithRealCodes.points p2 fileCodes successCount with
      | (states, some err) =>
        [p, p1, p2] ++ states ++
          [setLoadError (states.getLastD p2) ("background processing failed: " ++ err)]
      | (states, none) =>
        [p, p1, p2] ++ states ++ [{ states.getLastD p2 with isLoaded := 1 }]

/-- The three queries answer in state `q` what they answer in state `s`:
`IsValidPromoCode` for every code, `GetValidCodesCount`, and the fields
`CodesLoaded`, `IsFullyLoaded` and `DataSource` of `GetServiceStatus`. -/
def sameAnswers (unicodeUpper : GoString → GoString) (q s : PromoCodeService) : Prop :=
  (∀ code, IsValidPromoCode unicodeUpper q code = IsValidPromoCode unicodeUpper s code) ∧
  GetValidCodesCount q = GetValidCodesCount s ∧
  (GetServiceStatus q).CodesLoaded = (GetServiceStatus s).CodesLoaded ∧
  (GetServiceStatus q).IsFullyLoaded = (GetServiceStatus s).IsFullyLoaded ∧
  (GetServiceStatus q).DataSource = (GetServiceStatus s).DataSource

/-- The state of a seeded service between the map swap and the counter store
of a cycle that commits `CODE1234`. -/
def stateAfterSwap : PromoCodeService :=
  { validCodes := {str "CODE1234"}, isLoaded := 0, loadError := none, codesCount := 15 }

/-! ## Lemmas on the consensus step -/

theorem foldl_add_val (fileCodes : List CodeSet) (acc : Multiset GoString) :
    fileCodes.foldl (fun codeCount fileCodeMap => codeCount + fileCodeMap.val) acc
      = acc + (fileCodes.map Finset.val).sum := by
  induction fileCodes generalizing acc with
  | nil => simp
  | cons m rest ih => simp [ih, add_assoc]

theorem count_val (m : CodeSet) (c : GoString) :
    m.val.count c = if c ∈ m then 1 else 0 := by
  split
  · next h => exact Multiset.count_eq_one_of_mem m.nodup h
  · next h => exact Multiset.count_eq_zero_of_not_mem h

theorem count_countOccurrences (fileCodes : List CodeSet) (c : GoString) :
    (countOccurrences fileCodes).count c = tally fileCodes c := by
  unfold countOccurrences tally
  rw [foldl_add_val]
  induction fileCodes with
  | nil => simp
  | cons m rest ih =>
    simp only [List.map_cons, List.sum_cons, Multiset.count_add, zero_add] at ih ⊢
    rw [ih, count_val, List.countP_cons]
    by_cases h : c ∈ m <;> simp [h, add_comm]

theorem minOccurrences_pos (successCount : Int) : 1 ≤ minOccurrences successCount := by
  unfold minOccurrences
  split <;> decide

theorem mem_buildValidCodes (fileCodes : List CodeSet) (successCount : Int) (c : GoString) :
    c ∈ buildValidCodes (countOccurrences fileCodes) (minOccurrences successCount)
      ↔ minOccurrences successCount ≤ tally fileCodes c := by
  unfold buildValidCodes
  rw [Finset.mem_filter, Multiset.mem_toFinset, count_countOccurrences]
  constructor
  · exact fun h => h.2
  · intro h
    refine ⟨?_, h⟩
    rw [← Multiset.count_pos, count_countOccurrences]
    exact lt_of_lt_of_le (minOccurrences_pos successCount) h

theorem replaceWithRealCodes_error_iff (p : PromoCodeService) (fileCodes : List CodeSet)
    (successCount : Int) :
    (replaceWithRealCodes p fileCodes successCount).2 ≠ none
      ↔ buildValidCodes (countOccurrences fileCodes) (minOccurrences successCount) = ∅ := by
  unfold replaceWithRealCodes
  simp only [Finset.card_eq_zero]
  split <;> simp_all

/-! ## C1 -/

/-- C1: for every list `fileCodes` and every `successCount >= 1`, the count
kept by `replaceWithRealCodes` for a code is the number of entries of
`fileCodes` containing it, the threshold is 1 exactly when `successCount` is 1
and 2 exactly when it is at least 2, a successful call commits exactly the
codes whose tally reaches the threshold, and the call returns an error exactly
when no code does. -/
theorem replaceWithRealCodes_quorum (p : PromoCodeService) (fileCodes : List CodeSet)
    (successCount : Int) (hs : 1 ≤ successCount) :
    (∀ c, (countOccurrences fileCodes).count c = tally fileCodes c) ∧
    (minOccurrences successCount = 1 ↔ successCount = 1) ∧
    (minOccurrences successCount = 2 ↔ 2 ≤ successCount) ∧
    ((replaceWithRealCodes p fileCodes successCount).2 = none →
      ∀ c, c ∈ (replaceWithRealCodes p fileCodes successCount).1.validCodes
        ↔ minOccurrences successCount ≤ tally fileCodes c) ∧
    ((replaceWithRealCodes p fileCodes successCount).2 ≠ none
      ↔ ∀ c, ¬ minOccurrences successCount ≤ tally fileCodes c) := by
  refine ⟨count_countOccurrences fileCodes, ?_, ?_, ?_, ?_⟩
  · unfold minOccurrences
    split <;> simp_all
  · unfold minOccurrences
    split
    · next h => subst h; simp
    · next h => simp; omega
  · intro hok c
    rw [← mem_buildValidCodes]
    have hne : ¬ buildValidCodes (countOccurrences fileCodes) (minOccurrences successCount) = ∅ := by
      rw [← replaceWithRealCodes_error_iff p]
      simp [hok]
    unfold replaceWithRealCodes
    simp only [Finset.card_eq_zero]
    rw [if_neg hne]
  · rw [replaceWithRealCodes_error_iff, Finset.eq_empty_iff_forall_not_mem]
    exact forall_congr' fun c => not_congr (mem_buildValidCodes fileCodes successCount c)

/-- Witness for C1: the scenario lists with two successes. -/
theorem replaceWithRealCodes_quorum_witness :
    (1 : Int) ≤ 2 ∧
    (∀ c, c ∈ (replaceWithRealCodes NewPromoCodeService
          [{str "CODE1234", str "ABCDEFGH"}, {str "CODE1234", str "ZZZZZZZZ"}, ∅] 2).1.validCodes
        ↔ minOccurrences 2 ≤
          tally [{str "CODE1234", str "ABCDEFGH"}, {str "CODE1234", str "ZZZZZZZZ"}, ∅] c) :=
  ⟨by decide,
   (replaceWithRealCodes_quorum NewPromoCodeService
      [{str "CODE1234", str "ABCDEFGH"}, {str "CODE1234", str "ZZZZZZZZ"}, ∅] 2
      (by decide)).2.2.2.1 (by decide)⟩

/-! ## Lemmas on the refresh cycle -/

theorem downloadAll_fst (env : RefreshEnv) :
    (downloadAll env).1 = urls.map (storedSet env) := by
  unfold downloadAll storedSet urls
  simp only [List.enum, List.enumFrom, List.foldl, List.length, List.replicate, List.map]
  split <;> split <;> split <;> simp_all [List.set]

theorem downloadAll_snd (env : RefreshEnv) :
    (downloadAll env).2 = (successfulSets env).length := by
  unfold downloadAll successfulSets urls
  simp only [List.enum, List.enumFrom, List.foldl, List.length, List.replicate, List.filterMap]
  split <;> split <;> split <;> simp_all

theorem tally_downloadAll (env : RefreshEnv) (c : GoString) :
    tally (downloadAll env).1 c = tally (successfulSets env) c := by
  rw [downloadAll_fst]
  unfold tally successfulSets storedSet urls
  simp only [List.map, List.filterMap]
  split <;> split <;> split <;> simp_all [List.countP_cons]

theorem mem_cycleValidCodes (env : RefreshEnv) (c : GoString) :
    c ∈ cycleValidCodes env
      ↔ minOccurrences (successfulSets env).length ≤ tally (successfulSets env) c := by
  unfold cycleValidCodes
  rw [mem_buildValidCodes, tally_downloadAll, downloadAll_snd]

/-- A cycle whose temporary directory was created: the three ways it ends. -/
theorem downloadCodesAsync_of_tempDir (env : RefreshEnv) (p : PromoCodeService)
    (hdir : env.mkdirTemp = .ok ()) :
    downloadCodesAsync env p =
      if (successfulSets env).length = 0 then
        { p with isLoaded := 0,
                 loadError := some "background download failed: no coupon files processed" }
      else if cycleValidCodes env = ∅ then
        { p with isLoaded := 0,
                 loadError := some "background processing failed: no valid codes found" }
      else
        { validCodes := cycleValidCodes env, isLoaded := 1, loadError := none,
          codesCount := int32 (cycleValidCodes env).card } := by
  unfold downloadCodesAsync
  simp only [hdir, setLoadError]
  have hsnd := downloadAll_snd env
  by_cases h0 : (successfulSets env).length = 0
  · have : (downloadAll env).2 = 0 := by rw [hsnd, h0]; rfl
    simp [h0, this]
  · have : ¬ (downloadAll env).2 = 0 := by rw [hsnd]; exact_mod_cast h0
    simp only [h0, this, if_false]
    unfold replaceWithRealCodes
    simp only [Finset.card_eq_zero]
    by_cases he : cycleValidCodes env = ∅
    · have he' := he
      unfold cycleValidCodes at he'
      simp [he, he']
    · have he' := he
      unfold cycleValidCodes at he'
      simp only [he, he', if_false]
      rfl

/-- A cycle that ends with the flag at 1 has committed its consensus set. -/
theorem downloadCodesAsync_committed (env : RefreshEnv) (p : PromoCodeService)
    (h : (downloadCodesAsync env p).isLoaded = 1) :
    (downloadCodesAsync env p).validCodes = cycleValidCodes env ∧
    (downloadCodesAsync env p).codesCount = int32 (cycleValidCodes env).card ∧
    (downloadCodesAsync env p).loadError = none := by
  rcases hdir : env.mkdirTemp with err | u
  · have hq : (downloadCodesAsync env p).isLoaded = 0 := by
      unfold downloadCodesAsync
      simp [hdir, setLoadError]
    rw [hq] at h
    exact absurd h (by decide)
  · rw [downloadCodesAsync_of_tempDir env p hdir] at h ⊢
    split at h
    · simp at h
    · split at h
      · simp at h
      · next h0 he => rw [if_neg h0, if_neg he]; exact ⟨rfl, rfl, rfl⟩

/-- A cycle that does not end with the flag at 1 has kept the map and the
counter, left the flag at 0 and recorded an error. -/
theorem downloadCodesAsync_failed (env : RefreshEnv) (p : PromoCodeService)
    (h : (downloadCodesAsync env p).isLoaded ≠ 1) :
    (downloadCodesAsync env p).validCodes = p.validCodes ∧
    (downloadCodesAsync env p).codesCount = p.codesCount ∧
    (downloadCodesAsync env p).isLoaded = 0 ∧
    (downloadCodesAsync env p).loadError ≠ none := by
  rcases hdir : env.mkdirTemp with err | u
  · unfold downloadCodesAsync
    simp [hdir, setLoadError]
  · rw [downloadCodesAsync_of_tempDir env p hdir] at h ⊢
    split
    · simp
    · split
      · simp
      · next h0 he =>
        rw [if_neg h0, if_neg he] at h
        exact absurd rfl h

theorem newValidCodes_envScenario : cycleValidCodes envScenario = {str "CODE1234"} := by
  decide

/-! ## C2 -/

/-- C2: in a refresh cycle with at least two successful sources, a code that
is in exactly two of the successful candidate sets is in the snapshot the cycle
commits (and the cycle does commit), while a code that is in exactly one is not
in the consensus set and so not in the snapshot the cycle commits; with
A = CODE1234, ABCDEFGH, B = CODE1234, ZZZZZZZZ and C failed the committed
snapshot is exactly CODE1234, whatever the state before. -/
theorem quorum_two_successes (p : PromoCodeService) (env : RefreshEnv) (c : GoString)
    (hdir : env.mkdirTemp = .ok ()) (h2 : 2 ≤ (successfulSets env).length) :
    (tally (successfulSets env) c = 2 →
      (downloadCodesAsync env p).isLoaded = 1 ∧ c ∈ (downloadCodesAsync env p).validCodes) ∧
    (tally (successfulSets env) c = 1 →
      c ∉ cycleValidCodes env ∧
      ((downloadCodesAsync env p).isLoaded = 1 → c ∉ (downloadCodesAsync env p).validCodes)) ∧
    (successfulSets envScenario
        = [{str "CODE1234", str "ABCDEFGH"}, {str "CODE1234", str "ZZZZZZZZ"}] ∧
      ∀ q : PromoCodeService,
        (downloadCodesAsync envScenario q).isLoaded = 1 ∧
        (downloadCodesAsync envScenario q).validCodes = {str "CODE1234"}) := by
  have hmin : minOccurrences (successfulSets env).length = 2 := by
    unfold minOccurrences
    rw [if_neg]
    omega
  have hlen : ¬ (successfulSets env).length = 0 := by omega
  rw [downloadCodesAsync_of_tempDir env p hdir, if_neg hlen]
  refine ⟨?_, ?_, by decide, ?_⟩
  · intro hc
    have hmem : c ∈ cycleValidCodes env := by
      rw [mem_cycleValidCodes, hmin, hc]
    have hne : ¬ cycleValidCodes env = ∅ := Finset.ne_empty_of_mem hmem
    rw [if_neg hne]
    exact ⟨rfl, hmem⟩
  · intro hc
    have hmem : c ∉ cycleValidCodes env := by
      rw [mem_cycleValidCodes, hmin, hc]
      decide
    refine ⟨hmem, ?_⟩
    split
    · intro h
      simp at h
    · intro _
      exact hmem
  · intro q
    rw [downloadCodesAsync_of_tempDir envScenario q rfl, newValidCodes_envScenario]
    exact ⟨rfl, rfl⟩

/-- Witness for C2: the scenario cycle on a fresh service and the code
CODE1234. -/
theorem quorum_two_successes_witness :
    envScenario.mkdirTemp = .ok () ∧ 2 ≤ (successfulSets envScenario).length ∧
    tally (successfulSets envScenario) (str "CODE1234") = 2 ∧
    (downloadCodesAsync envScenario NewPromoCodeService).isLoaded = 1 ∧
    str "CODE1234" ∈ (downloadCodesAsync envScenario NewPromoCodeService).validCodes :=
  ⟨rfl, by decide, by decide,
   (quorum_two_successes NewPromoCodeService envScenario (str "CODE1234") rfl (by decide)).1
     (by decide)⟩

theorem cycleValidCodes_single (env : RefreshEnv) (S : CodeSet)
    (hone : successfulSets env = [S]) : cycleValidCodes env = S := by
  ext c
  rw [mem_cycleValidCodes, hone]
  unfold minOccurrences tally
  by_cases h : c ∈ S <;> simp [h]

theorem GetServiceStatus_LastError (p : PromoCodeService) :
    (GetServiceStatus p).LastError = p.loadError.getD "" := by
  unfold GetServiceStatus
  dsimp only
  cases p.loadError <;> split_ifs <;> rfl

/-! ## C3 -/

/-- C3: in a refresh cycle in which exactly one source succeeds, with candidate
set `S`, the threshold is 1, every candidate of `S` is in the snapshot after
the cycle, the snapshot the cycle commits equals `S`, and the cycle commits
whenever `S` has a candidate. -/
theorem degraded_quorum_single_source (p : PromoCodeService) (env : RefreshEnv) (S : CodeSet)
    (hdir : env.mkdirTemp = .ok ()) (hone : successfulSets env = [S]) :
    minOccurrences (downloadAll env).2 = 1 ∧
    (∀ c ∈ S, c ∈ (downloadCodesAsync env p).validCodes) ∧
    ((downloadCodesAsync env p).isLoaded = 1 → (downloadCodesAsync env p).validCodes = S) ∧
    (S.Nonempty →
      (downloadCodesAsync env p).isLoaded = 1 ∧ (downloadCodesAsync env p).validCodes = S) := by
  have hS := cycleValidCodes_single env S hone
  have hlen : ¬ (successfulSets env).length = 0 := by simp [hone]
  rw [downloadCodesAsync_of_tempDir env p hdir, if_neg hlen, hS]
  refine ⟨?_, ?_, ?_, ?_⟩
  · rw [downloadAll_snd, hone]
    rfl
  · intro c hc
    rw [if_neg (Finset.ne_empty_of_mem hc)]
    exact hc
  · split
    · intro h
      simp at h
    · intro _
      rfl
  · intro hne
    rw [if_neg (Finset.nonempty_iff_ne_empty.mp hne)]
    exact ⟨rfl, rfl⟩

/-- Witness for C3: only the first source succeeds, on a seeded service. -/
theorem degraded_quorum_single_source_witness :
    envSingle.mkdirTemp = .ok () ∧
    successfulSets envSingle = [{str "SAVE20OFF", str "CODE1234"}] ∧
    (downloadCodesAsync envSingle (LoadMockPromoCodes NewPromoCodeService)).validCodes
      = {str "SAVE20OFF", str "CODE1234"} :=
  ⟨rfl, by decide,
   ((degraded_quorum_single_source (LoadMockPromoCodes NewPromoCodeService) envSingle
      {str "SAVE20OFF", str "CODE1234"} rfl (by decide)).2.2.2 (by decide)).2⟩

/-! ## C4 -/

/-- C4: a refresh cycle in which no source succeeds leaves `validCodes` and
`codesCount` as they were and leaves a non-empty `LastError`; when the cycle got
as far as the sources (its temporary directory was created) the recorded error
is the no-coupon-files-processed error. -/
theorem total_failure_keeps_snapshot (p : PromoCodeService) (env : RefreshEnv)
    (hzero : successfulSets env = []) :
    (downloadCodesAsync env p).validCodes = p.validCodes ∧
    (downloadCodesAsync env p).codesCount = p.codesCount ∧
    GetValidCodesCount (downloadCodesAsync env p) = GetValidCodesCount p ∧
    (GetServiceStatus (downloadCodesAsync env p)).LastError ≠ "" ∧
    (env.mkdirTemp = .ok () →
      (downloadCodesAsync env p).loadError
        = some "background download failed: no coupon files processed" ∧
      (GetServiceStatus (downloadCodesAsync env p)).LastError
        = "background download failed: no coupon files processed") := by
  rcases hdir : env.mkdirTemp with err | u
  · have hq : downloadCodesAsync env p
        = { p with isLoaded := 0,
                   loadError := some ("failed to create temp directory: " ++ err) } := by
      unfold downloadCodesAsync
      simp [hdir, setLoadError]
    rw [hq]
    refine ⟨rfl, rfl, rfl, ?_, ?_⟩
    · rw [GetServiceStatus_LastError]
      intro h
      have hlen := congrArg String.length h
      simp only [Option.getD_some, String.length_append] at hlen
      have h33 : "failed to create temp directory: ".length = 33 := by decide
      have h0 : "".length = 0 := by decide
      omega
    · intro h
      cases h
  · have hlen : (successfulSets env).length = 0 := by rw [hzero]; rfl
    rw [downloadCodesAsync_of_tempDir env p hdir, if_pos hlen]
    refine ⟨rfl, rfl, rfl, ?_, fun _ => ⟨rfl, ?_⟩⟩
    · rw [GetServiceStatus_LastError]
      show "background download failed: no coupon files processed" ≠ ""
      decide
    · rw [GetServiceStatus_LastError]
      rfl

/-- Witness for C4: every download fails, on a seeded service. -/
theorem total_failure_keeps_snapshot_witness :
    successfulSets envAllFail = [] ∧
    (downloadCodesAsync envAllFail (LoadMockPromoCodes NewPromoCodeService)).validCodes
      = (LoadMockPromoCodes NewPromoCodeService).validCodes ∧
    (downloadCodesAsync envAllFail (LoadMockPromoCodes NewPromoCodeService)).loadError
      = some "background download failed: no coupon files processed" :=
  ⟨by decide,
   (total_failure_keeps_snapshot (LoadMockPromoCodes NewPromoCodeService) envAllFail
      (by decide)).1,
   ((total_failure_keeps_snapshot (LoadMockPromoCodes NewPromoCodeService) envAllFail
      (by decide)).2.2.2.2 rfl).1⟩

/-! ## C5 -/

/-- C5: when `successCount > 0` and no code reaches the threshold,
`replaceWithRealCodes` returns the error "no valid codes found" and leaves
`validCodes` and `codesCount` as they were, and a refresh cycle whose download
loop produced these arguments records that error, wrapped, as `loadError`, with
`validCodes` and `codesCount` still unchanged. -/
theorem empty_consensus_preserves_snapshot (p : PromoCodeService) (fileCodes : List CodeSet)
    (successCount : Int) (hs : 0 < successCount)
    (hnone : ∀ c, tally fileCodes c < minOccurrences successCount) :
    (replaceWithRealCodes p fileCodes successCount).2 = some "no valid codes found" ∧
    (replaceWithRealCodes p fileCodes successCount).1.validCodes = p.validCodes ∧
    (replaceWithRealCodes p fileCodes successCount).1.codesCount = p.codesCount ∧
    (∀ env : RefreshEnv, env.mkdirTemp = .ok () → downloadAll env = (fileCodes, successCount) →
      (downloadCodesAsync env p).loadError
        = some "background processing failed: no valid codes found" ∧
      (GetServiceStatus (downloadCodesAsync env p)).LastError
        = "background processing failed: no valid codes found" ∧
      (downloadCodesAsync env p).validCodes = p.validCodes ∧
      (downloadCodesAsync env p).codesCount = p.codesCount) := by
  have hempty : buildValidCodes (countOccurrences fileCodes) (minOccurrences successCount) = ∅ := by
    rw [Finset.eq_empty_iff_forall_not_mem]
    intro c hc
    rw [mem_buildValidCodes] at hc
    exact absurd hc (not_le.mpr (hnone c))
  have hr : replaceWithRealCodes p fileCodes successCount = (p, some "no valid codes found") := by
    unfold replaceWithRealCodes
    simp [hempty]
  rw [hr]
  refine ⟨rfl, rfl, rfl, ?_⟩
  intro env hdir hall
  have hlen : ¬ (successfulSets env).length = 0 := by
    intro h0
    have h2 := downloadAll_snd env
    rw [hall, h0] at h2
    simp at h2
    omega
  have hcyc : cycleValidCodes env = ∅ := by
    unfold cycleValidCodes
    rw [hall]
    exact hempty
  rw [downloadCodesAsync_of_tempDir env p hdir, if_neg hlen, if_pos hcyc]
  refine ⟨rfl, ?_, rfl, rfl⟩
  rw [GetServiceStatus_LastError]
  rfl

theorem tally_envDisjoint (c : GoString) :
    tally [{str "ABCDEFGH"}, {str "ZZZZZZZZ"}, ∅] c < minOccurrences 2 := by
  have hne : str "ABCDEFGH" ≠ str "ZZZZZZZZ" := by decide
  unfold tally minOccurrences
  by_cases h1 : c = str "ABCDEFGH"
  · subst h1
    simp [List.countP_cons, hne]
  · by_cases h2 : c = str "ZZZZZZZZ"
    · subst h2
      simp [List.countP_cons, h1]
    · simp [List.countP_cons, h1, h2]

/-- Witness for C5: two successful sources without a common code, on a seeded
service. -/
theorem empty_consensus_preserves_snapshot_witness :
    (0 : Int) < 2 ∧
    (∀ c, tally [{str "ABCDEFGH"}, {str "ZZZZZZZZ"}, ∅] c < minOccurrences 2) ∧
    (replaceWithRealCodes (LoadMockPromoCodes NewPromoCodeService)
        [{str "ABCDEFGH"}, {str "ZZZZZZZZ"}, ∅] 2).2 = some "no valid codes found" ∧
    (downloadCodesAsync envDisjoint (LoadMockPromoCodes NewPromoCodeService)).loadError
      = some "background processing failed: no valid codes found" :=
  ⟨by decide, tally_envDisjoint,
   (empty_consensus_preserves_snapshot (LoadMockPromoCodes NewPromoCodeService)
      [{str "ABCDEFGH"}, {str "ZZZZZZZZ"}, ∅] 2 (by decide) tally_envDisjoint).1,
   ((empty_consensus_preserves_snapshot (LoadMockPromoCodes NewPromoCodeService)
      [{str "ABCDEFGH"}, {str "ZZZZZZZZ"}, ∅] 2 (by decide) tally_envDisjoint).2.2.2
      envDisjoint rfl (by decide)).1⟩

/-! ## C6 -/

/-- C6, evaluated at the failing input: the service is seeded and one cycle
commits the consensus snapshot CODE1234, so the status is ready / remote; a
further cycle in which every download fails keeps `validCodes` and `codesCount`
but leaves `isLoaded` at 0, and the status read afterwards is loading / mock
with `IsFullyLoaded` false. -/
theorem failed_refresh_changes_status :
    (GetServiceStatus (run NewPromoCodeService [.init, .cycle envScenario])).IsFullyLoaded
      = true ∧
    (GetServiceStatus (run NewPromoCodeService [.init, .cycle envScenario])).Status
      = "ready" ∧
    (GetServiceStatus (run NewPromoCodeService [.init, .cycle envScenario])).DataSource
      = "remote" ∧
    successfulSets envAllFail = [] ∧
    (downloadCodesAsync envAllFail
        (run NewPromoCodeService [.init, .cycle envScenario])).validCodes
      = (run NewPromoCodeService [.init, .cycle envScenario]).validCodes ∧
    (downloadCodesAsync envAllFail
        (run NewPromoCodeService [.init, .cycle envScenario])).codesCount
      = (run NewPromoCodeService [.init, .cycle envScenario]).codesCount ∧
    (GetServiceStatus (downloadCodesAsync envAllFail
        (run NewPromoCodeService [.init, .cycle envScenario]))).IsFullyLoaded = false ∧
    (GetServiceStatus (downloadCodesAsync envAllFail
        (run NewPromoCodeService [.init, .cycle envScenario]))).Status = "loading" ∧
    (GetServiceStatus (downloadCodesAsync envAllFail
        (run NewPromoCodeService [.init, .cycle envScenario]))).DataSource = "mock" := by
  decide

/-! ## C7 -/

/-- C7, evaluated at the failing input: after Initialize, a cycle that commits
the consensus snapshot CODE1234 (the flag is 1 at that point) and a second
cycle in which every download fails, the consensus snapshot is still the
current one but `isLoaded` is 0 and `IsFullyLoaded` is reported false. -/
theorem isLoaded_lost_after_failed_reload :
    (run NewPromoCodeService [.init, .cycle envScenario]).isLoaded = 1 ∧
    (run NewPromoCodeService [.init, .cycle envScenario]).validCodes
      = {str "CODE1234"} ∧
    (run NewPromoCodeService
        [.init, .cycle envScenario, .cycle envAllFail]).validCodes
      = {str "CODE1234"} ∧
    (run NewPromoCodeService
        [.init, .cycle envScenario, .cycle envAllFail]).isLoaded = 0 ∧
    (GetServiceStatus (run NewPromoCodeService
        [.init, .cycle envScenario, .cycle envAllFail])).IsFullyLoaded = false := by
  decide

/-! ## C8 -/

/-- C8, evaluated at the failing input: after Initialize, a cycle that commits
the snapshot CODE1234 and a call of `LoadMockPromoCodes`, the map holds 16
codes (the 15 seeds and CODE1234) while `GetValidCodesCount` returns 15. -/
theorem loadMock_count_mismatch :
    (run NewPromoCodeService [.init, .cycle envScenario]).validCodes.card = 1 ∧
    GetValidCodesCount (run NewPromoCodeService [.init, .cycle envScenario]) = 1 ∧
    (run NewPromoCodeService [.init, .cycle envScenario, .loadMock]).validCodes.card
      = 16 ∧
    GetValidCodesCount (run NewPromoCodeService [.init, .cycle envScenario, .loadMock])
      = 15 := by
  decide

/-! ## C9 -/

theorem mem_foldl_insert (l : List GoString) (s : CodeSet) (c : GoString) :
    c ∈ l.foldl (fun m code => insert code m) s ↔ c ∈ s ∨ c ∈ l := by
  induction l generalizing s with
  | nil => simp
  | cons a rest ih =>
    simp only [List.foldl_cons, ih, Finset.mem_insert, List.mem_cons]
    tauto

theorem LoadMockPromoCodes_nonempty (p : PromoCodeService) :
    (LoadMockPromoCodes p).validCodes.Nonempty :=
  ⟨str "HAPPYHRS", (mem_foldl_insert mockCodes p.validCodes _).mpr (Or.inr (by decide))⟩

theorem downloadCodesAsync_validCodes (env : RefreshEnv) (p : PromoCodeService) :
    (downloadCodesAsync env p).validCodes = p.validCodes ∨
    ((downloadCodesAsync env p).validCodes = cycleValidCodes env ∧
      cycleValidCodes env ≠ ∅) := by
  rcases hdir : env.mkdirTemp with err | u
  · left
    unfold downloadCodesAsync
    simp [hdir, setLoadError]
  · rw [downloadCodesAsync_of_tempDir env p hdir]
    split
    · exact Or.inl rfl
    · split
      · exact Or.inl rfl
      · next h => exact Or.inr ⟨rfl, h⟩

theorem step_nonempty (p : PromoCodeService) (e : Event) (h : p.validCodes.Nonempty) :
    (step p e).validCodes.Nonempty := by
  cases e with
  | init => exact LoadMockPromoCodes_nonempty p
  | loadMock => exact LoadMockPromoCodes_nonempty p
  | cycle env =>
    rcases downloadCodesAsync_validCodes env p with h1 | ⟨h1, h2⟩
    · show (downloadCodesAsync env p).validCodes.Nonempty
      rw [h1]
      exact h
    · show (downloadCodesAsync env p).validCodes.Nonempty
      rw [h1]
      exact Finset.nonempty_iff_ne_empty.mpr h2

theorem run_nonempty (p : PromoCodeService) (events : List Event)
    (h : p.validCodes.Nonempty) : (run p events).validCodes.Nonempty := by
  induction events generalizing p with
  | nil => exact h
  | cons e rest ih => exact ih (step p e) (step_nonempty p e h)

/-- C9: from any state, once the seeding step of Initialize has completed the
snapshot is non-empty, and it is non-empty after every later sequence of
refresh cycles, each of which may commit or fail (and after any later sequence
of events at all). -/
theorem snapshot_nonempty_after_seeding (p : PromoCodeService) (envs : List RefreshEnv)
    (events : List Event) :
    (Initialize p).1.validCodes.Nonempty ∧
    (run (Initialize p).1 (envs.map Event.cycle)).validCodes.Nonempty ∧
    (run (Initialize p).1 events).validCodes.Nonempty :=
  ⟨LoadMockPromoCodes_nonempty p,
   run_nonempty _ _ (LoadMockPromoCodes_nonempty p),
   run_nonempty _ _ (LoadMockPromoCodes_nonempty p)⟩

/-! ## C10 -/

theorem isUpperOrDigit_iff (c : Nat) :
    isUpperOrDigit c = true ↔ (65 ≤ c ∧ c ≤ 90) ∨ (48 ≤ c ∧ c ≤ 57) := by
  simp [isUpperOrDigit]

theorem loop_iff (code : GoString) :
    isValidPromoCodeFormat.loop code = true ↔ ∀ c ∈ code, isUpperOrDigit c = true := by
  induction code with
  | nil => simp [isValidPromoCodeFormat.loop]
  | cons c rest ih =>
    unfold isValidPromoCodeFormat.loop
    by_cases h : isUpperOrDigit c = true
    · simp [h, ih]
    · simp [h]

theorem isValidPromoCodeFormat_iff (code : GoString) :
    isValidPromoCodeFormat code = true ↔
      8 ≤ code.length ∧ code.length ≤ 10 ∧
      ∀ c ∈ code, (65 ≤ c ∧ c ≤ 90) ∨ (48 ≤ c ∧ c ≤ 57) := by
  unfold isValidPromoCodeFormat
  simp only [← isUpperOrDigit_iff, ← loop_iff]
  by_cases h : code.length < 8 ∨ code.length > 10
  · rw [if_pos h]
    constructor
    · intro hf
      cases hf
    · intro ⟨h8, h10, _⟩
      omega
  · rw [if_neg h]
    constructor
    · intro hl
      exact ⟨by omega, by omega, hl⟩
    · exact fun hl => hl.2.2

/-- C10: `IsValidPromoCode` returns true exactly when the uppercased code has
a length from 8 to 10, only bytes in A-Z and 0-9, and is a key of the current
snapshot; so it returns false, whatever the state, when the uppercased code has
a length outside 8..10 or a byte outside A-Z, 0-9, as for TOOLONGCODE123. -/
theorem IsValidPromoCode_iff (unicodeUpper : GoString → GoString) (p : PromoCodeService)
    (code : GoString) :
    (IsValidPromoCode unicodeUpper p code = true ↔
      (8 ≤ (ToUpper unicodeUpper code).length ∧ (ToUpper unicodeUpper code).length ≤ 10 ∧
        ∀ c ∈ ToUpper unicodeUpper code, (65 ≤ c ∧ c ≤ 90) ∨ (48 ≤ c ∧ c ≤ 57)) ∧
      ToUpper unicodeUpper code ∈ p.validCodes) ∧
    (((ToUpper unicodeUpper code).length < 8 ∨ 10 < (ToUpper unicodeUpper code).length ∨
        ∃ c ∈ ToUpper unicodeUpper code, ¬ ((65 ≤ c ∧ c ≤ 90) ∨ (48 ≤ c ∧ c ≤ 57))) →
      ∀ q : PromoCodeService, IsValidPromoCode unicodeUpper q code = false) ∧
    (ToUpper unicodeUpper (str "TOOLONGCODE123") = str "TOOLONGCODE123" ∧
      (str "TOOLONGCODE123").length = 14 ∧
      ∀ q : PromoCodeService, IsValidPromoCode unicodeUpper q (str "TOOLONGCODE123") = false) := by
  have key : ∀ (q : PromoCodeService) (s : GoString),
      IsValidPromoCode unicodeUpper q s = true ↔
        (8 ≤ (ToUpper unicodeUpper s).length ∧ (ToUpper unicodeUpper s).length ≤ 10 ∧
          ∀ c ∈ ToUpper unicodeUpper s, (65 ≤ c ∧ c ≤ 90) ∨ (48 ≤ c ∧ c ≤ 57)) ∧
        ToUpper unicodeUpper s ∈ q.validCodes := by
    intro q s
    rw [← isValidPromoCodeFormat_iff]
    unfold IsValidPromoCode
    by_cases h : isValidPromoCodeFormat (ToUpper unicodeUpper s) = true
    · simp [h]
    · simp [h]
  have hup : ToUpper unicodeUpper (str "TOOLONGCODE123") = str "TOOLONGCODE123" := by
    unfold ToUpper
    rw [if_pos (by decide)]
    decide
  refine ⟨key p code, ?_, hup, by decide, ?_⟩
  · intro hbad q
    rw [← Bool.not_eq_true, key]
    rintro ⟨⟨h8, h10, hall⟩, _⟩
    rcases hbad with h | h | ⟨c, hc, hn⟩
    · omega
    · omega
    · exact hn (hall c hc)
  · intro q
    rw [← Bool.not_eq_true, key, hup]
    rintro ⟨⟨_, h10, _⟩, _⟩
    revert h10
    decide

/-- Witness for C10: the 14-byte code of the specification, on a seeded
service and with the identity for the non-ASCII branch of `ToUpper`. -/
theorem IsValidPromoCode_iff_witness :
    10 < (ToUpper id (str "TOOLONGCODE123")).length ∧
    IsValidPromoCode id (LoadMockPromoCodes NewPromoCodeService) (str "TOOLONGCODE123")
      = false :=
  ⟨by decide,
   (IsValidPromoCode_iff id NewPromoCodeService (str "TOOLONGCODE123")).2.1
     (Or.inr (Or.inl (by decide))) (LoadMockPromoCodes NewPromoCodeService)⟩

/-! ## C11 -/

theorem asciiUpper_all_ascii (s : GoString) (h : s.all (fun c => decide (c < 128)) = true) :
    (asciiUpper s).all (fun c => decide (c < 128)) = true := by
  unfold asciiUpper
  simp only [List.all_eq_true, List.mem_map, decide_eq_true_eq] at h ⊢
  rintro c ⟨a, ha, rfl⟩
  have := h a ha
  split <;> omega

theorem asciiUpper_idem (s : GoString) : asciiUpper (asciiUpper s) = asciiUpper s := by
  unfold asciiUpper
  rw [List.map_map]
  apply List.map_congr_left
  intro c _
  simp only [Function.comp]
  split_ifs <;> omega

theorem ToUpper_of_ascii (unicodeUpper : GoString → GoString) (s : GoString)
    (h : s.all (fun c => decide (c < 128)) = true) :
    ToUpper unicodeUpper s = asciiUpper s := by
  unfold ToUpper
  rw [if_pos h]

theorem ToUpper_idem_of_ascii (unicodeUpper : GoString → GoString) (s : GoString)
    (h : s.all (fun c => decide (c < 128)) = true) :
    ToUpper unicodeUpper (ToUpper unicodeUpper s) = ToUpper unicodeUpper s := by
  rw [ToUpper_of_ascii unicodeUpper s h,
    ToUpper_of_ascii unicodeUpper _ (asciiUpper_all_ascii s h), asciiUpper_idem]

theorem IsValidPromoCode_congr (unicodeUpper : GoString → GoString) (p : PromoCodeService)
    (a b : GoString) (h : ToUpper unicodeUpper a = ToUpper unicodeUpper b) :
    IsValidPromoCode unicodeUpper p a = IsValidPromoCode unicodeUpper p b := by
  unfold IsValidPromoCode
  rw [h]

/-- C11: `IsValidPromoCode` is case-insensitive.  For a code of ASCII bytes,
`IsValidPromoCode(code)` equals `IsValidPromoCode(ToUpper(code))`; the same
holds for every code once the library function `strings.ToUpper` is idempotent
on the strings that take its Unicode branch; two codes with the same uppercase
form get the same answer; and happyhrs and FiftyOff are accepted by every state
whose snapshot contains HAPPYHRS and FIFTYOFF. -/
theorem IsValidPromoCode_case_insensitive (unicodeUpper : GoString → GoString)
    (p : PromoCodeService) (code : GoString) :
    (code.all (fun c => decide (c < 128)) = true →
      IsValidPromoCode unicodeUpper p code
        = IsValidPromoCode unicodeUpper p (ToUpper unicodeUpper code)) ∧
    ((∀ s, ToUpper unicodeUpper (ToUpper unicodeUpper s) = ToUpper unicodeUpper s) →
      IsValidPromoCode unicodeUpper p code
        = IsValidPromoCode unicodeUpper p (ToUpper unicodeUpper code)) ∧
    (∀ other, ToUpper unicodeUpper other = ToUpper unicodeUpper code →
      IsValidPromoCode unicodeUpper p other = IsValidPromoCode unicodeUpper p code) ∧
    (str "HAPPYHRS" ∈ p.validCodes → IsValidPromoCode unicodeUpper p (str "happyhrs") = true) ∧
    (str "FIFTYOFF" ∈ p.validCodes → IsValidPromoCode unicodeUpper p (str "FiftyOff") = true) := by
  refine ⟨?_, ?_, ?_, ?_, ?_⟩
  · intro h
    exact IsValidPromoCode_congr unicodeUpper p _ _ (ToUpper_idem_of_ascii unicodeUpper code h).symm
  · intro hU
    exact IsValidPromoCode_congr unicodeUpper p _ _ (hU code).symm
  · intro other h
    exact IsValidPromoCode_congr unicodeUpper p _ _ h
  · intro h
    have hup : ToUpper unicodeUpper (str "happyhrs") = str "HAPPYHRS" := by
      rw [ToUpper_of_ascii unicodeUpper _ (by decide)]
      decide
    unfold IsValidPromoCode
    rw [hup]
    have hf : isValidPromoCodeFormat (str "HAPPYHRS") = true := by decide
    simp [hf, h]
  · intro h
    have hup : ToUpper unicodeUpper (str "FiftyOff") = str "FIFTYOFF" := by
      rw [ToUpper_of_ascii unicodeUpper _ (by decide)]
      decide
    unfold IsValidPromoCode
    rw [hup]
    have hf : isValidPromoCodeFormat (str "FIFTYOFF") = true := by decide
    simp [hf, h]

theorem ToUpper_id_idem (s : GoString) : ToUpper id (ToUpper id s) = ToUpper id s := by
  by_cases h : s.all (fun c => decide (c < 128)) = true
  · exact ToUpper_idem_of_ascii id s h
  · have hs : ToUpper id s = s := by
      unfold ToUpper
      rw [if_neg h]
      rfl
    rw [hs, hs]

/-- Witness for C11: the mixed-case code FiftyOff on a seeded service, with the
identity for the Unicode branch of `ToUpper`. -/
theorem IsValidPromoCode_case_insensitive_witness :
    (∀ s, ToUpper id (ToUpper id s) = ToUpper id s) ∧
    IsValidPromoCode id (LoadMockPromoCodes NewPromoCodeService) (str "FiftyOff")
      = IsValidPromoCode id (LoadMockPromoCodes NewPromoCodeService)
          (ToUpper id (str "FiftyOff")) ∧
    IsValidPromoCode id (LoadMockPromoCodes NewPromoCodeService) (str "FiftyOff") = true :=
  ⟨ToUpper_id_idem,
   (IsValidPromoCode_case_insensitive id (LoadMockPromoCodes NewPromoCodeService)
      (str "FiftyOff")).2.1 ToUpper_id_idem,
   (IsValidPromoCode_case_insensitive id (LoadMockPromoCodes NewPromoCodeService)
      (str "FiftyOff")).2.2.2.2 (by decide)⟩

/-! ## C12 -/

/-- C12: `isValidPromoCodeFormat` returns true exactly for the strings of 8 to
10 bytes all of which are in A-Z or 0-9; a string with any other byte (a
lowercase letter, a space, a special character), the empty string and the
strings of at most 7 or at least 11 bytes are rejected, and digits-only strings
of a valid length are accepted; the rows of the test table evaluate as the test
expects. -/
theorem isValidPromoCodeFormat_spec (code : GoString) :
    (isValidPromoCodeFormat code = true ↔
      8 ≤ code.length ∧ code.length ≤ 10 ∧
      ∀ c ∈ code, (65 ≤ c ∧ c ≤ 90) ∨ (48 ≤ c ∧ c ≤ 57)) ∧
    ((∃ c ∈ code, ¬ ((65 ≤ c ∧ c ≤ 90) ∨ (48 ≤ c ∧ c ≤ 57))) →
      isValidPromoCodeFormat code = false) ∧
    (code.length ≤ 7 → isValidPromoCodeFormat code = false) ∧
    (11 ≤ code.length → isValidPromoCodeFormat code = false) ∧
    ((8 ≤ code.length ∧ code.length ≤ 10 ∧ ∀ c ∈ code, 48 ≤ c ∧ c ≤ 57) →
      isValidPromoCodeFormat code = true) ∧
    (isValidPromoCodeFormat (str "") = false ∧
     isValidPromoCodeFormat (str "12345678") = true ∧
     isValidPromoCodeFormat (str "HAPPYHRS") = true ∧
     isValidPromoCodeFormat (str "FIFTYOFF1") = true ∧
     isValidPromoCodeFormat (str "DISCOUNT10") = true ∧
     isValidPromoCodeFormat (str "SAVE20OFF") = true ∧
     isValidPromoCodeFormat (str "ABCDEFGH") = true ∧
     isValidPromoCodeFormat (str "NEWUSER") = false ∧
     isValidPromoCodeFormat (str "SHORT") = false ∧
     isValidPromoCodeFormat (str "VERYLONGCODE") = false ∧
     isValidPromoCodeFormat (str "happyhrs") = false ∧
     isValidPromoCodeFormat (str "SAVE@20%") = false ∧
     isValidPromoCodeFormat (str "SAVE 20") = false) := by
  have key := isValidPromoCodeFormat_iff code
  refine ⟨key, ?_, ?_, ?_, ?_, by decide⟩
  · rintro ⟨c, hc, hn⟩
    rw [← Bool.not_eq_true, key]
    rintro ⟨_, _, hall⟩
    exact hn (hall c hc)
  · intro h7
    rw [← Bool.not_eq_true, key]
    rintro ⟨h8, _, _⟩
    omega
  · intro h11
    rw [← Bool.not_eq_true, key]
    rintro ⟨_, h10, _⟩
    omega
  · rintro ⟨h8, h10, hall⟩
    rw [key]
    exact ⟨h8, h10, fun c hc => Or.inr (hall c hc)⟩

/-- Witness for C12: a seven-byte seed code and a code with a lowercase
letter. -/
theorem isValidPromoCodeFormat_spec_witness :
    (str "STUDENT").length ≤ 7 ∧ isValidPromoCodeFormat (str "STUDENT") = false ∧
    (∃ c ∈ str "HAPPYHRs", ¬ ((65 ≤ c ∧ c ≤ 90) ∨ (48 ≤ c ∧ c ≤ 57))) ∧
    isValidPromoCodeFormat (str "HAPPYHRs") = false :=
  ⟨by decide, (isValidPromoCodeFormat_spec (str "STUDENT")).2.2.1 (by decide),
   ⟨115, by decide, by decide⟩,
   (isValidPromoCodeFormat_spec (str "HAPPYHRs")).2.1 ⟨115, by decide, by decide⟩⟩

/-! ## Lemmas on the library functions and the extraction loop -/

theorem asciiFields_scan_spec (s cur : GoString) (hcur : ∀ c ∈ cur, asciiSpace c = false) :
    ∀ w ∈ asciiFields.scan s cur,
      w ≠ [] ∧ ∀ c ∈ w, asciiSpace c = false ∧ (c ∈ s ∨ c ∈ cur) := by
  induction s generalizing cur with
  | nil =>
    intro w hw
    unfold asciiFields.scan at hw
    split at hw
    · simp at hw
    · next hne =>
      simp only [List.mem_singleton] at hw
      subst hw
      refine ⟨by simpa using hne, ?_⟩
      intro c hc
      rw [List.mem_reverse] at hc
      exact ⟨hcur c hc, Or.inr hc⟩
  | cons a rest ih =>
    intro w hw
    unfold asciiFields.scan at hw
    split at hw
    · split at hw
      · obtain ⟨h1, h2⟩ := ih [] (by simp) w hw
        refine ⟨h1, fun c hc => ⟨(h2 c hc).1, ?_⟩⟩
        rcases (h2 c hc).2 with h | h
        · exact Or.inl (List.mem_cons_of_mem _ h)
        · simp at h
      · next hne =>
        rcases List.mem_cons.mp hw with hw | hw
        · subst hw
          refine ⟨by simpa using hne, ?_⟩
          intro c hc
          rw [List.mem_reverse] at hc
          exact ⟨hcur c hc, Or.inr hc⟩
        · obtain ⟨h1, h2⟩ := ih [] (by simp) w hw
          refine ⟨h1, fun c hc => ⟨(h2 c hc).1, ?_⟩⟩
          rcases (h2 c hc).2 with h | h
          · exact Or.inl (List.mem_cons_of_mem _ h)
          · simp at h
    · next hsp =>
      have hcur' : ∀ c ∈ a :: cur, asciiSpace c = false := by
        intro c hc
        rcases List.mem_cons.mp hc with h | h
        · subst h
          simpa using hsp
        · exact hcur c h
      obtain ⟨h1, h2⟩ := ih (a :: cur) hcur' w hw
      refine ⟨h1, fun c hc => ⟨(h2 c hc).1, ?_⟩⟩
      rcases (h2 c hc).2 with h | h
      · exact Or.inl (List.mem_cons_of_mem _ h)
      · rcases List.mem_cons.mp h with h | h
        · subst h
          exact Or.inl (List.mem_cons_self _ _)
        · exact Or.inr h

/-- The fields of the ASCII branch are non-empty, contain no space byte and
consist of bytes of the text. -/
theorem asciiFields_spec (s : GoString) :
    ∀ w ∈ asciiFields s, w ≠ [] ∧ ∀ c ∈ w, asciiSpace c = false ∧ c ∈ s := by
  intro w hw
  obtain ⟨h1, h2⟩ := asciiFields_scan_spec s [] (by simp) w hw
  refine ⟨h1, fun c hc => ⟨(h2 c hc).1, ?_⟩⟩
  rcases (h2 c hc).2 with h | h
  · exact h
  · simp at h

theorem asciiFields_scan_join (s cur : GoString) :
    (asciiFields.scan s cur).flatten
      = cur.reverse ++ s.filter (fun c => !asciiSpace c) := by
  induction s generalizing cur with
  | nil =>
    unfold asciiFields.scan
    split
    · next h => simp [List.isEmpty_iff.mp h]
    · simp
  | cons a rest ih =>
    unfold asciiFields.scan
    split
    · next hsp =>
      split
      · next h => simp [ih, hsp, List.isEmpty_iff.mp h]
      · simp [ih, hsp]
    · next hsp => simp [ih, hsp]

/-- Joined together, the fields of the ASCII branch are the text without its
space bytes. -/
theorem asciiFields_join (s : GoString) :
    (asciiFields s).flatten = s.filter (fun c => !asciiSpace c) := by
  unfold asciiFields
  rw [asciiFields_scan_join]
  rfl

theorem Trim_subset (s cutset : GoString) : ∀ c ∈ Trim s cutset, c ∈ s := by
  intro c hc
  unfold Trim at hc
  exact (List.rdropWhile_prefix _ _).subset ((List.dropWhile_suffix _).subset hc)

theorem Fields_of_ascii (unicodeFields : GoString → List GoString) (s : GoString)
    (h : s.all (fun c => decide (c < 128)) = true) :
    Fields unicodeFields s = asciiFields s := by
  unfold Fields
  rw [if_pos h]

theorem foldl_insert_congr (l : List GoString) (f g : GoString → GoString)
    (h : ∀ w ∈ l, f w = g w) (P : GoString → Bool) (codes : CodeSet) :
    l.foldl (fun codes word => if P (f word) then insert (f word) codes else codes) codes
      = l.foldl (fun codes word => if P (g word) then insert (g word) codes else codes) codes := by
  induction l generalizing codes with
  | nil => rfl
  | cons a rest ih =>
    simp only [List.foldl_cons]
    rw [h a (List.mem_cons_self _ _)]
    exact ih (fun w hw => h w (List.mem_cons_of_mem _ hw)) _

/-- On a text of ASCII bytes the word loop does not depend on the Unicode
branches of the library functions. -/
theorem extractCodes_of_ascii (unicodeFields : GoString → List GoString)
    (unicodeUpper : GoString → GoString) (codes : CodeSet) (text : GoString)
    (h : text.all (fun c => decide (c < 128)) = true) :
    extractCodes unicodeFields unicodeUpper codes text
      = extractCodes (fun s => [s]) id codes text := by
  unfold extractCodes
  rw [Fields_of_ascii unicodeFields text h, Fields_of_ascii (fun s => [s]) text h]
  apply foldl_insert_congr
  intro w hw
  have hw' : (Trim w trimCutset).all (fun c => decide (c < 128)) = true := by
    rw [List.all_eq_true] at h ⊢
    intro c hc
    exact h c ((asciiFields_spec text w hw).2 c (Trim_subset w trimCutset c hc)).2
  rw [ToUpper_of_ascii unicodeUpper _ hw', ToUpper_of_ascii id _ hw']

theorem mem_foldl_extract (l : List GoString) (f : GoString → GoString) (codes : CodeSet)
    (c : GoString) :
    c ∈ l.foldl (fun codes word =>
        if isValidPromoCodeFormat (f word) then insert (f word) codes else codes) codes
      ↔ c ∈ codes ∨ ∃ w ∈ l, c = f w ∧ isValidPromoCodeFormat c = true := by
  induction l generalizing codes with
  | nil => simp
  | cons a rest ih =>
    simp only [List.foldl_cons, ih, List.mem_cons, exists_eq_or_imp]
    by_cases ha : isValidPromoCodeFormat (f a) = true
    · rw [if_pos ha, Finset.mem_insert]
      constructor
      · rintro ((h | h) | h)
        · exact Or.inr (Or.inl ⟨h, h ▸ ha⟩)
        · exact Or.inl h
        · exact Or.inr (Or.inr h)
      · rintro (h | ⟨h, _⟩ | h)
        · exact Or.inl (Or.inr h)
        · exact Or.inl (Or.inl h)
        · exact Or.inr h
    · rw [if_neg ha]
      constructor
      · rintro (h | h)
        · exact Or.inl h
        · exact Or.inr (Or.inr h)
      · rintro (h | ⟨h, hv⟩ | h)
        · exact Or.inl h
        · exact absurd (h ▸ hv) ha
        · exact Or.inr h

theorem mem_extractCodes (unicodeFields : GoString → List GoString)
    (unicodeUpper : GoString → GoString) (codes : CodeSet) (text c : GoString) :
    c ∈ extractCodes unicodeFields unicodeUpper codes text
      ↔ c ∈ codes ∨ ∃ w ∈ Fields unicodeFields text,
          c = ToUpper unicodeUpper (Trim w trimCutset) ∧ isValidPromoCodeFormat c = true := by
  unfold extractCodes
  exact mem_foldl_extract _ _ _ _

theorem foldl_processChunk_of_ascii (unicodeFields : GoString → List GoString)
    (unicodeUpper : GoString → GoString) (reads : List GoString) (codes : CodeSet)
    (h : ∀ chunk ∈ reads, chunk.all (fun c => decide (c < 128)) = true) :
    reads.foldl (processChunk unicodeFields unicodeUpper) codes
      = reads.foldl (processChunk (fun s => [s]) id) codes := by
  induction reads generalizing codes with
  | nil => rfl
  | cons a rest ih =>
    simp only [List.foldl_cons]
    have ha : processChunk unicodeFields unicodeUpper codes a
        = processChunk (fun s => [s]) id codes a := by
      unfold processChunk
      rw [extractCodes_of_ascii unicodeFields unicodeUpper codes a
        (h a (List.mem_cons_self _ _))]
    rw [ha]
    exact ih _ (fun chunk hc => h chunk (List.mem_cons_of_mem _ hc))

/-- On a file all of whose reads are ASCII the result of `processGzipFile` does
not depend on the Unicode branches of the library functions. -/
theorem processGzipFile_of_ascii (unicodeFields : GoString → List GoString)
    (unicodeUpper : GoString → GoString) (filename : String) (f : GzipFile)
    (h : ∀ chunk ∈ f.lastData :: f.reads, chunk.all (fun c => decide (c < 128)) = true) :
    processGzipFile unicodeFields unicodeUpper filename f
      = processGzipFile (fun s => [s]) id filename f := by
  unfold processGzipFile
  rw [foldl_processChunk_of_ascii unicodeFields unicodeUpper f.reads ∅
    (fun chunk hc => h chunk (List.mem_cons_of_mem _ hc))]
  have hl : ∀ codes, processChunk unicodeFields unicodeUpper codes f.lastData
      = processChunk (fun s => [s]) id codes f.lastData := by
    intro codes
    unfold processChunk
    rw [extractCodes_of_ascii unicodeFields unicodeUpper codes f.lastData
      (h _ (List.mem_cons_self _ _))]
  simp only [hl]

theorem isAlphanumeric_eq_loop (s : GoString) :
    models.isAlphanumeric s = isValidPromoCodeFormat.loop s := by
  induction s with
  | nil => rfl
  | cons c rest ih =>
    unfold models.isAlphanumeric isValidPromoCodeFormat.loop
    rw [ih]

theorem models_check_eq (s : GoString) :
    (decide (s.length ≥ 8) && decide (s.length ≤ 10) && models.isAlphanumeric s)
      = isValidPromoCodeFormat s := by
  unfold isValidPromoCodeFormat
  rw [isAlphanumeric_eq_loop]
  by_cases h : s.length < 8 ∨ s.length > 10
  · rw [if_pos h]
    rcases h with h | h
    · have : ¬ s.length ≥ 8 := by omega
      simp [this]
    · have : ¬ s.length ≤ 10 := by omega
      simp [this]
  · rw [if_neg h]
    have h1 : s.length ≥ 8 := by omega
    have h2 : s.length ≤ 10 := by omega
    simp [h1, h2]

/-- On a content that was read completely, `downloadAndProcessCouponFile` of
package `models` yields the set the word loop of `processGzipFile` builds from
that content. -/
theorem models_eq_extractCodes (unicodeFields : GoString → List GoString)
    (unicodeUpper : GoString → GoString) (content : GoString) :
    models.downloadAndProcessCouponFile unicodeFields unicodeUpper (couponContent content)
      = .ok (extractCodes unicodeFields unicodeUpper ∅ content) := by
  unfold models.downloadAndProcessCouponFile couponContent extractCodes
  simp only [models_check_eq]

theorem processGzipFile_singleRead (unicodeFields : GoString → List GoString)
    (unicodeUpper : GoString → GoString) (filename : String) (text : GoString) :
    processGzipFile unicodeFields unicodeUpper filename (singleRead text)
      = .ok (extractCodes unicodeFields unicodeUpper ∅ text) ∧
    processGzipFile unicodeFields unicodeUpper filename (singleReadThenEOF text)
      = .ok (extractCodes unicodeFields unicodeUpper ∅ text) := by
  have hnil : extractCodes unicodeFields unicodeUpper ∅ [] = ∅ := by
    unfold extractCodes
    rw [Fields_of_ascii unicodeFields [] rfl]
    rfl
  unfold processGzipFile singleRead singleReadThenEOF processChunk
  cases text with
  | nil => simp [hnil]
  | cons a rest => simp

/-- Evaluation of `processGzipFile` on a file that opens and whose reads are
ASCII: neither the Unicode branches nor the file name matter. -/
theorem processGzipFile_ascii_eval (unicodeFields : GoString → List GoString)
    (unicodeUpper : GoString → GoString) (filename : String) (f : GzipFile)
    (ho : f.openFile = .ok ())
    (hf : ∀ chunk ∈ f.lastData :: f.reads, chunk.all (fun c => decide (c < 128)) = true) :
    processGzipFile unicodeFields unicodeUpper filename f
      = processGzipFile (fun s => [s]) id "" f := by
  rw [processGzipFile_of_ascii unicodeFields unicodeUpper filename f hf]
  unfold processGzipFile
  rw [ho]

/-! ## C13 -/

/-- C13, evaluated at the failing input.  When the whole text arrives in one
read, `processGzipFile` returns what `downloadAndProcessCouponFile` of package
`models` computes from the content.  When the reader delivers the text CODE1234
as the two reads CODE and 1234, `processGzipFile` returns the empty set, while
the whole text yields the candidate CODE1234; when it delivers the 16-byte word
ABCDEFGHIJKLMNOP as two reads of 8 bytes, `processGzipFile` returns the two
candidates ABCDEFGH and IJKLMNOP, while the whole text yields none. -/
theorem chunked_read_splits_tokens (unicodeFields : GoString → List GoString)
    (unicodeUpper : GoString → GoString) (filename : String) :
    (∀ text : GoString,
      .ok (extractCodes unicodeFields unicodeUpper ∅ text)
        = models.downloadAndProcessCouponFile unicodeFields unicodeUpper (couponContent text) ∧
      processGzipFile unicodeFields unicodeUpper filename (singleRead text)
        = models.downloadAndProcessCouponFile unicodeFields unicodeUpper (couponContent text)) ∧
    (fileSplitCode.reads.flatten ++ fileSplitCode.lastData = str "CODE1234" ∧
      (∀ chunk ∈ fileSplitCode.reads, 0 < chunk.length ∧ chunk.length ≤ 64 * 1024) ∧
      processGzipFile unicodeFields unicodeUpper filename fileSplitCode = .ok ∅ ∧
      processGzipFile unicodeFields unicodeUpper filename (singleRead (str "CODE1234"))
        = .ok {str "CODE1234"} ∧
      models.downloadAndProcessCouponFile unicodeFields unicodeUpper
          (couponContent (str "CODE1234")) = .ok {str "CODE1234"}) ∧
    (fileSplitLong.reads.flatten ++ fileSplitLong.lastData = str "ABCDEFGHIJKLMNOP" ∧
      (∀ chunk ∈ fileSplitLong.reads, 0 < chunk.length ∧ chunk.length ≤ 64 * 1024) ∧
      processGzipFile unicodeFields unicodeUpper filename fileSplitLong
        = .ok {str "ABCDEFGH", str "IJKLMNOP"} ∧
      processGzipFile unicodeFields unicodeUpper filename (singleRead (str "ABCDEFGHIJKLMNOP"))
        = .ok ∅ ∧
      models.downloadAndProcessCouponFile unicodeFields unicodeUpper
          (couponContent (str "ABCDEFGHIJKLMNOP")) = .ok ∅) := by
  have hmodel : ∀ content : GoString, content.all (fun c => decide (c < 128)) = true →
      models.downloadAndProcessCouponFile unicodeFields unicodeUpper (couponContent content)
        = .ok (extractCodes (fun s => [s]) id ∅ content) := by
    intro content hc
    rw [models_eq_extractCodes, extractCodes_of_ascii unicodeFields unicodeUpper ∅ content hc]
  refine ⟨?_, ⟨by decide, by decide, ?_, ?_, ?_⟩, ⟨by decide, by decide, ?_, ?_, ?_⟩⟩
  · intro text
    rw [models_eq_extractCodes]
    exact ⟨rfl, (processGzipFile_singleRead unicodeFields unicodeUpper filename text).1⟩
  · rw [processGzipFile_ascii_eval unicodeFields unicodeUpper filename fileSplitCode rfl (by decide)]
    decide
  · rw [processGzipFile_ascii_eval unicodeFields unicodeUpper filename (singleRead (str "CODE1234")) rfl (by decide)]
    decide
  · rw [hmodel _ (by decide)]
    decide
  · rw [processGzipFile_ascii_eval unicodeFields unicodeUpper filename fileSplitLong rfl (by decide)]
    decide
  · rw [processGzipFile_ascii_eval unicodeFields unicodeUpper filename (singleRead (str "ABCDEFGHIJKLMNOP")) rfl (by decide)]
    decide
  · rw [hmodel _ (by decide)]
    decide

/-! ## C14 -/

/-- C14: for a text delivered in a single read (with `io.EOF` in the same read
or in the next one) `processGzipFile` returns, without error, exactly the set
of the strings `ToUpper(Trim(w, cutset))`, `w` a field of the text, that have 8
to 10 bytes, all in A-Z or 0-9; on ASCII text the fields are the maximal runs
of non-space bytes; the empty text and a text without a valid token yield the
empty set; save20off! yields SAVE20OFF, and a token that occurs three times
yields one candidate. -/
theorem processGzipFile_single_read (unicodeFields : GoString → List GoString)
    (unicodeUpper : GoString → GoString) (filename : String) (text : GoString) :
    (processGzipFile unicodeFields unicodeUpper filename (singleRead text)
        = .ok (extractCodes unicodeFields unicodeUpper ∅ text) ∧
      processGzipFile unicodeFields unicodeUpper filename (singleReadThenEOF text)
        = .ok (extractCodes unicodeFields unicodeUpper ∅ text)) ∧
    (∀ c, c ∈ extractCodes unicodeFields unicodeUpper ∅ text ↔
      ∃ w ∈ Fields unicodeFields text, c = ToUpper unicodeUpper (Trim w trimCutset) ∧
        8 ≤ c.length ∧ c.length ≤ 10 ∧ ∀ b ∈ c, (65 ≤ b ∧ b ≤ 90) ∨ (48 ≤ b ∧ b ≤ 57)) ∧
    (text.all (fun c => decide (c < 128)) = true →
      (∀ w ∈ Fields unicodeFields text, w ≠ [] ∧ ∀ b ∈ w, asciiSpace b = false ∧ b ∈ text) ∧
      (Fields unicodeFields text).flatten = text.filter (fun c => !asciiSpace c)) ∧
    processGzipFile unicodeFields unicodeUpper filename (singleRead []) = .ok ∅ ∧
    ((∀ w ∈ Fields unicodeFields text,
        isValidPromoCodeFormat (ToUpper unicodeUpper (Trim w trimCutset)) = false) →
      processGzipFile unicodeFields unicodeUpper filename (singleRead text) = .ok ∅) ∧
    processGzipFile unicodeFields unicodeUpper filename (singleRead (str "save20off!"))
      = .ok {str "SAVE20OFF"} ∧
    processGzipFile unicodeFields unicodeUpper filename
        (singleRead (str "CODE1234 code1234, (CODE1234)\n"))
      = .ok {str "CODE1234"} ∧
    ({str "CODE1234"} : CodeSet).card = 1 := by
  have hmem : ∀ c, c ∈ extractCodes unicodeFields unicodeUpper ∅ text ↔
      ∃ w ∈ Fields unicodeFields text, c = ToUpper unicodeUpper (Trim w trimCutset) ∧
        isValidPromoCodeFormat c = true := by
    intro c
    rw [mem_extractCodes]
    simp
  refine ⟨processGzipFile_singleRead unicodeFields unicodeUpper filename text, ?_, ?_, ?_, ?_,
    ?_, ?_, by decide⟩
  · intro c
    rw [hmem]
    simp only [isValidPromoCodeFormat_iff]
  · intro h
    rw [Fields_of_ascii unicodeFields text h]
    exact ⟨asciiFields_spec text, asciiFields_join text⟩
  · rw [processGzipFile_ascii_eval unicodeFields unicodeUpper filename (singleRead []) rfl
      (by decide)]
    decide
  · intro hbad
    rw [(processGzipFile_singleRead unicodeFields unicodeUpper filename text).1]
    congr 1
    rw [Finset.eq_empty_iff_forall_not_mem]
    intro c hc
    obtain ⟨w, hw, rfl, hv⟩ := (hmem c).mp hc
    rw [hbad w hw] at hv
    cases hv
  · rw [processGzipFile_ascii_eval unicodeFields unicodeUpper filename
      (singleRead (str "save20off!")) rfl (by decide)]
    decide
  · rw [processGzipFile_ascii_eval unicodeFields unicodeUpper filename
      (singleRead (str "CODE1234 code1234, (CODE1234)\n")) rfl (by decide)]
    decide

/-- Witness for C14: an ASCII text without a valid token. -/
theorem processGzipFile_single_read_witness :
    (∀ w ∈ Fields (fun s => [s]) (str "too short, or waytoolongtoken"),
      isValidPromoCodeFormat (ToUpper id (Trim w trimCutset)) = false) ∧
    processGzipFile (fun s => [s]) id "coupon1.gz"
        (singleRead (str "too short, or waytoolongtoken")) = .ok ∅ :=
  ⟨by decide,
   (processGzipFile_single_read (fun s => [s]) id "coupon1.gz"
      (str "too short, or waytoolongtoken")).2.2.2.2.1 (by decide)⟩

/-! ## C15 -/

/-- C15, counterexample: on a fresh service the state after the seeding step of
Initialize does not report the data source "fallback". -/
theorem dataSource_after_Initialize_not_fallback :
    ¬ (GetValidCodesCount (Initialize NewPromoCodeService).1 > 0 ∧
       (GetServiceStatus (Initialize NewPromoCodeService).1).DataSource = "fallback") := by
  decide

/-- C15, amended: on a fresh service, in the state after the seeding step of
Initialize, `GetValidCodesCount` is positive (it is 15) and `GetServiceStatus`
reports the data source "mock", with status "loading" and `IsFullyLoaded`
false. -/
theorem status_after_Initialize :
    (Initialize NewPromoCodeService).2 = none ∧
    GetValidCodesCount (Initialize NewPromoCodeService).1 > 0 ∧
    GetValidCodesCount (Initialize NewPromoCodeService).1 = 15 ∧
    (GetServiceStatus (Initialize NewPromoCodeService).1).DataSource = "mock" ∧
    (GetServiceStatus (Initialize NewPromoCodeService).1).Status = "loading" ∧
    (GetServiceStatus (Initialize NewPromoCodeService).1).IsFullyLoaded = false := by
  decide

/-! ## C16 -/

/-- C16: `GetServiceStatus` reports ready / remote when `isLoaded` is 1,
otherwise loading / mock when the count is positive, otherwise initializing /
none; `IsFullyLoaded` is the test `isLoaded == 1`, `CodesLoaded` is
`GetValidCodesCount()` and `LastError` is the message of `loadError`; a fresh
service reports 0 codes and initializing, and after `LoadMockPromoCodes` it
reports a non-zero count and the data source mock. -/
theorem GetServiceStatus_table (p : PromoCodeService) :
    ((GetServiceStatus p).Status, (GetServiceStatus p).DataSource)
      = (if p.isLoaded = 1 then ("ready", "remote")
         else if GetValidCodesCount p > 0 then ("loading", "mock")
         else ("initializing", "none")) ∧
    (GetServiceStatus p).IsFullyLoaded = decide (p.isLoaded = 1) ∧
    (GetServiceStatus p).CodesLoaded = GetValidCodesCount p ∧
    (GetServiceStatus p).LastError = p.loadError.getD "" ∧
    ((GetServiceStatus NewPromoCodeService).CodesLoaded = 0 ∧
      (GetServiceStatus NewPromoCodeService).Status = "initializing" ∧
      (GetServiceStatus NewPromoCodeService).DataSource = "none") ∧
    ((GetServiceStatus (LoadMockPromoCodes NewPromoCodeService)).CodesLoaded ≠ 0 ∧
      (GetServiceStatus (LoadMockPromoCodes NewPromoCodeService)).Status = "loading" ∧
      (GetServiceStatus (LoadMockPromoCodes NewPromoCodeService)).DataSource = "mock") := by
  refine ⟨?_, ?_, ?_, GetServiceStatus_LastError p, by decide, by decide⟩
  · unfold GetServiceStatus
    dsimp only
    by_cases h1 : p.isLoaded = 1
    · simp [h1]
    · by_cases h2 : GetValidCodesCount p > 0
      · simp [h1, h2]
      · simp [h1, h2]
  · unfold GetServiceStatus
    dsimp only
    split_ifs <;> rfl
  · unfold GetServiceStatus
    dsimp only
    split_ifs <;> rfl

/-! ## C17 -/

theorem decimalDigits_inj (k i j : Nat) (h : decimalDigits k i = decimalDigits k j) :
    i % 10 ^ k = j % 10 ^ k := by
  induction k generalizing i j with
  | zero => simp [Nat.mod_one]
  | succ k ih =>
    unfold decimalDigits at h
    rw [List.cons.injEq] at h
    have h1 := ih (i / 10) (j / 10) h.2
    rw [pow_succ', Nat.mod_mul, Nat.mod_mul, h1]
    omega

theorem decimalCode_injOn (i j : Nat) (hi : i < 2 ^ 31) (hj : j < 2 ^ 31)
    (h : decimalCode i = decimalCode j) : i = j := by
  unfold decimalCode at h
  have h1 := decimalDigits_inj 10 i j (List.reverse_injective h)
  have hi' : i < 10 ^ 10 := lt_trans hi (by norm_num)
  have hj' : j < 10 ^ 10 := lt_trans hj (by norm_num)
  rwa [Nat.mod_eq_of_lt hi', Nat.mod_eq_of_lt hj'] at h1

theorem decimalDigits_spec (k i : Nat) :
    (decimalDigits k i).length = k ∧ ∀ c ∈ decimalDigits k i, 48 ≤ c ∧ c ≤ 57 := by
  induction k generalizing i with
  | zero => simp [decimalDigits]
  | succ k ih =>
    unfold decimalDigits
    refine ⟨by simp [(ih (i / 10)).1], ?_⟩
    intro c hc
    rcases List.mem_cons.mp hc with h | h
    · omega
    · exact (ih (i / 10)).2 c h

theorem decimalCode_valid (i : Nat) : isValidPromoCodeFormat (decimalCode i) = true := by
  rw [isValidPromoCodeFormat_iff]
  unfold decimalCode
  rw [List.length_reverse, (decimalDigits_spec 10 i).1]
  refine ⟨by decide, by decide, ?_⟩
  intro c hc
  exact Or.inr ((decimalDigits_spec 10 i).2 c (List.mem_reverse.mp hc))

theorem bigSnapshot_card : bigSnapshot.card = 2 ^ 31 := by
  unfold bigSnapshot
  rw [Finset.card_image_of_injOn, Finset.card_range]
  intro i hi j hj h
  exact decimalCode_injOn i j (by simpa using hi) (by simpa using hj) h

theorem GetValidCodesCount_eq (p : PromoCodeService) :
    GetValidCodesCount p = p.codesCount := rfl

theorem successfulSets_envBig : successfulSets envBig = [bigSnapshot] := by
  unfold successfulSets urls envBig
  simp

/-- C17, counterexample: a cycle in which one source succeeds with the 2^31
format-valid codes `0000000000` to `2147483647` commits that set and sets
`isLoaded` to 1, but the count it stores is `int32(2^31)`, so
`GetValidCodesCount` returns -2147483648 and not the size of the snapshot. -/
theorem codesCount_wraps_on_large_snapshot :
    envBig.mkdirTemp = .ok () ∧
    successfulSets envBig = [bigSnapshot] ∧
    (∀ c ∈ bigSnapshot, isValidPromoCodeFormat c = true) ∧
    (replaceWithRealCodes { NewPromoCodeService with isLoaded := 0, loadError := none }
        (downloadAll envBig).1 (downloadAll envBig).2).2 = none ∧
    (downloadCodesAsync envBig NewPromoCodeService).validCodes = bigSnapshot ∧
    (downloadCodesAsync envBig NewPromoCodeService).isLoaded = 1 ∧
    ((downloadCodesAsync envBig NewPromoCodeService).validCodes.card : Int) = 2147483648 ∧
    GetValidCodesCount (downloadCodesAsync envBig NewPromoCodeService) = -2147483648 ∧
    ¬ (GetValidCodesCount (downloadCodesAsync envBig NewPromoCodeService)
        = ((downloadCodesAsync envBig NewPromoCodeService).validCodes.card : Int)) := by
  have hS := cycleValidCodes_single envBig bigSnapshot successfulSets_envBig
  have hcard := bigSnapshot_card
  have hne : ¬ bigSnapshot = ∅ := by
    intro h
    rw [h] at hcard
    simp at hcard
  have hq : downloadCodesAsync envBig NewPromoCodeService
      = { validCodes := bigSnapshot, isLoaded := 1, loadError := none,
          codesCount := int32 bigSnapshot.card } := by
    rw [downloadCodesAsync_of_tempDir envBig NewPromoCodeService rfl, successfulSets_envBig,
      hS, if_neg (by simp), if_neg hne]
  have hrep : (replaceWithRealCodes { NewPromoCodeService with isLoaded := 0, loadError := none }
      (downloadAll envBig).1 (downloadAll envBig).2).2 = none := by
    by_contra hcon
    rw [← ne_eq, replaceWithRealCodes_error_iff] at hcon
    have hcyc : cycleValidCodes envBig = ∅ := by
      unfold cycleValidCodes
      exact hcon
    rw [hS] at hcyc
    exact hne hcyc
  have hcount : int32 bigSnapshot.card = -2147483648 := by
    rw [hcard]
    unfold int32
    norm_num
  have hv : (downloadCodesAsync envBig NewPromoCodeService).validCodes = bigSnapshot := by
    rw [hq]
  have hl : (downloadCodesAsync envBig NewPromoCodeService).isLoaded = 1 := by
    rw [hq]
  have hc : (downloadCodesAsync envBig NewPromoCodeService).codesCount
      = int32 bigSnapshot.card := by
    have h := (downloadCodesAsync_committed envBig NewPromoCodeService hl).2.1
    rw [hS] at h
    exact h
  have hg : GetValidCodesCount (downloadCodesAsync envBig NewPromoCodeService)
      = -2147483648 := by
    rw [GetValidCodesCount_eq, hc, hcount]
  refine ⟨rfl, successfulSets_envBig, ?_, hrep, hv, hl, ?_, hg, ?_⟩
  · intro c hc
    unfold bigSnapshot at hc
    obtain ⟨i, _, rfl⟩ := Finset.mem_image.mp hc
    exact decimalCode_valid i
  · rw [hv, hcard]
    norm_num
  · rw [hg, hv, hcard]
    norm_num

theorem GetServiceStatus_of_loaded (p : PromoCodeService) (h : p.isLoaded = 1) :
    (GetServiceStatus p).Status = "ready" ∧ (GetServiceStatus p).DataSource = "remote" ∧
    (GetServiceStatus p).IsFullyLoaded = true := by
  unfold GetServiceStatus
  simp [h]

/-- C17, amended: in a refresh cycle whose consensus step succeeds with the set
`V`, the state after the cycle has `validCodes = V`, `codesCount = int32(|V|)`,
which is `|V|` when `|V| < 2^31`, and `isLoaded = 1`, so `GetServiceStatus`
reports ready / remote with `IsFullyLoaded` true and no error. -/
theorem successful_refresh_commits (p : PromoCodeService) (env : RefreshEnv)
    (hdir : env.mkdirTemp = .ok ()) (hsucc : (downloadAll env).2 ≠ 0)
    (hrep : (replaceWithRealCodes { p with isLoaded := 0, loadError := none }
      (downloadAll env).1 (downloadAll env).2).2 = none) :
    (downloadCodesAsync env p).validCodes
      = (replaceWithRealCodes { p with isLoaded := 0, loadError := none }
          (downloadAll env).1 (downloadAll env).2).1.validCodes ∧
    (downloadCodesAsync env p).validCodes = cycleValidCodes env ∧
    GetValidCodesCount (downloadCodesAsync env p)
      = int32 (downloadCodesAsync env p).validCodes.card ∧
    ((downloadCodesAsync env p).validCodes.card < 2 ^ 31 →
      GetValidCodesCount (downloadCodesAsync env p)
        = ((downloadCodesAsync env p).validCodes.card : Int)) ∧
    (downloadCodesAsync env p).isLoaded = 1 ∧
    (GetServiceStatus (downloadCodesAsync env p)).Status = "ready" ∧
    (GetServiceStatus (downloadCodesAsync env p)).DataSource = "remote" ∧
    (GetServiceStatus (downloadCodesAsync env p)).IsFullyLoaded = true ∧
    (GetServiceStatus (downloadCodesAsync env p)).LastError = "" := by
  have hne : ¬ cycleValidCodes env = ∅ := by
    intro h
    have := (replaceWithRealCodes_error_iff { p with isLoaded := 0, loadError := none }
      (downloadAll env).1 (downloadAll env).2).mpr h
    exact this hrep
  have hlen : ¬ (successfulSets env).length = 0 := by
    intro h
    apply hsucc
    rw [downloadAll_snd, h]
    rfl
  have hV : (replaceWithRealCodes { p with isLoaded := 0, loadError := none }
      (downloadAll env).1 (downloadAll env).2).1.validCodes = cycleValidCodes env := by
    have hne' := hne
    unfold cycleValidCodes at hne'
    unfold replaceWithRealCodes cycleValidCodes
    simp only [Finset.card_eq_zero]
    rw [if_neg hne']
  have hl : (downloadCodesAsync env p).isLoaded = 1 := by
    rw [downloadCodesAsync_of_tempDir env p hdir, if_neg hlen, if_neg hne]
  obtain ⟨hv, hc, he⟩ := downloadCodesAsync_committed env p hl
  obtain ⟨hs1, hs2, hs3⟩ := GetServiceStatus_of_loaded (downloadCodesAsync env p) hl
  refine ⟨hv.trans hV.symm, hv, ?_, ?_, hl, hs1, hs2, hs3, ?_⟩
  · rw [GetValidCodesCount_eq, hc, hv]
  · intro hsmall
    rw [GetValidCodesCount_eq, hc, hv]
    rw [hv] at hsmall
    generalize (cycleValidCodes env).card = n at hsmall
    unfold int32
    omega
  · rw [GetServiceStatus_LastError, he]
    rfl

/-- Witness for C17: the scenario cycle on a seeded service. -/
theorem successful_refresh_commits_witness :
    envScenario.mkdirTemp = .ok () ∧ (downloadAll envScenario).2 ≠ 0 ∧
    (replaceWithRealCodes
        { LoadMockPromoCodes NewPromoCodeService with isLoaded := 0, loadError := none }
        (downloadAll envScenario).1 (downloadAll envScenario).2).2 = none ∧
    (downloadCodesAsync envScenario (LoadMockPromoCodes NewPromoCodeService)).validCodes
      = cycleValidCodes envScenario ∧
    GetValidCodesCount (downloadCodesAsync envScenario (LoadMockPromoCodes NewPromoCodeService))
      = 1 :=
  ⟨rfl, by decide, by decide,
   (successful_refresh_commits (LoadMockPromoCodes NewPromoCodeService) envScenario rfl
      (by decide) (by decide)).2.1,
   ((successful_refresh_commits (LoadMockPromoCodes NewPromoCodeService) envScenario rfl
      (by decide) (by decide)).2.2.2.1 (by decide)).trans (by decide)⟩

/-! ## C18 -/

/-- The four ways a refresh cycle ends. -/
theorem downloadCodesAsync_cases (env : RefreshEnv) (p : PromoCodeService) :
    (∃ err, env.mkdirTemp = .error err ∧
      (downloadCodesAsync env p).isLoaded = 0 ∧
      (downloadCodesAsync env p).loadError
        = some ("failed to create temp directory: " ++ err)) ∨
    (env.mkdirTemp = .ok () ∧ successfulSets env = [] ∧
      (downloadCodesAsync env p).isLoaded = 0 ∧
      (downloadCodesAsync env p).loadError
        = some "background download failed: no coupon files processed") ∨
    (env.mkdirTemp = .ok () ∧ successfulSets env ≠ [] ∧ cycleValidCodes env = ∅ ∧
      (downloadCodesAsync env p).isLoaded = 0 ∧
      (downloadCodesAsync env p).loadError
        = some "background processing failed: no valid codes found") ∨
    (env.mkdirTemp = .ok () ∧ successfulSets env ≠ [] ∧ cycleValidCodes env ≠ ∅ ∧
      (downloadCodesAsync env p).isLoaded = 1 ∧
      (downloadCodesAsync env p).loadError = none) := by
  rcases hdir : env.mkdirTemp with err | u
  · left
    refine ⟨err, rfl, ?_, ?_⟩
    · unfold downloadCodesAsync
      simp [hdir, setLoadError]
    · unfold downloadCodesAsync
      simp [hdir, setLoadError]
  · right
    have hq := downloadCodesAsync_of_tempDir env p hdir
    by_cases h0 : (successfulSets env).length = 0
    · left
      rw [if_pos h0] at hq
      exact ⟨rfl, List.length_eq_zero.mp h0, by rw [hq], by rw [hq]⟩
    · right
      have hnil : successfulSets env ≠ [] := fun h => h0 (by rw [h]; rfl)
      rw [if_neg h0] at hq
      by_cases he : cycleValidCodes env = ∅
      · left
        rw [if_pos he] at hq
        exact ⟨rfl, hnil, he, by rw [hq], by rw [hq]⟩
      · right
        rw [if_neg he] at hq
        exact ⟨rfl, hnil, he, by rw [hq], by rw [hq]⟩

/-- C18: after a completed refresh cycle `LastError` is non-empty exactly when
the cycle failed, that is when it did not end with the flag at 1, which is when
the temporary directory could not be created, no source succeeded or the
consensus set was empty; the state the cycle leaves does not depend on the
error recorded before it, and a cycle that commits leaves no error. -/
theorem LastError_iff_cycle_failed (p : PromoCodeService) (env : RefreshEnv) :
    ((GetServiceStatus (downloadCodesAsync env p)).LastError ≠ ""
      ↔ (downloadCodesAsync env p).isLoaded ≠ 1) ∧
    ((downloadCodesAsync env p).isLoaded ≠ 1
      ↔ (env.mkdirTemp ≠ .ok () ∨ successfulSets env = [] ∨ cycleValidCodes env = ∅)) ∧
    (∀ e : Option String,
      downloadCodesAsync env { p with loadError := e } = downloadCodesAsync env p) ∧
    ((downloadCodesAsync env p).isLoaded = 1 →
      (downloadCodesAsync env p).loadError = none ∧
      (GetServiceStatus (downloadCodesAsync env p)).LastError = "") := by
  have hpre : ∀ (a b : String), a.length ≠ 0 → a ++ b ≠ "" := by
    intro a b ha h
    have hl := congrArg String.length h
    rw [String.length_append] at hl
    have h0 : "".length = 0 := by decide
    omega
  have h01 : ¬ ((0 : Int) = 1) := by decide
  have hindep : ∀ e : Option String,
      downloadCodesAsync env { p with loadError := e } = downloadCodesAsync env p := by
    intro e
    unfold downloadCodesAsync
    rfl
  rw [GetServiceStatus_LastError]
  rcases downloadCodesAsync_cases env p with
    ⟨err, hd, hl, he⟩ | ⟨hd, hs, hl, he⟩ | ⟨hd, hs, hc, hl, he⟩ | ⟨hd, hs, hc, hl, he⟩
  · rw [hl, he]
    refine ⟨⟨fun _ => h01, fun _ => hpre _ _ (by decide)⟩,
      ⟨fun _ => Or.inl (by rw [hd]; simp), fun _ => h01⟩, hindep, fun h => absurd h h01⟩
  · rw [hl, he]
    refine ⟨⟨fun _ => h01, fun _ => by decide⟩,
      ⟨fun _ => Or.inr (Or.inl hs), fun _ => h01⟩, hindep, fun h => absurd h h01⟩
  · rw [hl, he]
    refine ⟨⟨fun _ => h01, fun _ => by decide⟩,
      ⟨fun _ => Or.inr (Or.inr hc), fun _ => h01⟩, hindep, fun h => absurd h h01⟩
  · rw [hl, he]
    refine ⟨⟨fun h => absurd rfl h, fun h => absurd rfl h⟩, ⟨fun h => absurd rfl h, ?_⟩,
      hindep, fun _ => ⟨rfl, rfl⟩⟩
    rintro (h | h | h)
    · exact absurd hd h
    · exact absurd h hs
    · exact absurd h hc

/-- Witness for C18: a failed cycle after a committed one, and a committed
cycle after a failed one. -/
theorem LastError_iff_cycle_failed_witness :
    (downloadCodesAsync envAllFail (run NewPromoCodeService [.init, .cycle envScenario])).isLoaded
      ≠ 1 ∧
    (GetServiceStatus (downloadCodesAsync envAllFail
      (run NewPromoCodeService [.init, .cycle envScenario]))).LastError ≠ "" ∧
    (downloadCodesAsync envScenario
      (run NewPromoCodeService [.init, .cycle envAllFail])).loadError = none :=
  ⟨by decide,
   (LastError_iff_cycle_failed (run NewPromoCodeService [.init, .cycle envScenario])
      envAllFail).1.mpr (by decide),
   ((LastError_iff_cycle_failed (run NewPromoCodeService [.init, .cycle envAllFail])
      envScenario).2.2.2 (by decide)).1⟩

/-! ## C20 -/

theorem rdropWhile_cons_eq (p : Nat → Bool) (a : Nat) (t : List Nat) :
    List.rdropWhile p (a :: t)
      = if (List.rdropWhile p t).isEmpty then (if p a then [] else [a])
        else a :: List.rdropWhile p t := by
  unfold List.rdropWhile
  rw [List.reverse_cons, List.dropWhile_append]
  by_cases h : List.dropWhile p t.reverse = []
  · simp [h, List.dropWhile_cons]
    split <;> simp
  · simp [h]

theorem dropWhile_rdropWhile_comm (p : Nat → Bool) (s : List Nat) :
    List.dropWhile p (List.rdropWhile p s) = List.rdropWhile p (List.dropWhile p s) := by
  induction s with
  | nil => simp
  | cons a t ih =>
    rw [rdropWhile_cons_eq]
    by_cases ha : p a = true
    · rw [List.dropWhile_cons_of_pos ha]
      by_cases ht : List.rdropWhile p t = []
      · rw [← ih, ht]
        simp [ha]
      · have ht' : (List.rdropWhile p t).isEmpty = false := by simpa using ht
        rw [ht', ← ih]
        simp [List.dropWhile_cons_of_pos ha]
    · rw [List.dropWhile_cons_of_neg ha, rdropWhile_cons_eq]
      by_cases ht : List.rdropWhile p t = []
      · simp [ht, ha, List.dropWhile_cons_of_neg ha]
      · have ht' : (List.rdropWhile p t).isEmpty = false := by simpa using ht
        rw [ht']
        simp [List.dropWhile_cons_of_neg ha]

theorem Trim_eq_trimSpec (s : GoString) : Trim s trimCutset = trimSpec s := by
  unfold Trim trimSpec
  exact dropWhile_rdropWhile_comm _ s

theorem rdropWhile_append_rtakeWhile (p : Nat → Bool) (l : List Nat) :
    List.rdropWhile p l ++ List.rtakeWhile p l = l := by
  unfold List.rdropWhile List.rtakeWhile
  rw [← List.reverse_append, List.takeWhile_append_dropWhile, List.reverse_reverse]

theorem trimSpec_decompose (s : GoString) :
    s = s.takeWhile (fun c => decide (c ∈ trimCutset)) ++ trimSpec s
          ++ (s.dropWhile (fun c => decide (c ∈ trimCutset))).rtakeWhile
              (fun c => decide (c ∈ trimCutset)) := by
  unfold trimSpec
  rw [List.append_assoc, rdropWhile_append_rtakeWhile, List.takeWhile_append_dropWhile]

theorem edgesClean_trimSpec (s : GoString) : edgesClean (trimSpec s) = true := by
  unfold edgesClean
  rw [Bool.and_eq_true]
  constructor
  · rw [← Trim_eq_trimSpec]
    unfold Trim
    have h := List.head?_dropWhile_not (fun c => decide (c ∈ trimCutset))
      (List.rdropWhile (fun c => decide (c ∈ trimCutset)) s)
    revert h
    cases (List.dropWhile (fun c => decide (c ∈ trimCutset))
      (List.rdropWhile (fun c => decide (c ∈ trimCutset)) s)).head? with
    | none => intro _; rfl
    | some c => intro h; simpa using h
  · unfold trimSpec List.rdropWhile
    rw [List.getLast?_reverse]
    have h := List.head?_dropWhile_not (fun c => decide (c ∈ trimCutset))
      (List.dropWhile (fun c => decide (c ∈ trimCutset)) s).reverse
    revert h
    cases (List.dropWhile (fun c => decide (c ∈ trimCutset))
      (List.dropWhile (fun c => decide (c ∈ trimCutset)) s).reverse).head? with
    | none => intro _; rfl
    | some c => intro h; simpa using h

theorem trimCutset_eq : trimCutset = [46, 44, 33, 63, 59, 58, 34, 39, 40, 41, 91, 93, 123, 125] := by
  decide

theorem upper_not_mem_cutset (c : Nat) (h : c ∉ trimCutset) :
    (if 97 ≤ c ∧ c ≤ 122 then c - 32 else c) ∉ trimCutset := by
  split
  · rw [trimCutset_eq]
    simp only [List.mem_cons, List.mem_singleton, List.not_mem_nil, or_false]
    omega
  · exact h

theorem edgesClean_asciiUpper (t : GoString) (h : edgesClean t = true) :
    edgesClean (asciiUpper t) = true := by
  unfold edgesClean asciiUpper at *
  rw [Bool.and_eq_true] at h ⊢
  rw [List.head?_map, List.getLast?_map]
  obtain ⟨h1, h2⟩ := h
  constructor
  · cases hh : t.head? with
    | none => rfl
    | some c =>
      rw [hh] at h1
      simp only [Option.map_some', Bool.not_eq_true', decide_eq_false_iff_not] at h1 ⊢
      exact upper_not_mem_cutset c h1
  · cases hh : t.getLast? with
    | none => rfl
    | some c =>
      rw [hh] at h2
      simp only [Option.map_some', Bool.not_eq_true', decide_eq_false_iff_not] at h2 ⊢
      exact upper_not_mem_cutset c h2

theorem SanitizeString_of_ascii (unicodeUpper : GoString → GoString) (s : GoString)
    (h : s.all (fun c => decide (c < 128)) = true) :
    SanitizeString unicodeUpper s = asciiUpper (trimSpec s) := by
  unfold SanitizeString
  have ht : (Trim s trimCutset).all (fun c => decide (c < 128)) = true := by
    rw [List.all_eq_true] at h ⊢
    intro c hc
    exact h c (Trim_subset s trimCutset c hc)
  rw [ToUpper_of_ascii unicodeUpper _ ht, Trim_eq_trimSpec]

/-- C20: `SanitizeString(s)` is the uppercase of `s` without its longest prefix
and its longest suffix of cutset bytes: `s` is that prefix, the kept part and
that suffix, the prefix and the suffix consist of cutset bytes and the kept
part neither begins nor ends with one; interior punctuation is kept, as in the
rows of the test table; for ASCII `s` the result neither begins nor ends with a
cutset byte, and it does so for every `s` once uppercasing by the library does
not put a cutset byte at an end of a string that has none there. -/
theorem SanitizeString_spec (unicodeUpper : GoString → GoString) (s : GoString) :
    SanitizeString unicodeUpper s = ToUpper unicodeUpper (trimSpec s) ∧
    (∃ pre suf : GoString, s = pre ++ trimSpec s ++ suf ∧
      (∀ c ∈ pre, c ∈ trimCutset) ∧ (∀ c ∈ suf, c ∈ trimCutset) ∧
      edgesClean (trimSpec s) = true) ∧
    (s.all (fun c => decide (c < 128)) = true →
      SanitizeString unicodeUpper s = asciiUpper (trimSpec s) ∧
      edgesClean (SanitizeString unicodeUpper s) = true) ∧
    ((∀ t, edgesClean t = true → edgesClean (ToUpper unicodeUpper t) = true) →
      edgesClean (SanitizeString unicodeUpper s) = true) ∧
    (SanitizeString unicodeUpper (str "hello,world!") = str "HELLO,WORLD" ∧
     SanitizeString unicodeUpper (str "hello") = str "HELLO" ∧
     SanitizeString unicodeUpper (str "test.word;here") = str "TEST.WORD;HERE" ∧
     SanitizeString unicodeUpper (str "\"quoted\"") = str "QUOTED" ∧
     SanitizeString unicodeUpper (str "(bracketed)") = str "BRACKETED" ∧
     SanitizeString unicodeUpper (str "") = str "" ∧
     SanitizeString unicodeUpper (str "CLEAN") = str "CLEAN" ∧
     SanitizeString unicodeUpper (str "...!!!") = str "") := by
  have heval : ∀ a b : GoString, a.all (fun c => decide (c < 128)) = true →
      asciiUpper (trimSpec a) = b → SanitizeString unicodeUpper a = b := by
    intro a b ha hb
    rw [SanitizeString_of_ascii unicodeUpper a ha, hb]
  refine ⟨?_, ?_, ?_, ?_, ?_⟩
  · unfold SanitizeString
    rw [Trim_eq_trimSpec]
  · refine ⟨_, _, trimSpec_decompose s, ?_, ?_, edgesClean_trimSpec s⟩
    · intro c hc
      simpa using List.mem_takeWhile_imp hc
    · intro c hc
      simpa using List.mem_rtakeWhile_imp hc
  · intro h
    refine ⟨SanitizeString_of_ascii unicodeUpper s h, ?_⟩
    rw [SanitizeString_of_ascii unicodeUpper s h]
    exact edgesClean_asciiUpper _ (edgesClean_trimSpec s)
  · intro hU
    unfold SanitizeString
    rw [Trim_eq_trimSpec]
    exact hU _ (edgesClean_trimSpec s)
  · exact ⟨heval _ _ (by decide) (by decide), heval _ _ (by decide) (by decide),
      heval _ _ (by decide) (by decide), heval _ _ (by decide) (by decide),
      heval _ _ (by decide) (by decide), heval _ _ (by decide) (by decide),
      heval _ _ (by decide) (by decide), heval _ _ (by decide) (by decide)⟩

theorem edgesClean_ToUpper_id (t : GoString) (h : edgesClean t = true) :
    edgesClean (ToUpper id t) = true := by
  unfold ToUpper
  split
  · exact edgesClean_asciiUpper t h
  · exact h

/-- Witness for C20: a string with punctuation at both ends and inside, with
the identity for the Unicode branch of `ToUpper`. -/
theorem SanitizeString_spec_witness :
    (∀ t, edgesClean t = true → edgesClean (ToUpper id t) = true) ∧
    (str "(save-20, off!)").all (fun c => decide (c < 128)) = true ∧
    edgesClean (SanitizeString id (str "(save-20, off!)")) = true ∧
    SanitizeString id (str "(save-20, off!)") = asciiUpper (trimSpec (str "(save-20, off!)")) :=
  ⟨edgesClean_ToUpper_id, by decide,
   (SanitizeString_spec id (str "(save-20, off!)")).2.2.2.1 edgesClean_ToUpper_id,
   ((SanitizeString_spec id (str "(save-20, off!)")).2.2.1 (by decide)).1⟩

/-! ## Lemmas on the catalog -/

theorem findProduct_some (l : List Product) (id : GoString) (product : Product)
    (h : findProduct l id = some product) : product ∈ l ∧ product.ID = id := by
  induction l with
  | nil => simp [findProduct] at h
  | cons a rest ih =>
    unfold findProduct at h
    split at h
    · next ha =>
      cases h
      exact ⟨List.mem_cons_self _ _, ha⟩
    · exact ⟨List.mem_cons_of_mem _ (ih h).1, (ih h).2⟩

theorem findProduct_none (l : List Product) (id : GoString) (h : findProduct l id = none) :
    ∀ product ∈ l, product.ID ≠ id := by
  induction l with
  | nil => simp
  | cons a rest ih =>
    unfold findProduct at h
    split at h
    · cases h
    · next ha =>
      intro product hp
      rcases List.mem_cons.mp hp with h1 | h1
      · rw [h1]
        exact ha
      · exact ih h product h1

theorem findProduct_of_mem (l : List Product) (hnd : (l.map Product.ID).Nodup)
    (product : Product) (hp : product ∈ l) : findProduct l product.ID = some product := by
  induction l with
  | nil => simp at hp
  | cons a rest ih =>
    rw [List.map_cons, List.nodup_cons] at hnd
    unfold findProduct
    rcases List.mem_cons.mp hp with h1 | h1
    · rw [h1, if_pos rfl]
    · have hne : a.ID ≠ product.ID := by
        intro heq
        exact hnd.1 (heq ▸ List.mem_map_of_mem Product.ID h1)
      rw [if_neg hne]
      exact ih hnd.2 h1

theorem products_nodup : (products.map Product.ID).Nodup := by decide

/-! ## C21 -/

theorem digitsValue_ge (s : GoString) (n : Nat) : n ≤ digitsValue s n := by
  induction s generalizing n with
  | nil => exact le_refl _
  | cons c rest ih =>
    have := ih (n * 10 + (c - 48))
    unfold digitsValue at this ⊢
    rw [List.foldl_cons]
    omega

theorem digitsValue_lt (s : GoString) (n : Nat) (h : s.all isDigitByte = true) :
    digitsValue s n < (n + 1) * 10 ^ s.length := by
  induction s generalizing n with
  | nil => simp [digitsValue]
  | cons c rest ih =>
    rw [List.all_cons, Bool.and_eq_true] at h
    have hc : c - 48 ≤ 9 := by
      have := h.1
      unfold isDigitByte at this
      simp only [Bool.and_eq_true, decide_eq_true_eq] at this
      omega
    have := ih (n * 10 + (c - 48)) h.2
    unfold digitsValue at this ⊢
    rw [List.foldl_cons, List.length_cons, pow_succ]
    calc List.foldl (fun n c => n * 10 + (c - 48)) (n * 10 + (c - 48)) rest
        < (n * 10 + (c - 48) + 1) * 10 ^ rest.length := this
      _ ≤ ((n + 1) * 10) * 10 ^ rest.length := Nat.mul_le_mul_right _ (by omega)
      _ = (n + 1) * (10 ^ rest.length * 10) := by ring

theorem Atoi_loop_none (s : GoString) (n : Int) (hbytes : ∀ c ∈ s, c < 256) :
    (Atoi.loop s n).2 = none ↔ s.all isDigitByte = true := by
  induction s generalizing n with
  | nil => simp [Atoi.loop]
  | cons c rest ih =>
    have hc := hbytes c (List.mem_cons_self _ _)
    have ih' := fun m => ih m (fun x hx => hbytes x (List.mem_cons_of_mem _ hx))
    unfold Atoi.loop
    dsimp only
    rw [List.all_cons, Bool.and_eq_true]
    by_cases hd : (c + 256 - 48) % 256 > 9
    · rw [if_pos hd]
      constructor
      · intro h
        cases h
      · intro h
        have := h.1
        unfold isDigitByte at this
        simp only [Bool.and_eq_true, decide_eq_true_eq] at this
        omega
    · rw [if_neg hd, ih']
      constructor
      · intro h
        refine ⟨?_, h⟩
        unfold isDigitByte
        simp only [Bool.and_eq_true, decide_eq_true_eq]
        omega
      · intro h
        exact h.2

theorem ParseUint_loop_range (s : GoString) (n : Nat)
    (h : (ParseUint.loop s n).2 = some .outOfRange) :
    (ParseUint.loop s n).1 = 2 ^ 64 - 1 := by
  induction s generalizing n with
  | nil => simp [ParseUint.loop] at h
  | cons c rest ih =>
    unfold ParseUint.loop at h ⊢
    dsimp only at h ⊢
    split_ifs at h ⊢ with h1 h2 h3
    · rfl
    · rfl
    · exact ih _ h
    · cases h

theorem ParseUint_loop_nondigit (s : GoString) (n : Nat) (h : ¬ s.all isDigitByte = true) :
    (ParseUint.loop s n).2 ≠ none := by
  induction s generalizing n with
  | nil => simp at h
  | cons c rest ih =>
    unfold ParseUint.loop
    dsimp only
    split_ifs with h1 h2 h3
    · simp
    · simp
    · apply ih
      intro hrest
      apply h
      rw [List.all_cons, Bool.and_eq_true]
      refine ⟨?_, hrest⟩
      unfold isDigitByte
      simp only [Bool.and_eq_true, decide_eq_true_eq]
      exact h1
    · simp

theorem ParseUint_loop_digits (s : GoString) (n : Nat) (hn : n < 2 ^ 64)
    (h : s.all isDigitByte = true) :
    ParseUint.loop s n
      = if digitsValue s n < 2 ^ 64 then (digitsValue s n, none)
        else (2 ^ 64 - 1, some .outOfRange) := by
  induction s generalizing n with
  | nil =>
    unfold ParseUint.loop digitsValue
    rw [List.foldl_nil, if_pos hn]
  | cons c rest ih =>
    rw [List.all_cons, Bool.and_eq_true] at h
    have hc : 48 ≤ c ∧ c ≤ 57 := by
      have := h.1
      unfold isDigitByte at this
      simpa only [Bool.and_eq_true, decide_eq_true_eq] using this
    have hstep : digitsValue (c :: rest) n = digitsValue rest (n * 10 + (c - 48)) := by
      unfold digitsValue
      rw [List.foldl_cons]
    have hge := digitsValue_ge rest (n * 10 + (c - 48))
    have hpow : (2 : Nat) ^ 64 = 18446744073709551616 := by norm_num
    have hmax : maxUint64 / 10 + 1 = 1844674407370955162 := by
      unfold maxUint64
      norm_num
    unfold ParseUint.loop
    dsimp only
    rw [if_pos hc, hstep, hmax]
    unfold intSize
    rw [hpow] at hn ⊢
    by_cases h1 : n ≥ 1844674407370955162
    · rw [if_pos h1, if_neg (by omega)]
    · rw [if_neg h1]
      have hmul : n * 10 % 18446744073709551616 = n * 10 := Nat.mod_eq_of_lt (by omega)
      rw [hmul]
      by_cases h2 : n * 10 + (c - 48) < 18446744073709551616
      · rw [Nat.mod_eq_of_lt h2, if_neg (by omega), ih _ (by rw [hpow]; exact h2) h.2, hpow]
      · rw [if_pos (by omega), if_neg (by omega)]

theorem ParseUint_range (s : GoString) (h : (ParseUint s).2 = some .outOfRange) :
    (ParseUint s).1 = 2 ^ 64 - 1 := by
  unfold ParseUint at h ⊢
  split_ifs at h ⊢ with h0
  · cases h
  · exact ParseUint_loop_range s 0 h

theorem ParseUint_nondigit (s : GoString) (h : ¬ (s ≠ [] ∧ s.all isDigitByte = true)) :
    (ParseUint s).2 ≠ none := by
  unfold ParseUint
  split_ifs with h0
  · simp
  · exact ParseUint_loop_nondigit s 0 (fun hall => h ⟨h0, hall⟩)

theorem ParseUint_digits (s : GoString) (h0 : s ≠ []) (h : s.all isDigitByte = true) :
    ParseUint s
      = if decimalValue s < 2 ^ 64 then (decimalValue s, none)
        else (2 ^ 64 - 1, some .outOfRange) := by
  unfold ParseUint decimalValue
  rw [if_neg h0]
  exact ParseUint_loop_digits s 0 (by norm_num) h

theorem ParseInt_none (s : GoString) : (ParseInt s).2 = none ↔ isIntLiteral s = true := by
  have hpow : (2 : Nat) ^ 64 = 18446744073709551616 := by norm_num
  have hpow63 : (2 : Nat) ^ 63 = 9223372036854775808 := by norm_num
  cases s with
  | nil => simp [ParseInt, isIntLiteral]
  | cons c rest =>
    unfold ParseInt isIntLiteral
    dsimp only
    generalize (if c = 43 ∨ c = 45 then rest else c :: rest) = digits
    by_cases hd : digits ≠ [] ∧ digits.all isDigitByte = true
    · have hne : digits.isEmpty = false := by
        cases digits with
        | nil => exact absurd rfl hd.1
        | cons a l => rfl
      rw [ParseUint_digits digits hd.1 hd.2, hne, hd.2]
      unfold intSize
      simp only [Bool.not_false, Bool.and_self, Bool.true_and, Bool.or_eq_true,
        Bool.and_eq_true, decide_eq_true_eq, Bool.not_eq_true', decide_eq_false_iff_not]
      rw [hpow, hpow63]
      norm_num only
      by_cases hv : decimalValue digits < 18446744073709551616
      · rw [if_pos hv]
        dsimp only
        rw [if_neg (by simp)]
        by_cases hc : c = 45
        · rw [if_neg (by simp [hc])]
          by_cases hbig : decimalValue digits > 9223372036854775808
          · rw [if_pos ⟨hc, hbig⟩]
            simp only [reduceCtorEq, false_iff]
            omega
          · rw [if_neg (by tauto)]
            simp only [true_iff]
            omega
        · by_cases hbig : decimalValue digits ≥ 9223372036854775808
          · rw [if_pos ⟨hc, hbig⟩]
            simp only [reduceCtorEq, false_iff]
            omega
          · rw [if_neg (by tauto), if_neg (by tauto)]
            simp only [true_iff]
            omega
      · rw [if_neg hv]
        dsimp only
        rw [if_neg (by simp)]
        by_cases hc : c = 45
        · rw [if_neg (by simp [hc]), if_pos ⟨hc, by norm_num⟩]
          simp only [reduceCtorEq, false_iff]
          omega
        · rw [if_pos ⟨hc, by norm_num⟩]
          simp only [reduceCtorEq, false_iff]
          omega
    · have herr := ParseUint_nondigit digits hd
      have hrange := ParseUint_range digits
      have hrhs : (!digits.isEmpty && digits.all isDigitByte) = false := by
        cases digits with
        | nil => rfl
        | cons a l =>
          have : ¬ (a :: l).all isDigitByte = true := fun hall => hd ⟨by simp, hall⟩
          simpa using this
      rw [hrhs]
      generalize ParseUint digits = r at herr hrange ⊢
      obtain ⟨un, err⟩ := r
      dsimp only at herr hrange ⊢
      simp only [Bool.false_and, Bool.false_eq_true, iff_false]
      rcases err with _ | e
      · exact absurd rfl herr
      · cases e with
        | invalid =>
          rw [if_pos rfl]
          simp
        | outOfRange =>
          have hun := hrange rfl
          rw [if_neg (by simp)]
          unfold intSize
          rw [hun]
          by_cases hc : c = 45
          · rw [if_neg (by simp [hc]), if_pos ⟨by simp [hc], by norm_num⟩]
            simp
          · rw [if_pos ⟨by simp [hc], by norm_num⟩]
            simp

theorem Atoi_none (s : GoString) (hbytes : ∀ c ∈ s, c < 256) :
    (Atoi s).2 = none ↔ isIntLiteral s = true := by
  unfold Atoi
  by_cases hfast : 0 < s.length ∧ s.length < 19
  · rw [if_pos (Or.inr ⟨rfl, hfast⟩)]
    cases s with
    | nil => simp at hfast
    | cons c rest =>
      dsimp only
      unfold isIntLiteral
      dsimp only
      have hlen : rest.length < 18 := by
        have := hfast.2
        rw [List.length_cons] at this
        omega
      have hval : ∀ digits : GoString, digits.length ≤ 18 → digits.all isDigitByte = true →
          decimalValue digits < 2 ^ 63 := by
        intro digits hl hall
        have h1 := digitsValue_lt digits 0 hall
        have h2 : 10 ^ digits.length ≤ 10 ^ 18 := Nat.pow_le_pow_right (by decide) hl
        unfold decimalValue
        calc digitsValue digits 0 < (0 + 1) * 10 ^ digits.length := h1
          _ ≤ 10 ^ 18 := by rw [Nat.zero_add, Nat.one_mul]; exact h2
          _ ≤ 2 ^ 63 := by norm_num
      by_cases hsign : c = 45 ∨ c = 43
      · have hsign' : c = 43 ∨ c = 45 := hsign.symm
        rw [if_pos hsign, if_pos hsign']
        by_cases hrest : rest.length < 1
        · rw [if_pos ⟨hsign, hrest⟩]
          have : rest = [] := List.length_eq_zero.mp (by omega)
          rw [this]
          simp
        · rw [if_neg (fun h => hrest h.2)]
          have hloop := Atoi_loop_none rest 0 (fun x hx => hbytes x (List.mem_cons_of_mem _ hx))
          generalize Atoi.loop rest 0 = r at hloop ⊢
          obtain ⟨n, err⟩ := r
          dsimp only at hloop ⊢
          have hne : rest.isEmpty = false := by
            cases rest with
            | nil => simp at hrest
            | cons a l => rfl
          rw [hne]
          by_cases herr : err = none
          · have hall := hloop.mp herr
            rw [if_neg (by simp [herr]), hall]
            have hv := hval rest (by omega) hall
            norm_num at hv
            simp [hv]
          · have hall : ¬ rest.all isDigitByte = true := fun h => herr (hloop.mpr h)
            rw [if_pos herr]
            simp only [Bool.not_eq_true] at hall
            rw [hall]
            simpa using herr
      · have hsign' : ¬ (c = 43 ∨ c = 45) := fun h => hsign h.symm
        rw [if_neg hsign, if_neg hsign', if_neg (fun h => hsign h.1)]
        have hloop := Atoi_loop_none (c :: rest) 0 hbytes
        generalize Atoi.loop (c :: rest) 0 = r at hloop ⊢
        obtain ⟨n, err⟩ := r
        dsimp only at hloop ⊢
        by_cases herr : err = none
        · have hall := hloop.mp herr
          rw [if_neg (by simp [herr]), hall]
          have hv := hval (c :: rest) (by rw [List.length_cons]; omega) hall
          norm_num at hv
          simp [hv]
        · have hall : ¬ (c :: rest).all isDigitByte = true := fun h => herr (hloop.mpr h)
          rw [if_pos herr]
          simp only [Bool.not_eq_true] at hall
          rw [hall]
          simpa using herr
  · rw [if_neg (by
      rintro (⟨h32, _⟩ | ⟨_, h⟩)
      · exact absurd h32 (by decide)
      · exact hfast h)]
    exact ParseInt_none s

theorem IsValidID_eq_isIntLiteral (id : GoString) (hbytes : ∀ c ∈ id, c < 256) :
    IsValidID id = isIntLiteral id := by
  unfold IsValidID
  by_cases h0 : id = []
  · rw [if_pos h0, h0]
    rfl
  · rw [if_neg h0]
    have h := Atoi_none id hbytes
    by_cases hn : (Atoi id).2 = none
    · rw [if_neg (by simp [hn]), h.mp hn]
    · rw [if_pos hn]
      have : ¬ isIntLiteral id = true := fun hl => hn (h.mpr hl)
      simpa using this

theorem isIntLiteral_iff (id : GoString) :
    isIntLiteral id = true ↔
      ∃ sign digits : GoString, id = sign ++ digits ∧
        (sign = [] ∨ sign = str "+" ∨ sign = str "-") ∧
        digits ≠ [] ∧ digits.all isDigitByte = true ∧
        (decimalValue digits < 2 ^ 63 ∨ (sign = str "-" ∧ decimalValue digits = 2 ^ 63)) := by
  have hplus : str "+" = [43] := by decide
  have hminus : str "-" = [45] := by decide
  have hnd43 : isDigitByte 43 = false := by decide
  have hnd45 : isDigitByte 45 = false := by decide
  rw [hplus, hminus]
  constructor
  · intro h
    cases id with
    | nil => simp [isIntLiteral] at h
    | cons c rest =>
      unfold isIntLiteral at h
      dsimp only at h
      simp only [Bool.and_eq_true, Bool.or_eq_true, decide_eq_true_eq, Bool.not_eq_true',
        List.isEmpty_eq_false] at h
      obtain ⟨⟨hne, hall⟩, hval⟩ := h
      by_cases hc : c = 43 ∨ c = 45
      · rw [if_pos hc] at hne hall hval
        refine ⟨[c], rest, rfl, ?_, hne, hall, ?_⟩
        · rcases hc with hc | hc
          · exact Or.inr (Or.inl (by rw [hc]))
          · exact Or.inr (Or.inr (by rw [hc]))
        · rcases hval with hval | ⟨h45, hval⟩
          · exact Or.inl hval
          · exact Or.inr ⟨by rw [h45], hval⟩
      · rw [if_neg hc] at hne hall hval
        refine ⟨[], c :: rest, rfl, Or.inl rfl, hne, hall, ?_⟩
        rcases hval with hval | ⟨h45, _⟩
        · exact Or.inl hval
        · exact absurd (Or.inr h45) hc
  · rintro ⟨sign, digits, hid, hsign, hne, hall, hval⟩
    have hpow63 : (2 : Nat) ^ 63 = 9223372036854775808 := by norm_num
    rw [hpow63] at hval
    have hnil : digits.isEmpty = false := by
      cases digits with
      | nil => exact absurd rfl hne
      | cons a l => rfl
    rcases hsign with hs | hs | hs
    · rw [hs] at hid hval
      rw [hid, List.nil_append]
      cases digits with
      | nil => exact absurd rfl hne
      | cons c rest =>
        have hc : ¬ (c = 43 ∨ c = 45) := by
          rw [List.all_cons, Bool.and_eq_true] at hall
          rintro (h | h)
          · rw [h, hnd43] at hall
            exact absurd hall.1 (by decide)
          · rw [h, hnd45] at hall
            exact absurd hall.1 (by decide)
        unfold isIntLiteral
        dsimp only
        rw [if_neg hc, hall]
        rcases hval with hval | ⟨h, _⟩
        · simp [hval]
        · cases h
    · rw [hs] at hid hval
      rw [hid]
      unfold isIntLiteral
      rw [List.singleton_append]
      dsimp only
      rw [if_pos (Or.inl rfl), hall, hnil]
      rcases hval with hval | ⟨h, _⟩
      · simp [hval]
      · exact absurd h (by decide)
    · rw [hs] at hid
      rw [hid]
      unfold isIntLiteral
      rw [List.singleton_append]
      dsimp only
      rw [if_pos (Or.inr rfl), hall, hnil]
      rcases hval with hval | ⟨_, hval⟩
      · simp [hval]
      · simp [hval]

theorem isIntLiteral_tail (id : GoString) (h : isIntLiteral id = true) :
    id ≠ [] ∧ id.tail.all isDigitByte = true ∧
    ∀ c ∈ id, isDigitByte c = true ∨ c = 43 ∨ c = 45 := by
  cases id with
  | nil => simp [isIntLiteral] at h
  | cons c rest =>
    unfold isIntLiteral at h
    dsimp only at h
    simp only [Bool.and_eq_true, Bool.or_eq_true, decide_eq_true_eq, Bool.not_eq_true',
      List.isEmpty_eq_false] at h
    obtain ⟨⟨_, hall⟩, _⟩ := h
    by_cases hc : c = 43 ∨ c = 45
    · rw [if_pos hc] at hall
      refine ⟨by simp, hall, ?_⟩
      intro x hx
      rcases List.mem_cons.mp hx with rfl | hx
      · exact Or.inr hc
      · exact Or.inl (List.all_eq_true.mp hall x hx)
    · rw [if_neg hc] at hall
      refine ⟨by simp, ?_, fun x hx => Or.inl (List.all_eq_true.mp hall x hx)⟩
      rw [List.all_cons, Bool.and_eq_true] at hall
      exact hall.2

/-- C21, counterexample: `IsValidID` accepts -1 and +1, which are not made of
decimal digits only, and rejects the twenty digits 99999999999999999999, a
non-empty string of decimal digits. -/
theorem IsValidID_sign_and_range :
    IsValidID (str "-1") = true ∧ IsValidID (str "+1") = true ∧
    (str "-1").all isDigitByte = false ∧ (str "+1").all isDigitByte = false ∧
    str "99999999999999999999" ≠ [] ∧
    (str "99999999999999999999").all isDigitByte = true ∧
    IsValidID (str "99999999999999999999") = false := by
  decide

/-- C21, amended: for a string of bytes, `IsValidID(id)` is true exactly when
`id` is an optional sign `+` or `-` followed by at least one decimal digit and
the number fits `int` (below 2^63, or 2^63 after `-`).  A non-empty string of
at most 18 decimal digits is accepted; an accepted id is non-empty, has only
decimal digits after its first byte, and no byte other than digits and signs;
the empty string, abc, 123abc, `123 456` and `123!` are rejected. -/
theorem IsValidID_spec (id : GoString) (hbytes : ∀ c ∈ id, c < 256) :
    (IsValidID id = true ↔
      ∃ sign digits : GoString, id = sign ++ digits ∧
        (sign = [] ∨ sign = str "+" ∨ sign = str "-") ∧
        digits ≠ [] ∧ digits.all isDigitByte = true ∧
        (decimalValue digits < 2 ^ 63 ∨ (sign = str "-" ∧ decimalValue digits = 2 ^ 63))) ∧
    (id ≠ [] → id.all isDigitByte = true → id.length ≤ 18 → IsValidID id = true) ∧
    (IsValidID id = true →
      id ≠ [] ∧ id.tail.all isDigitByte = true ∧
      ∀ c ∈ id, isDigitByte c = true ∨ c = 43 ∨ c = 45) ∧
    (IsValidID [] = false ∧ IsValidID (str "abc") = false ∧
      IsValidID (str "123abc") = false ∧ IsValidID (str "123 456") = false ∧
      IsValidID (str "123!") = false ∧ IsValidID (str "123") = true) := by
  have heq := IsValidID_eq_isIntLiteral id hbytes
  refine ⟨?_, ?_, ?_, by decide⟩
  · rw [heq]
    exact isIntLiteral_iff id
  · intro hne hall hlen
    rw [heq, isIntLiteral_iff]
    refine ⟨[], id, rfl, Or.inl rfl, hne, hall, Or.inl ?_⟩
    have h1 := digitsValue_lt id 0 hall
    have h2 : 10 ^ id.length ≤ 10 ^ 18 := Nat.pow_le_pow_right (by decide) hlen
    unfold decimalValue
    calc digitsValue id 0 < (0 + 1) * 10 ^ id.length := h1
      _ ≤ 10 ^ 18 := by rw [Nat.zero_add, Nat.one_mul]; exact h2
      _ ≤ 2 ^ 63 := by norm_num
  · intro h
    rw [heq] at h
    exact isIntLiteral_tail id h

/-- Witness for C21: the id 42. -/
theorem IsValidID_spec_witness :
    (∀ c ∈ str "42", c < 256) ∧ IsValidID (str "42") = true ∧
    ∃ sign digits : GoString, str "42" = sign ++ digits ∧
      (sign = [] ∨ sign = str "+" ∨ sign = str "-") ∧
      digits ≠ [] ∧ digits.all isDigitByte = true ∧
      (decimalValue digits < 2 ^ 63 ∨ (sign = str "-" ∧ decimalValue digits = 2 ^ 63)) :=
  ⟨by decide, by decide, (IsValidID_spec (str "42") (by decide)).1.mp (by decide)⟩

/-! ## C22 -/

theorem validateOrderRequest_loop_none (items : List OrderItem) :
    validateOrderRequest.loop items = none ↔
      ∀ item ∈ items,
        item.ProductID ≠ [] ∧ IsValidID item.ProductID = true ∧ 0 < item.Quantity := by
  induction items with
  | nil => simp [validateOrderRequest.loop]
  | cons a rest ih =>
    unfold validateOrderRequest.loop
    by_cases h1 : a.ProductID = []
    · simp [h1]
    · by_cases h2 : a.Quantity ≤ 0
      · rw [if_neg h1, if_pos h2]
        simp only [List.mem_cons, forall_eq_or_imp]
        constructor
        · intro h
          cases h
        · intro h
          omega
      · by_cases h3 : IsValidID a.ProductID = true
        · rw [if_neg h1, if_neg h2, if_neg (by simp [h3]), ih]
          simp only [List.mem_cons, forall_eq_or_imp]
          constructor
          · intro h
            exact ⟨⟨h1, h3, by omega⟩, h⟩
          · intro h
            exact h.2
        · rw [if_neg h1, if_neg h2, if_pos (by simpa using h3)]
          simp only [List.mem_cons, forall_eq_or_imp]
          constructor
          · intro h
            cases h
          · intro h
            exact absurd h.1.2.1 h3

theorem validateOrderRequest_none (orderReq : OrderRequest) :
    validateOrderRequest orderReq = none ↔
      orderReq.Items ≠ [] ∧
      ∀ item ∈ orderReq.Items,
        item.ProductID ≠ [] ∧ IsValidID item.ProductID = true ∧ 0 < item.Quantity := by
  unfold validateOrderRequest
  by_cases h : orderReq.Items.length = 0
  · rw [if_pos h]
    constructor
    · intro h0
      cases h0
    · intro h0
      exact absurd (List.length_eq_zero.mp h) h0.1
  · rw [if_neg h, validateOrderRequest_loop_none]
    constructor
    · intro h0
      exact ⟨fun hnil => h (by rw [hnil]; rfl), h0⟩
    · intro h0
      exact h0.2

theorem validateAndCollectProducts_loop_ok (items : List OrderItem) (acc : List Product)
    (h : ∀ item ∈ items, ∃ product ∈ products, product.ID = item.ProductID) :
    ∃ found : List Product,
      validateAndCollectProducts.loop items acc = .ok (acc ++ found) ∧
      found.map Product.ID = items.map OrderItem.ProductID ∧
      ∀ product ∈ found, product ∈ products := by
  induction items generalizing acc with
  | nil => exact ⟨[], by simp [validateAndCollectProducts.loop], rfl, by simp⟩
  | cons a rest ih =>
    obtain ⟨product, hp, hid⟩ := h a (List.mem_cons_self _ _)
    have hf : findProduct products a.ProductID = some product := by
      rw [← hid]
      exact findProduct_of_mem products products_nodup product hp
    obtain ⟨found, hok, hmap, hmem⟩ :=
      ih (acc ++ [product]) (fun item hi => h item (List.mem_cons_of_mem _ hi))
    refine ⟨product :: found, ?_, ?_, ?_⟩
    · unfold validateAndCollectProducts.loop GetProductByID
      rw [hf]
      dsimp only
      rw [if_neg (by simp), hok, List.append_assoc]
      rfl
    · rw [List.map_cons, List.map_cons, hmap, hid]
    · intro q hq
      rcases List.mem_cons.mp hq with rfl | hq
      · exact hp
      · exact hmem q hq

theorem validateAndCollectProducts_loop_error (items : List OrderItem) (acc : List Product)
    (h : ¬ ∀ item ∈ items, ∃ product ∈ products, product.ID = item.ProductID) :
    ∃ err, validateAndCollectProducts.loop items acc = .error err := by
  induction items generalizing acc with
  | nil => simp at h
  | cons a rest ih =>
    unfold validateAndCollectProducts.loop GetProductByID
    rcases hf : findProduct products a.ProductID with _ | product
    · exact ⟨_, rfl⟩
    · dsimp only
      rw [if_neg (by simp)]
      apply ih
      intro hall
      apply h
      intro item hi
      rcases List.mem_cons.mp hi with rfl | hi
      · exact ⟨product, (findProduct_some _ _ _ hf).1, (findProduct_some _ _ _ hf).2⟩
      · exact hall item hi

theorem generateOrderID_ne_nil (unicodeUpper : GoString → GoString) (now : ClockTime)
    (random : RandomRead) : generateOrderID unicodeUpper now random ≠ [] := by
  have hord : str "ORD-" = [79, 82, 68, 45] := by decide
  unfold generateOrderID
  cases random <;> simp [hord]

/-- C22: for a successfully bound order request, `PlaceOrder` responds 200
exactly when the item list is non-empty, every item has a non-empty productId
that passes `IsValidID` and a quantity > 0, every productId exists in the
catalog, and the coupon code is empty or accepted by `IsValidPromoCode`;
otherwise it responds 422.  On 200 the body is an order with a non-empty ID,
the request's items, and as many products as items, the i-th product having the
ID of the i-th item. -/
theorem PlaceOrder_spec (unicodeUpper : GoString → GoString) (p : PromoCodeService)
    (now : ClockTime) (random : RandomRead) (c : Context) (orderReq : OrderRequest)
    (hbind : c.request.bind = .ok orderReq) :
    ((PlaceOrder unicodeUpper p now random c).1.status = some 200 ↔
      (orderReq.Items ≠ [] ∧
        (∀ item ∈ orderReq.Items,
          item.ProductID ≠ [] ∧ IsValidID item.ProductID = true ∧ 0 < item.Quantity) ∧
        (∀ item ∈ orderReq.Items, ∃ product ∈ products, product.ID = item.ProductID) ∧
        (orderReq.CouponCode = [] ∨
          IsValidPromoCode unicodeUpper p orderReq.CouponCode = true))) ∧
    ((PlaceOrder unicodeUpper p now random c).1.status ≠ some 200 →
      (PlaceOrder unicodeUpper p now random c).1.status = some 422 ∧
      ∃ message, (PlaceOrder unicodeUpper p now random c).1.body
        = some (.apiResponse { Code := 422, Type' := "error", Message := message })) ∧
    ((PlaceOrder unicodeUpper p now random c).1.status = some 200 →
      ∃ order : Order,
        (PlaceOrder unicodeUpper p now random c).1.body = some (.order order) ∧
        order.ID ≠ [] ∧
        order.ID = generateOrderID unicodeUpper now random ∧
        order.Items = orderReq.Items ∧
        order.Products.length = order.Items.length ∧
        (∀ i (hp : i < order.Products.length) (hi : i < order.Items.length),
          (order.Products.get ⟨i, hp⟩).ID = (order.Items.get ⟨i, hi⟩).ProductID) ∧
        (∀ product ∈ order.Products, product ∈ products)) := by
  have h422 : (some 422 : Option Nat) ≠ some 200 := by decide
  unfold PlaceOrder
  dsimp only
  rw [hbind]
  dsimp only
  rcases hv : validateOrderRequest orderReq with _ | err
  · have hval := (validateOrderRequest_none orderReq).mp hv
    dsimp only
    by_cases hcat : ∀ item ∈ orderReq.Items, ∃ product ∈ products, product.ID = item.ProductID
    · obtain ⟨found, hok, hmap, hmem⟩ := validateAndCollectProducts_loop_ok orderReq.Items [] hcat
      rw [List.nil_append] at hok
      unfold validateAndCollectProducts
      rw [hok]
      dsimp only
      by_cases hcoupon : orderReq.CouponCode ≠ [] ∧
          (!IsValidPromoCode unicodeUpper p orderReq.CouponCode) = true
      · rw [if_pos hcoupon]
        refine ⟨⟨fun h => absurd h h422, ?_⟩, fun _ => ⟨rfl, _, rfl⟩, fun h => absurd h h422⟩
        rintro ⟨_, _, _, hc⟩
        rcases hc with hc | hc
        · exact absurd hc hcoupon.1
        · have := hcoupon.2
          rw [hc] at this
          cases this
      · rw [if_neg hcoupon]
        have hlen : found.length = orderReq.Items.length := by
          have := congrArg List.length hmap
          rwa [List.length_map, List.length_map] at this
        refine ⟨⟨fun _ => ⟨hval.1, hval.2, hcat, ?_⟩, fun _ => rfl⟩, fun h => absurd rfl h,
          fun _ => ⟨_, rfl, generateOrderID_ne_nil _ _ _, rfl, rfl, hlen, ?_, hmem⟩⟩
        · by_cases hnil : orderReq.CouponCode = []
          · exact Or.inl hnil
          · right
            by_contra hacc
            exact hcoupon ⟨hnil, by simpa using hacc⟩
        · intro i hp hi
          have h1 := congrArg (fun l => l[i]?) hmap
          simp only [List.getElem?_map, List.getElem?_eq_getElem hp,
            List.getElem?_eq_getElem hi, Option.map_some', Option.some.injEq] at h1
          simpa using h1
    · obtain ⟨err, herr⟩ := validateAndCollectProducts_loop_error orderReq.Items [] hcat
      unfold validateAndCollectProducts
      rw [herr]
      dsimp only
      refine ⟨⟨fun h => absurd h h422, ?_⟩, fun _ => ⟨rfl, _, rfl⟩, fun h => absurd h h422⟩
      rintro ⟨_, _, hc, _⟩
      exact absurd hc hcat
  · dsimp only
    refine ⟨⟨fun h => absurd h h422, ?_⟩, fun _ => ⟨rfl, _, rfl⟩, fun h => absurd h h422⟩
    rintro ⟨h1, h2, _, _⟩
    have := (validateOrderRequest_none orderReq).mpr ⟨h1, h2⟩
    rw [hv] at this
    cases this

/-- Witness for C22: an order of two pieces of product 1 without a coupon. -/
theorem PlaceOrder_spec_witness :
    (newContext "apitest" [] (.ok { CouponCode := [], Items := [⟨str "1", 2⟩] })).request.bind
      = .ok { CouponCode := [], Items := [⟨str "1", 2⟩] } ∧
    (PlaceOrder id NewPromoCodeService sampleTime (.filled 0 255 171 9)
      (newContext "apitest" [] (.ok { CouponCode := [], Items := [⟨str "1", 2⟩] }))).1.status
      = some 200 :=
  ⟨rfl,
   (PlaceOrder_spec id NewPromoCodeService sampleTime (.filled 0 255 171 9)
      (newContext "apitest" [] (.ok { CouponCode := [], Items := [⟨str "1", 2⟩] }))
      { CouponCode := [], Items := [⟨str "1", 2⟩] } rfl).1.mpr
      ⟨by decide, by decide, by decide, Or.inl rfl⟩⟩

/-! ## C23 -/

/-- C23: `APIKeyAuth` hands the request to the wrapped handler exactly when
the `api_key` header is `apitest`: with that key the result is the result of
the handler; with a missing or different key the response is 401 with an
`APIResponse` of code 401, the returned error is nil and the result is the same
for every wrapped handler and every request body. -/
theorem APIKeyAuth_spec (next : HandlerFunc) (c : Context) :
    (c.request.header "api_key" = "apitest" ↔ ∀ h : HandlerFunc, APIKeyAuth h c = h c) ∧
    (c.request.header "api_key" = "apitest" → APIKeyAuth next c = next c) ∧
    (c.request.header "api_key" ≠ "apitest" →
      (APIKeyAuth next c).1.status = some 401 ∧
      (APIKeyAuth next c).1.body = some (.apiResponse
        { Code := 401, Type' := "error", Message := str "Invalid or missing API key" }) ∧
      (APIKeyAuth next c).2 = none ∧
      (∀ h : HandlerFunc, APIKeyAuth h c = APIKeyAuth next c) ∧
      (∀ bind : Except String OrderRequest,
        (APIKeyAuth next { c with request := { c.request with bind := bind } }).1.status
          = some 401)) ∧
    (c.request.header "api_key" = "" → (APIKeyAuth next c).1.status = some 401) := by
  have hno : c.request.header "api_key" ≠ "apitest" →
      ∀ h : HandlerFunc, APIKeyAuth h c = c.JSON 401 (.apiResponse
        { Code := 401, Type' := "error", Message := str "Invalid or missing API key" }) := by
    intro hk h
    unfold APIKeyAuth
    simp [hk]
  have hyes : c.request.header "api_key" = "apitest" →
      ∀ h : HandlerFunc, APIKeyAuth h c = h c := by
    intro hk h
    unfold APIKeyAuth
    simp [hk]
  refine ⟨⟨hyes, ?_⟩, fun hk => hyes hk next, ?_, ?_⟩
  · intro hall
    by_contra hk
    have h1 := hall (fun c => c.JSON 200 (.apiResponse
      { Code := 200, Type' := "ok", Message := [] }))
    rw [hno hk] at h1
    have h2 := congrArg (fun r => r.1.status) h1
    simp [Context.JSON] at h2
  · intro hk
    rw [hno hk next]
    refine ⟨rfl, rfl, rfl, fun h => hno hk h, ?_⟩
    intro bind
    unfold APIKeyAuth
    simp [hk, Context.JSON]
  · intro hk
    have hne : c.request.header "api_key" ≠ "apitest" := by
      rw [hk]
      decide
    rw [hno hne next]
    rfl

/-- Witness for C23: a request with a wrong key and a request with the right
key, in front of a handler that answers 200. -/
theorem APIKeyAuth_spec_witness :
    (newContext "wrongkey" [] (.error "no body")).request.header "api_key" ≠ "apitest" ∧
    (APIKeyAuth okHandler (newContext "wrongkey" [] (.error "no body"))).1.status = some 401 ∧
    (newContext "apitest" [] (.error "no body")).request.header "api_key" = "apitest" ∧
    APIKeyAuth okHandler (newContext "apitest" [] (.error "no body"))
      = okHandler (newContext "apitest" [] (.error "no body")) :=
  ⟨by decide,
   ((APIKeyAuth_spec okHandler (newContext "wrongkey" [] (.error "no body"))).2.2.1
      (by decide)).1,
   by decide,
   (APIKeyAuth_spec okHandler (newContext "apitest" [] (.error "no body"))).2.1 (by decide)⟩

/-! ## C24 -/

/-- C24: `GetProduct` answers 400 when `IsValidID(productId)` is false, 200
with the catalog product whose ID is `productId` when there is one, and 404
otherwise; the IDs 1, 999, abc and the empty ID of the test give 200 with the
product of ID 1, 404, 400 and 400. -/
theorem GetProduct_spec (c : Context) :
    (IsValidID (c.request.param "productId") = false →
      (GetProduct c).1.status = some 400 ∧
      (GetProduct c).1.body = some (.apiResponse
        { Code := 400, Type' := "error", Message := str "Invalid product ID format" })) ∧
    (IsValidID (c.request.param "productId") = true →
      ∀ product ∈ products, product.ID = c.request.param "productId" →
        (GetProduct c).1.status = some 200 ∧ (GetProduct c).1.body = some (.product product)) ∧
    (IsValidID (c.request.param "productId") = true →
      (∀ product ∈ products, product.ID ≠ c.request.param "productId") →
        (GetProduct c).1.status = some 404 ∧
        (GetProduct c).1.body = some (.apiResponse
          { Code := 404, Type' := "error", Message := str "Product not found" })) ∧
    (GetProduct c).2 = none ∧
    ((GetProduct (newContext "" (str "1") (.error "no body"))).1.status = some 200 ∧
      (GetProduct (newContext "" (str "1") (.error "no body"))).1.body
        = some (.product
            { ID := str "1", Name := "Chicken Waffle", Price := 1299, Category := "Waffle" }) ∧
      (GetProduct (newContext "" (str "999") (.error "no body"))).1.status = some 404 ∧
      (GetProduct (newContext "" (str "abc") (.error "no body"))).1.status = some 400 ∧
      (GetProduct (newContext "" (str "") (.error "no body"))).1.status = some 400) := by
  refine ⟨?_, ?_, ?_, ?_, by decide⟩
  · intro hv
    unfold GetProduct
    simp [hv, Context.JSON]
  · intro hv product hp hid
    have hf : findProduct products (c.request.param "productId") = some product := by
      rw [← hid]
      exact findProduct_of_mem products products_nodup product hp
    unfold GetProduct
    simp [hv, hf, Context.JSON]
  · intro hv hno
    have hf : findProduct products (c.request.param "productId") = none := by
      cases hf : findProduct products (c.request.param "productId") with
      | none => rfl
      | some pr =>
        have := findProduct_some products _ pr hf
        exact absurd this.2 (hno pr this.1)
    unfold GetProduct
    simp [hv, hf, Context.JSON]
  · unfold GetProduct
    dsimp only
    split
    · rfl
    · split <;> rfl

/-- Witness for C24: the product IDs 2 and abc. -/
theorem GetProduct_spec_witness :
    IsValidID ((newContext "" (str "2") (.error "no body")).request.param "productId") = true ∧
    (GetProduct (newContext "" (str "2") (.error "no body"))).1.body
      = some (.product
          { ID := str "2", Name := "Belgian Waffle", Price := 1099, Category := "Waffle" }) ∧
    IsValidID ((newContext "" (str "abc") (.error "no body")).request.param "productId")
      = false ∧
    (GetProduct (newContext "" (str "abc") (.error "no body"))).1.status = some 400 :=
  ⟨by decide,
   ((GetProduct_spec (newContext "" (str "2") (.error "no body"))).2.1 (by decide)
      { ID := str "2", Name := "Belgian Waffle", Price := 1099, Category := "Waffle" }
      (by decide) (by decide)).2,
   by decide,
   ((GetProduct_spec (newContext "" (str "abc") (.error "no body"))).1 (by decide)).1⟩

/-! ## C25 -/

theorem GetServiceStatus_CodesLoaded (p : PromoCodeService) :
    (GetServiceStatus p).CodesLoaded = p.codesCount := by
  unfold GetServiceStatus GetValidCodesCount
  dsimp only
  split_ifs <;> rfl

theorem GetServiceStatus_IsFullyLoaded (p : PromoCodeService) :
    (GetServiceStatus p).IsFullyLoaded = decide (p.isLoaded = 1) := by
  unfold GetServiceStatus
  dsimp only
  split_ifs <;> rfl

theorem Health_response_Status (p : PromoCodeService) :
    (Health.response p).Status
      = if (GetServiceStatus p).CodesLoaded = 0 then "starting"
        else if (GetServiceStatus p).IsFullyLoaded = false ∧ (GetServiceStatus p).LastError ≠ ""
          then "degraded"
        else "healthy" := by
  unfold Health.response
  dsimp only
  by_cases h0 : (GetServiceStatus p).CodesLoaded = 0
  · simp [h0]
  · by_cases h1 : (GetServiceStatus p).IsFullyLoaded = false ∧ (GetServiceStatus p).LastError ≠ ""
    · simp [h0, h1]
    · rw [if_neg h0, if_neg h0, if_neg h1]
      have h1' : ¬ ((!(GetServiceStatus p).IsFullyLoaded) = true ∧
          (GetServiceStatus p).LastError ≠ "") := by
        simpa using h1
      rw [if_neg h1']

theorem Health_response_copy (p : PromoCodeService) :
    (Health.response p).Service = "github.com/ilyulev/kart-challenge/backend-api" ∧
    (Health.response p).PromoCodes = (GetServiceStatus p).CodesLoaded ∧
    (Health.response p).PromoStatus.Status = (GetServiceStatus p).Status ∧
    (Health.response p).PromoStatus.DataSource = (GetServiceStatus p).DataSource ∧
    (Health.response p).PromoStatus.CodesLoaded = (GetServiceStatus p).CodesLoaded ∧
    (Health.response p).PromoStatus.IsFullyLoaded = (GetServiceStatus p).IsFullyLoaded ∧
    (Health.response p).PromoStatus.LastError = (GetServiceStatus p).LastError := by
  unfold Health.response
  dsimp only
  split_ifs <;> exact ⟨rfl, rfl, rfl, rfl, rfl, rfl, rfl⟩

theorem envBig_cycle (p : PromoCodeService) :
    (downloadCodesAsync envBig p).isLoaded = 1 ∧
    (downloadCodesAsync envBig p).validCodes = bigSnapshot ∧
    (downloadCodesAsync envBig p).codesCount = -2147483648 := by
  have hS := cycleValidCodes_single envBig bigSnapshot successfulSets_envBig
  have hcard := bigSnapshot_card
  have hne : ¬ bigSnapshot = ∅ := by
    intro h
    rw [h] at hcard
    simp at hcard
  have hl : (downloadCodesAsync envBig p).isLoaded = 1 := by
    rw [downloadCodesAsync_of_tempDir envBig p rfl, successfulSets_envBig, hS,
      if_neg (by simp), if_neg hne]
  obtain ⟨hv, hc, _⟩ := downloadCodesAsync_committed envBig p hl
  rw [hS] at hv hc
  refine ⟨hl, hv, ?_⟩
  rw [hc, hcard]
  unfold int32
  norm_num

theorem stateBigThenFailed_fields :
    stateBigThenFailed.isLoaded = 0 ∧
    stateBigThenFailed.codesCount = -2147483648 ∧
    stateBigThenFailed.validCodes = bigSnapshot ∧
    stateBigThenFailed.loadError
      = some "background download failed: no coupon files processed" := by
  have hzero : successfulSets envAllFail = [] := by decide
  unfold stateBigThenFailed
  rcases downloadCodesAsync_cases envAllFail (downloadCodesAsync envBig NewPromoCodeService) with
    ⟨err, hd, _, _⟩ | ⟨_, _, hl, he⟩ | ⟨_, hs, _, _, _⟩ | ⟨_, hs, _, _, _⟩
  · exact absurd hd (by simp [envAllFail])
  · have hne : (downloadCodesAsync envAllFail
        (downloadCodesAsync envBig NewPromoCodeService)).isLoaded ≠ 1 := by
      rw [hl]
      decide
    obtain ⟨hv, hc, _, _⟩ := downloadCodesAsync_failed envAllFail _ hne
    exact ⟨hl, hc.trans (envBig_cycle NewPromoCodeService).2.2,
      hv.trans (envBig_cycle NewPromoCodeService).2.1, he⟩
  · exact absurd hzero hs
  · exact absurd hzero hs

/-- C25, counterexample: in the state reached by a cycle that commits the 2^31
codes of `bigSnapshot` and a second cycle in which every download fails, the
count is -2147483648, the service is not fully loaded and `LastError` is set:
`Health` reports degraded although `CodesLoaded > 0` is false. -/
theorem health_degraded_with_negative_count :
    (GetServiceStatus stateBigThenFailed).CodesLoaded = -2147483648 ∧
    (GetServiceStatus stateBigThenFailed).IsFullyLoaded = false ∧
    (GetServiceStatus stateBigThenFailed).LastError ≠ "" ∧
    (Health.response stateBigThenFailed).Status = "degraded" ∧
    ¬ ((Health.response stateBigThenFailed).Status = "degraded" ↔
        ((GetServiceStatus stateBigThenFailed).CodesLoaded > 0 ∧
          (GetServiceStatus stateBigThenFailed).IsFullyLoaded = false ∧
          (GetServiceStatus stateBigThenFailed).LastError ≠ "")) := by
  obtain ⟨hl, hc, _, he⟩ := stateBigThenFailed_fields
  have h1 : (GetServiceStatus stateBigThenFailed).CodesLoaded = -2147483648 := by
    rw [GetServiceStatus_CodesLoaded, hc]
  have h2 : (GetServiceStatus stateBigThenFailed).IsFullyLoaded = false := by
    rw [GetServiceStatus_IsFullyLoaded, hl]
    decide
  have h3 : (GetServiceStatus stateBigThenFailed).LastError
      = "background download failed: no coupon files processed" := by
    rw [GetServiceStatus_LastError, he]
    rfl
  have h3' : (GetServiceStatus stateBigThenFailed).LastError ≠ "" := by
    rw [h3]
    decide
  have h4 : (Health.response stateBigThenFailed).Status = "degraded" := by
    rw [Health_response_Status, h1, if_neg (by decide), if_pos ⟨h2, h3'⟩]
  refine ⟨h1, h2, h3', h4, ?_⟩
  intro hiff
  have := (hiff.mp h4).1
  rw [h1] at this
  exact absurd this (by decide)

/-- C25, amended: for every promo service state `Health` answers 200 with a
Status that is starting exactly when `CodesLoaded == 0`, degraded exactly when
`CodesLoaded != 0`, the service is not fully loaded and `LastError` is
non-empty, and healthy otherwise (for a count that is not negative,
`CodesLoaded != 0` is `CodesLoaded > 0`); `PromoCodes` equals
`PromoStatus.CodesLoaded` and `PromoStatus` copies every field of
`GetServiceStatus()`. -/
theorem Health_spec (p : PromoCodeService) (c : Context) :
    (Health p c).1.status = some 200 ∧
    (Health p c).1.body = some (.health (Health.response p)) ∧
    (Health p c).2 = none ∧
    ((Health.response p).Status = "starting" ↔ (GetServiceStatus p).CodesLoaded = 0) ∧
    ((Health.response p).Status = "degraded" ↔
      ((GetServiceStatus p).CodesLoaded ≠ 0 ∧ (GetServiceStatus p).IsFullyLoaded = false ∧
        (GetServiceStatus p).LastError ≠ "")) ∧
    ((Health.response p).Status = "healthy" ↔
      ((GetServiceStatus p).CodesLoaded ≠ 0 ∧
        ¬ ((GetServiceStatus p).IsFullyLoaded = false ∧ (GetServiceStatus p).LastError ≠ ""))) ∧
    (0 ≤ (GetServiceStatus p).CodesLoaded →
      ((Health.response p).Status = "degraded" ↔
        ((GetServiceStatus p).CodesLoaded > 0 ∧ (GetServiceStatus p).IsFullyLoaded = false ∧
          (GetServiceStatus p).LastError ≠ ""))) ∧
    (Health.response p).PromoCodes = (Health.response p).PromoStatus.CodesLoaded ∧
    ((Health.response p).PromoStatus.Status = (GetServiceStatus p).Status ∧
      (Health.response p).PromoStatus.DataSource = (GetServiceStatus p).DataSource ∧
      (Health.response p).PromoStatus.CodesLoaded = (GetServiceStatus p).CodesLoaded ∧
      (Health.response p).PromoStatus.IsFullyLoaded = (GetServiceStatus p).IsFullyLoaded ∧
      (Health.response p).PromoStatus.LastError = (GetServiceStatus p).LastError) := by
  obtain ⟨_, hpc, hs1, hs2, hs3, hs4, hs5⟩ := Health_response_copy p
  have hst := Health_response_Status p
  have hsd : "starting" ≠ "degraded" := by decide
  have hsh : "starting" ≠ "healthy" := by decide
  have hds : "degraded" ≠ "starting" := by decide
  have hdh : "degraded" ≠ "healthy" := by decide
  have hhs : "healthy" ≠ "starting" := by decide
  have hhd : "healthy" ≠ "degraded" := by decide
  have hdeg : (Health.response p).Status = "degraded" ↔
      ((GetServiceStatus p).CodesLoaded ≠ 0 ∧ (GetServiceStatus p).IsFullyLoaded = false ∧
        (GetServiceStatus p).LastError ≠ "") := by
    rw [hst]
    by_cases h0 : (GetServiceStatus p).CodesLoaded = 0
    · rw [if_pos h0]
      exact ⟨fun h => absurd h hsd, fun h => absurd h0 h.1⟩
    · rw [if_neg h0]
      by_cases h1 : (GetServiceStatus p).IsFullyLoaded = false ∧
          (GetServiceStatus p).LastError ≠ ""
      · rw [if_pos h1]
        exact ⟨fun _ => ⟨h0, h1⟩, fun _ => rfl⟩
      · rw [if_neg h1]
        exact ⟨fun h => absurd h hhd, fun h => absurd h.2 h1⟩
  refine ⟨rfl, rfl, rfl, ?_, hdeg, ?_, ?_, hpc.trans hs3.symm, hs1, hs2, hs3, hs4, hs5⟩
  · rw [hst]
    by_cases h0 : (GetServiceStatus p).CodesLoaded = 0
    · rw [if_pos h0]
      exact ⟨fun _ => h0, fun _ => rfl⟩
    · rw [if_neg h0]
      constructor
      · intro h
        split at h
        · exact absurd h hds
        · exact absurd h hhs
      · intro h
        exact absurd h h0
  · rw [hst]
    by_cases h0 : (GetServiceStatus p).CodesLoaded = 0
    · rw [if_pos h0]
      exact ⟨fun h => absurd h hsh, fun h => absurd h0 h.1⟩
    · rw [if_neg h0]
      by_cases h1 : (GetServiceStatus p).IsFullyLoaded = false ∧
          (GetServiceStatus p).LastError ≠ ""
      · rw [if_pos h1]
        exact ⟨fun h => absurd h hdh, fun h => absurd h1 h.2⟩
      · rw [if_neg h1]
        exact ⟨fun _ => ⟨h0, h1⟩, fun _ => rfl⟩
  · intro hnn
    rw [hdeg]
    constructor
    · rintro ⟨h0, h1, h2⟩
      exact ⟨lt_of_le_of_ne hnn (Ne.symm h0), h1, h2⟩
    · rintro ⟨h0, h1, h2⟩
      exact ⟨ne_of_gt h0, h1, h2⟩

/-- Witness for C25: a seeded service whose first cycle failed. -/
theorem Health_spec_witness :
    0 ≤ (GetServiceStatus (run NewPromoCodeService [.init, .cycle envAllFail])).CodesLoaded ∧
    (Health.response (run NewPromoCodeService [.init, .cycle envAllFail])).Status
      = "degraded" ∧
    (GetServiceStatus (run NewPromoCodeService [.init, .cycle envAllFail])).CodesLoaded > 0 :=
  ⟨by decide, by decide,
   (((Health_spec (run NewPromoCodeService [.init, .cycle envAllFail])
      (newContext "" [] (.error "no body"))).2.2.2.2.2.2.1 (by decide)).mp (by decide)).1⟩

/-! ## C26 -/

/-- C26: `GetProductByID(id)` returns a product with `ID == id` and true
exactly when the catalog has a product with that ID, and `(nil, false)`
otherwise; the catalog IDs are pairwise distinct, so for every catalog product
`GetProductByID` of its ID returns that product; the two calls of the test
evaluate as the test expects. -/
theorem GetProductByID_spec (id : GoString) :
    ((∃ product ∈ products, product.ID = id) ↔
      ∃ product, GetProductByID id = (some product, true) ∧ product.ID = id) ∧
    ((¬ ∃ product ∈ products, product.ID = id) ↔ GetProductByID id = (none, false)) ∧
    (products.map Product.ID).Nodup ∧
    (∀ product ∈ products, GetProductByID product.ID = (some product, true)) ∧
    ((GetProductByID (str "1")).2 = true ∧
      (GetProductByID (str "1")).1.map Product.ID = some (str "1") ∧
      GetProductByID (str "999") = (none, false)) := by
  have hmem : ∀ product ∈ products, GetProductByID product.ID = (some product, true) := by
    intro product hp
    unfold GetProductByID
    rw [findProduct_of_mem products products_nodup product hp]
  refine ⟨⟨?_, ?_⟩, ⟨?_, ?_⟩, products_nodup, hmem, by decide⟩
  · rintro ⟨product, hp, rfl⟩
    exact ⟨product, hmem product hp, rfl⟩
  · rintro ⟨product, hg, hid⟩
    unfold GetProductByID at hg
    cases hf : findProduct products id with
    | none => rw [hf] at hg; simp at hg
    | some pr =>
      rw [hf] at hg
      simp only [Prod.mk.injEq, Option.some.injEq, and_true] at hg
      subst hg
      exact ⟨pr, (findProduct_some products id pr hf).1, hid⟩
  · intro hno
    unfold GetProductByID
    cases hf : findProduct products id with
    | none => rfl
    | some pr => exact absurd ⟨pr, findProduct_some products id pr hf⟩ hno
  · intro hg
    rintro ⟨product, hp, rfl⟩
    rw [hmem product hp] at hg
    simp at hg

/-- Witness for C26: the catalog product with ID 3. -/
theorem GetProductByID_spec_witness :
    (∃ product ∈ products, product.ID = str "3") ∧
    ∃ product, GetProductByID (str "3") = (some product, true) ∧ product.ID = str "3" :=
  ⟨⟨⟨str "3", "Pancake Stack", 899, "Pancake"⟩, by decide, rfl⟩,
   (GetProductByID_spec (str "3")).1.mp ⟨⟨str "3", "Pancake Stack", 899, "Pancake"⟩, by decide, rfl⟩⟩

/-! ## C27 -/

theorem appendInt_two : ∀ x, x < 100 → appendInt x 2 = [48 + x / 10, 48 + x % 10] := by
  decide

theorem hexEncode_byte : ∀ n, n < 16 →
    (hextable.getD n 0 < 128 ∧
      isUpperHexByte (if 97 ≤ hextable.getD n 0 ∧ hextable.getD n 0 ≤ 122
        then hextable.getD n 0 - 32 else hextable.getD n 0) = true) := by
  decide

theorem formatTimestamp_eq (t : ClockTime) :
    formatTimestamp t
      = [48 + t.year % 100 / 10, 48 + t.year % 100 % 10,
         48 + t.month.val / 10, 48 + t.month.val % 10,
         48 + t.day.val / 10, 48 + t.day.val % 10, 45,
         48 + t.hour.val / 10, 48 + t.hour.val % 10,
         48 + t.minute.val / 10, 48 + t.minute.val % 10,
         48 + t.second.val / 10, 48 + t.second.val % 10] := by
  unfold formatTimestamp
  rw [appendInt_two _ (Nat.mod_lt _ (by decide)),
    appendInt_two _ (lt_trans t.month.isLt (by decide)),
    appendInt_two _ (lt_trans t.day.isLt (by decide)),
    appendInt_two _ (lt_trans t.hour.isLt (by decide)),
    appendInt_two _ (lt_trans t.minute.isLt (by decide)),
    appendInt_two _ (lt_trans t.second.isLt (by decide))]
  rfl

theorem hexEncodeToString_upper (unicodeUpper : GoString → GoString)
    (b0 b1 b2 b3 : Fin 256) :
    ∃ x0 x1 x2 x3 x4 x5 x6 x7 : Nat,
      ToUpper unicodeUpper (hexEncodeToString [b0, b1, b2, b3])
        = [x0, x1, x2, x3, x4, x5, x6, x7] ∧
      isUpperHexByte x0 = true ∧ isUpperHexByte x1 = true ∧ isUpperHexByte x2 = true ∧
      isUpperHexByte x3 = true ∧ isUpperHexByte x4 = true ∧ isUpperHexByte x5 = true ∧
      isUpperHexByte x6 = true ∧ isUpperHexByte x7 = true := by
  have hd : ∀ b : Fin 256, b.val / 16 < 16 := fun b => by
    have := b.isLt
    omega
  have hm : ∀ b : Fin 256, b.val % 16 < 16 := fun b => Nat.mod_lt _ (by decide)
  have hascii : (hexEncodeToString [b0, b1, b2, b3]).all (fun c => decide (c < 128)) = true := by
    simp only [hexEncodeToString, List.all_cons, List.all_nil, Bool.and_true, Bool.and_eq_true,
      decide_eq_true_eq]
    exact ⟨(hexEncode_byte _ (hd b0)).1, (hexEncode_byte _ (hm b0)).1,
      (hexEncode_byte _ (hd b1)).1, (hexEncode_byte _ (hm b1)).1,
      (hexEncode_byte _ (hd b2)).1, (hexEncode_byte _ (hm b2)).1,
      (hexEncode_byte _ (hd b3)).1, (hexEncode_byte _ (hm b3)).1⟩
  rw [ToUpper_of_ascii unicodeUpper _ hascii]
  exact ⟨_, _, _, _, _, _, _, _, rfl,
    (hexEncode_byte _ (hd b0)).2, (hexEncode_byte _ (hm b0)).2,
    (hexEncode_byte _ (hd b1)).2, (hexEncode_byte _ (hm b1)).2,
    (hexEncode_byte _ (hd b2)).2, (hexEncode_byte _ (hm b2)).2,
    (hexEncode_byte _ (hd b3)).2, (hexEncode_byte _ (hm b3)).2⟩

theorem isDigitByte_tens (x : Nat) (h : x < 100) :
    isDigitByte (48 + x / 10) = true ∧ isDigitByte (48 + x % 10) = true := by
  unfold isDigitByte
  simp only [Bool.and_eq_true, decide_eq_true_eq]
  omega

/-- C27, counterexample: when the random read fails, `generateOrderID` returns
the timestamp followed by FALLBACK, which is not eight characters of
`[A-F0-9]`. -/
theorem generateOrderID_fallback_breaks_format :
    generateOrderID id sampleTime (.failed "entropy source unavailable")
      = str "ORD-261104-090559-FALLBACK" ∧
    matchesOrderIDFormat
      (generateOrderID id sampleTime (.failed "entropy source unavailable")) = false := by
  decide

/-- C27, amended: for every clock time and every four bytes that the random
read delivers, the ID returned by `generateOrderID` matches
`^ORD-\d{6}-\d{6}-[A-F0-9]{8}$`; when the random read fails the ID is `ORD-`,
the timestamp and `-FALLBACK`, for every clock time. -/
theorem generateOrderID_format (unicodeUpper : GoString → GoString) (now : ClockTime) :
    (∀ b0 b1 b2 b3 : Fin 256,
      matchesOrderIDFormat (generateOrderID unicodeUpper now (.filled b0 b1 b2 b3)) = true) ∧
    (∀ err : String,
      generateOrderID unicodeUpper now (.failed err)
        = str "ORD-" ++ formatTimestamp now ++ str "-FALLBACK" ∧
      matchesOrderIDFormat (generateOrderID unicodeUpper now (.failed err)) = false) := by
  have hord : str "ORD-" = [79, 82, 68, 45] := by decide
  have hdash : str "-" = [45] := by decide
  have hfb : str "-FALLBACK" = [45, 70, 65, 76, 76, 66, 65, 67, 75] := by decide
  have hy := isDigitByte_tens (now.year % 100) (Nat.mod_lt _ (by decide))
  have hmo := isDigitByte_tens now.month.val (lt_trans now.month.isLt (by decide))
  have hda := isDigitByte_tens now.day.val (lt_trans now.day.isLt (by decide))
  have hh := isDigitByte_tens now.hour.val (lt_trans now.hour.isLt (by decide))
  have hmi := isDigitByte_tens now.minute.val (lt_trans now.minute.isLt (by decide))
  have hse := isDigitByte_tens now.second.val (lt_trans now.second.isLt (by decide))
  constructor
  · intro b0 b1 b2 b3
    obtain ⟨x0, x1, x2, x3, x4, x5, x6, x7, hx, h0, h1, h2, h3, h4, h5, h6, h7⟩ :=
      hexEncodeToString_upper unicodeUpper b0 b1 b2 b3
    unfold generateOrderID
    dsimp only
    rw [hx, formatTimestamp_eq, hord, hdash]
    unfold matchesOrderIDFormat
    simp [hord, hdash, hy, hmo, hda, hh, hmi, hse, h0, h1, h2, h3, h4, h5, h6, h7]
  · intro err
    refine ⟨rfl, ?_⟩
    unfold generateOrderID
    dsimp only
    rw [formatTimestamp_eq, hord, hfb]
    unfold matchesOrderIDFormat
    simp [hord, hdash, isUpperHexByte]

/-! ## C28 -/

theorem IsValidPromoCode_of_ascii (unicodeUpper : GoString → GoString) (p : PromoCodeService)
    (code : GoString) (h : code.all (fun c => decide (c < 128)) = true) :
    IsValidPromoCode unicodeUpper p code = IsValidPromoCode id p code := by
  unfold IsValidPromoCode
  rw [ToUpper_of_ascii unicodeUpper code h, ToUpper_of_ascii id code h]

/-- C28, evaluated at the failing input: after `LoadMockPromoCodes` on a fresh
service the seed STUDENT is a key of the map, but it has 7 bytes and
`IsValidPromoCode` rejects it; 14 of the 15 seeds are accepted while
`GetValidCodesCount` returns 15. -/
theorem seed_STUDENT_rejected (unicodeUpper : GoString → GoString) :
    str "STUDENT" ∈ mockCodes ∧
    str "STUDENT" ∈ (LoadMockPromoCodes NewPromoCodeService).validCodes ∧
    (str "STUDENT").length = 7 ∧
    isValidPromoCodeFormat (str "STUDENT") = false ∧
    IsValidPromoCode unicodeUpper (LoadMockPromoCodes NewPromoCodeService) (str "STUDENT")
      = false ∧
    (mockCodes.filter
      (fun c => IsValidPromoCode unicodeUpper (LoadMockPromoCodes NewPromoCodeService) c)).length
      = 14 ∧
    mockCodes.length = 15 ∧
    GetValidCodesCount (LoadMockPromoCodes NewPromoCodeService) = 15 := by
  have hascii : ∀ c ∈ mockCodes, c.all (fun b => decide (b < 128)) = true := by decide
  have hfilter : mockCodes.filter
      (fun c => IsValidPromoCode unicodeUpper (LoadMockPromoCodes NewPromoCodeService) c)
      = mockCodes.filter
        (fun c => IsValidPromoCode id (LoadMockPromoCodes NewPromoCodeService) c) := by
    apply List.filter_congr
    intro c hc
    exact IsValidPromoCode_of_ascii unicodeUpper _ c (hascii c hc)
  refine ⟨by decide, by decide, by decide, by decide, ?_, ?_, by decide, by decide⟩
  · rw [IsValidPromoCode_of_ascii unicodeUpper _ _ (by decide)]
    decide
  · rw [hfilter]
    decide

/-! ## C29 -/

theorem foldl_processChunk_valid (unicodeFields : GoString → List GoString)
    (unicodeUpper : GoString → GoString) (reads : List GoString) (codes : CodeSet)
    (h : ∀ c ∈ codes, isValidPromoCodeFormat c = true) :
    ∀ c ∈ reads.foldl (processChunk unicodeFields unicodeUpper) codes,
      isValidPromoCodeFormat c = true := by
  induction reads generalizing codes with
  | nil => exact h
  | cons chunk rest ih =>
    rw [List.foldl_cons]
    apply ih
    intro c hc
    unfold processChunk at hc
    split_ifs at hc
    · rcases (mem_extractCodes unicodeFields unicodeUpper codes chunk c).mp hc with
        hc | ⟨_, _, _, hv⟩
      · exact h c hc
      · exact hv
    · exact h c hc

theorem processGzipFile_valid (unicodeFields : GoString → List GoString)
    (unicodeUpper : GoString → GoString) (filename : String) (f : GzipFile) (codes : CodeSet)
    (h : processGzipFile unicodeFields unicodeUpper filename f = .ok codes) :
    ∀ c ∈ codes, isValidPromoCodeFormat c = true := by
  unfold processGzipFile at h
  split at h
  · cases h
  · split at h
    · cases h
    · dsimp only at h
      split at h
      · cases h
        have hall := foldl_processChunk_valid unicodeFields unicodeUpper
          (f.reads ++ [f.lastData]) ∅ (by simp)
        rw [List.foldl_append] at hall
        exact hall
      · cases h

theorem ToUpper_of_valid (unicodeUpper : GoString → GoString) (c : GoString)
    (h : isValidPromoCodeFormat c = true) : ToUpper unicodeUpper c = c := by
  have hb := ((isValidPromoCodeFormat_iff c).mp h).2.2
  have hascii : c.all (fun b => decide (b < 128)) = true := by
    rw [List.all_eq_true]
    intro b hbm
    have := hb b hbm
    simp only [decide_eq_true_eq]
    omega
  rw [ToUpper_of_ascii unicodeUpper c hascii]
  unfold asciiUpper
  conv_rhs => rw [← List.map_id c]
  apply List.map_congr_left
  intro b hbm
  have := hb b hbm
  rw [if_neg (by omega)]
  rfl

theorem cycleValidCodes_subset_union (env : RefreshEnv) (c : GoString)
    (h : c ∈ cycleValidCodes env) : ∃ s ∈ successfulSets env, c ∈ s := by
  rw [mem_cycleValidCodes] at h
  have hpos : 0 < tally (successfulSets env) c :=
    lt_of_lt_of_le (minOccurrences_pos _) h
  unfold tally at hpos
  obtain ⟨s, hs, hc⟩ := List.countP_pos_iff.mp hpos
  exact ⟨s, hs, by simpa using hc⟩

theorem accepted_of_valid_snapshot (unicodeUpper : GoString → GoString) (q : PromoCodeService)
    (hvalid : ∀ c ∈ q.validCodes, isValidPromoCodeFormat c = true) :
    (∀ c ∈ q.validCodes, IsValidPromoCode unicodeUpper q c = true) ∧
    (∀ c, c ∈ q.validCodes ↔
      (ToUpper unicodeUpper c = c ∧ IsValidPromoCode unicodeUpper q c = true)) := by
  have hacc : ∀ c ∈ q.validCodes, IsValidPromoCode unicodeUpper q c = true := by
    intro c hc
    unfold IsValidPromoCode
    dsimp only
    rw [ToUpper_of_valid unicodeUpper c (hvalid c hc), hvalid c hc]
    simpa using hc
  refine ⟨hacc, fun c => ⟨fun hc => ⟨ToUpper_of_valid unicodeUpper c (hvalid c hc), hacc c hc⟩,
    ?_⟩⟩
  rintro ⟨hup, hc⟩
  unfold IsValidPromoCode at hc
  dsimp only at hc
  rw [hup] at hc
  split_ifs at hc
  simpa using hc

/-- C29, counterexample: the cycle over `envBig` commits the 2^31 format-valid
codes of `bigSnapshot`; the service accepts every one of them and its accepted
uppercase strings are exactly the snapshot, 2^31 strings, but `CodesLoaded`
is -2147483648. -/
theorem codesLoaded_differs_from_accepted_count :
    (∀ s ∈ successfulSets envBig, ∀ c ∈ s, isValidPromoCodeFormat c = true) ∧
    (downloadCodesAsync envBig NewPromoCodeService).isLoaded = 1 ∧
    (∀ c ∈ (downloadCodesAsync envBig NewPromoCodeService).validCodes,
      IsValidPromoCode id (downloadCodesAsync envBig NewPromoCodeService) c = true) ∧
    (∀ c, c ∈ (downloadCodesAsync envBig NewPromoCodeService).validCodes ↔
      (ToUpper id c = c ∧
        IsValidPromoCode id (downloadCodesAsync envBig NewPromoCodeService) c = true)) ∧
    (downloadCodesAsync envBig NewPromoCodeService).validCodes.card = 2 ^ 31 ∧
    (GetServiceStatus (downloadCodesAsync envBig NewPromoCodeService)).CodesLoaded
      = -2147483648 ∧
    (GetServiceStatus (downloadCodesAsync envBig NewPromoCodeService)).CodesLoaded
      ≠ ((downloadCodesAsync envBig NewPromoCodeService).validCodes.card : Int) := by
  obtain ⟨hl, hv, hc⟩ := envBig_cycle NewPromoCodeService
  have hbig : ∀ c ∈ bigSnapshot, isValidPromoCodeFormat c = true := by
    intro c hc
    unfold bigSnapshot at hc
    obtain ⟨i, _, rfl⟩ := Finset.mem_image.mp hc
    exact decimalCode_valid i
  have hvalid : ∀ c ∈ (downloadCodesAsync envBig NewPromoCodeService).validCodes,
      isValidPromoCodeFormat c = true := by
    rw [hv]
    exact hbig
  obtain ⟨hacc, hiff⟩ := accepted_of_valid_snapshot id _ hvalid
  have hcard : (downloadCodesAsync envBig NewPromoCodeService).validCodes.card = 2 ^ 31 := by
    rw [hv]
    exact bigSnapshot_card
  have hcl : (GetServiceStatus (downloadCodesAsync envBig NewPromoCodeService)).CodesLoaded
      = -2147483648 := by
    rw [GetServiceStatus_CodesLoaded, hc]
  refine ⟨?_, hl, hacc, hiff, hcard, hcl, ?_⟩
  · rw [successfulSets_envBig]
    intro s hs
    rw [List.mem_singleton.mp hs]
    exact hbig
  · rw [hcl, hcard]
    norm_num

/-- C29, amended: `processGzipFile` only emits format-valid codes.  When the
candidate sets of a cycle hold only format-valid codes and the cycle commits
(`isLoaded` is 1 after it), every code of the snapshot is in one of the
candidate sets, satisfies `isValidPromoCodeFormat` and is accepted by
`IsValidPromoCode`; the uppercase strings the service accepts are exactly the
codes of the snapshot; and `CodesLoaded` is the size of the snapshot when that
size is below 2^31. -/
theorem committed_snapshot_format_valid (unicodeFields : GoString → List GoString)
    (unicodeUpper : GoString → GoString) (env : RefreshEnv) (p : PromoCodeService)
    (hsrc : ∀ s ∈ successfulSets env, ∀ c ∈ s, isValidPromoCodeFormat c = true)
    (hl : (downloadCodesAsync env p).isLoaded = 1) :
    (∀ (filename : String) (f : GzipFile) (codes : CodeSet),
      processGzipFile unicodeFields unicodeUpper filename f = .ok codes →
      ∀ c ∈ codes, isValidPromoCodeFormat c = true) ∧
    (∀ c ∈ (downloadCodesAsync env p).validCodes, ∃ s ∈ successfulSets env, c ∈ s) ∧
    (∀ c ∈ (downloadCodesAsync env p).validCodes, isValidPromoCodeFormat c = true) ∧
    (∀ c ∈ (downloadCodesAsync env p).validCodes,
      IsValidPromoCode unicodeUpper (downloadCodesAsync env p) c = true) ∧
    (∀ c, c ∈ (downloadCodesAsync env p).validCodes ↔
      (ToUpper unicodeUpper c = c ∧
        IsValidPromoCode unicodeUpper (downloadCodesAsync env p) c = true)) ∧
    ((downloadCodesAsync env p).validCodes.card < 2 ^ 31 →
      (GetServiceStatus (downloadCodesAsync env p)).CodesLoaded
        = ((downloadCodesAsync env p).validCodes.card : Int) ∧
      GetValidCodesCount (downloadCodesAsync env p)
        = ((downloadCodesAsync env p).validCodes.card : Int)) := by
  obtain ⟨hv, hc, _⟩ := downloadCodesAsync_committed env p hl
  have hunion : ∀ c ∈ (downloadCodesAsync env p).validCodes,
      ∃ s ∈ successfulSets env, c ∈ s := by
    intro c hcm
    rw [hv] at hcm
    exact cycleValidCodes_subset_union env c hcm
  have hvalid : ∀ c ∈ (downloadCodesAsync env p).validCodes,
      isValidPromoCodeFormat c = true := by
    intro c hcm
    obtain ⟨s, hs, hcs⟩ := hunion c hcm
    exact hsrc s hs c hcs
  obtain ⟨hacc, hiff⟩ := accepted_of_valid_snapshot unicodeUpper _ hvalid
  refine ⟨fun filename f codes h =>
      processGzipFile_valid unicodeFields unicodeUpper filename f codes h,
    hunion, hvalid, hacc, hiff, ?_⟩
  intro hsmall
  have hcount : (downloadCodesAsync env p).codesCount
      = ((downloadCodesAsync env p).validCodes.card : Int) := by
    rw [hc, hv]
    rw [hv] at hsmall
    generalize (cycleValidCodes env).card = n at hsmall ⊢
    unfold int32
    omega
  exact ⟨by rw [GetServiceStatus_CodesLoaded, hcount], by rw [GetValidCodesCount_eq, hcount]⟩

/-- Witness for C29: the cycle in which one source delivers SAVE20OFF and
CODE1234. -/
theorem committed_snapshot_format_valid_witness :
    (∀ s ∈ successfulSets envSingle, ∀ c ∈ s, isValidPromoCodeFormat c = true) ∧
    (downloadCodesAsync envSingle NewPromoCodeService).isLoaded = 1 ∧
    ∀ c ∈ (downloadCodesAsync envSingle NewPromoCodeService).validCodes,
      IsValidPromoCode id (downloadCodesAsync envSingle NewPromoCodeService) c = true :=
  ⟨by decide, by decide,
   (committed_snapshot_format_valid (fun s => [s]) id envSingle NewPromoCodeService
      (by decide) (by decide)).2.2.2.1⟩

/-! ## C30 -/

theorem countOccurrences_perm (l1 l2 : List CodeSet) (h : l1.Perm l2) :
    countOccurrences l1 = countOccurrences l2 := by
  unfold countOccurrences
  rw [foldl_add_val, foldl_add_val]
  congr 1
  exact (h.map Finset.val).sum_eq

/-- C30: for every list `fileCodes`, every permutation of it and every
`successCount`, `replaceWithRealCodes` returns the same error or success and
leaves the same state, so on success the same set of codes and the same
`codesCount`. -/
theorem replaceWithRealCodes_perm (p : PromoCodeService) (fileCodes permuted : List CodeSet)
    (successCount : Int) (h : fileCodes.Perm permuted) :
    replaceWithRealCodes p fileCodes successCount
      = replaceWithRealCodes p permuted successCount ∧
    (replaceWithRealCodes p fileCodes successCount).2
      = (replaceWithRealCodes p permuted successCount).2 ∧
    (replaceWithRealCodes p fileCodes successCount).1.validCodes
      = (replaceWithRealCodes p permuted successCount).1.validCodes ∧
    (replaceWithRealCodes p fileCodes successCount).1.codesCount
      = (replaceWithRealCodes p permuted successCount).1.codesCount := by
  have heq : replaceWithRealCodes p fileCodes successCount
      = replaceWithRealCodes p permuted successCount := by
    unfold replaceWithRealCodes
    rw [countOccurrences_perm fileCodes permuted h]
  rw [heq]
  exact ⟨rfl, rfl, rfl, rfl⟩

/-- Witness for C30: the scenario sources in the orders A, B, C and C, B, A. -/
theorem replaceWithRealCodes_perm_witness :
    [({str "CODE1234", str "ABCDEFGH"} : CodeSet), {str "CODE1234", str "ZZZZZZZZ"}, ∅].Perm
      [∅, {str "CODE1234", str "ZZZZZZZZ"}, {str "CODE1234", str "ABCDEFGH"}] ∧
    replaceWithRealCodes NewPromoCodeService
        [{str "CODE1234", str "ABCDEFGH"}, {str "CODE1234", str "ZZZZZZZZ"}, ∅] 2
      = replaceWithRealCodes NewPromoCodeService
        [∅, {str "CODE1234", str "ZZZZZZZZ"}, {str "CODE1234", str "ABCDEFGH"}] 2 :=
  ⟨by decide,
   (replaceWithRealCodes_perm NewPromoCodeService
      [{str "CODE1234", str "ABCDEFGH"}, {str "CODE1234", str "ZZZZZZZZ"}, ∅]
      [∅, {str "CODE1234", str "ZZZZZZZZ"}, {str "CODE1234", str "ABCDEFGH"}] 2
      (by decide)).1⟩

/-! ## C19 -/

/-- The two shapes of the points of a cycle: a cycle that records an error
writes the flag, the cleared error and the error; a cycle that commits the
non-empty set `V` writes the flag, the cleared error, the map, the counter and
the flag, in this order.  In both the last point is `downloadCodesAsync`. -/
theorem downloadCodesAsync_points_cases (env : RefreshEnv) (p : PromoCodeService) :
    (∃ err : String,
      downloadCodesAsync.points env p
        = [p, { p with isLoaded := 0 }, { p with isLoaded := 0, loadError := none },
           { p with isLoaded := 0, loadError := some err }] ∧
      downloadCodesAsync env p = { p with isLoaded := 0, loadError := some err }) ∨
    (∃ V : CodeSet,
      downloadCodesAsync.points env p
        = [p, { p with isLoaded := 0 }, { p with isLoaded := 0, loadError := none },
           { p with isLoaded := 0, loadError := none, validCodes := V },
           { p with isLoaded := 0, loadError := none, validCodes := V,
                    codesCount := int32 V.card },
           { p with isLoaded := 1, loadError := none, validCodes := V,
                    codesCount := int32 V.card }] ∧
      downloadCodesAsync env p
        = { p with isLoaded := 1, loadError := none, validCodes := V,
                   codesCount := int32 V.card }) := by
  unfold downloadCodesAsync.points downloadCodesAsync
  rcases hdir : env.mkdirTemp with err | u
  · left
    exact ⟨_, rfl, rfl⟩
  · dsimp only
    rcases hall : downloadAll env with ⟨fileCodes, successCount⟩
    dsimp only
    by_cases h0 : successCount = 0
    · left
      rw [if_pos h0, if_pos h0]
      exact ⟨_, rfl, rfl⟩
    · rw [if_neg h0, if_neg h0]
      unfold replaceWithRealCodes.points replaceWithRealCodes
      dsimp only
      by_cases hc : (buildValidCodes (countOccurrences fileCodes)
          (minOccurrences successCount)).card = 0
      · left
        rw [if_pos hc, if_pos hc]
        exact ⟨_, rfl, rfl⟩
      · right
        rw [if_neg hc, if_neg hc]
        exact ⟨_, rfl, rfl⟩

theorem sameAnswers_refl (unicodeUpper : GoString → GoString) (q : PromoCodeService) :
    sameAnswers unicodeUpper q q :=
  ⟨fun _ => rfl, rfl, rfl, rfl, rfl⟩

/-- C19, counterexample: a seeded service runs the cycle of the scenario, which
commits `CODE1234`.  Between the map swap (promo.go:243) and the counter store
(promo.go:247) the map has the one key CODE1234 while the counter is still 15
and the data source is mock: `IsValidPromoCode` rejects the seed HAPPYHRS and
accepts CODE1234, `GetValidCodesCount` returns 15.  These answers are neither
those of the snapshot before the cycle nor those of the snapshot after it. -/
theorem reader_sees_new_map_with_old_counter :
    (downloadCodesAsync.points envScenario (LoadMockPromoCodes NewPromoCodeService)).getLast?
      = some (downloadCodesAsync envScenario (LoadMockPromoCodes NewPromoCodeService)) ∧
    (downloadCodesAsync.points envScenario (LoadMockPromoCodes NewPromoCodeService)).get? 3
      = some stateAfterSwap ∧
    stateAfterSwap ∈
      downloadCodesAsync.points envScenario (LoadMockPromoCodes NewPromoCodeService) ∧
    (IsValidPromoCode id stateAfterSwap (str "CODE1234") = true ∧
      IsValidPromoCode id stateAfterSwap (str "HAPPYHRS") = false ∧
      stateAfterSwap.validCodes.card = 1 ∧
      GetValidCodesCount stateAfterSwap = 15 ∧
      (GetServiceStatus stateAfterSwap).CodesLoaded = 15 ∧
      (GetServiceStatus stateAfterSwap).DataSource = "mock" ∧
      (GetServiceStatus stateAfterSwap).IsFullyLoaded = false) ∧
    (IsValidPromoCode id (LoadMockPromoCodes NewPromoCodeService) (str "CODE1234") = false ∧
      IsValidPromoCode id (LoadMockPromoCodes NewPromoCodeService) (str "HAPPYHRS") = true ∧
      GetValidCodesCount (LoadMockPromoCodes NewPromoCodeService) = 15) ∧
    (IsValidPromoCode id (downloadCodesAsync envScenario (LoadMockPromoCodes NewPromoCodeService))
        (str "CODE1234") = true ∧
      GetValidCodesCount (downloadCodesAsync envScenario (LoadMockPromoCodes NewPromoCodeService))
        = 1 ∧
      (GetServiceStatus (downloadCodesAsync envScenario
        (LoadMockPromoCodes NewPromoCodeService))).DataSource = "remote") ∧
    ¬ (sameAnswers id stateAfterSwap (LoadMockPromoCodes NewPromoCodeService) ∨
        sameAnswers id stateAfterSwap
          (downloadCodesAsync envScenario (LoadMockPromoCodes NewPromoCodeService))) := by
  have hq1 : IsValidPromoCode id stateAfterSwap (str "CODE1234") = true := by decide
  have hp1 : IsValidPromoCode id (LoadMockPromoCodes NewPromoCodeService) (str "CODE1234")
      = false := by decide
  have hq2 : GetValidCodesCount stateAfterSwap = 15 := by decide
  have hf2 : GetValidCodesCount
      (downloadCodesAsync envScenario (LoadMockPromoCodes NewPromoCodeService)) = 1 := by decide
  refine ⟨by decide, by decide, by decide,
    ⟨hq1, by decide, by decide, hq2, by decide, by decide, by decide⟩,
    ⟨hp1, by decide, by decide⟩, ⟨by decide, hf2, by decide⟩, ?_⟩
  rintro (h | h)
  · have := h.1 (str "CODE1234")
    rw [hq1, hp1] at this
    cases this
  · have := h.2.1
    rw [hq2, hf2] at this
    exact absurd this (by decide)

/-- C19, amended: the points of a refresh cycle start at the state before the
cycle and end at the state `downloadCodesAsync` leaves.  At every point the map
is whole, the map before the cycle or the committed consensus set, so
`IsValidPromoCode` answers for one of the two, and the counter is the counter
before the cycle or the committed one; map, counter and flag are written by
separate steps.  A point at which `IsFullyLoaded` is true is the state before
the cycle or the state after it, so there the three queries answer for one
committed snapshot.  A cycle that does not commit leaves map and counter
untouched at every point. -/
theorem cycle_points_spec (unicodeUpper : GoString → GoString) (env : RefreshEnv)
    (p : PromoCodeService) :
    (downloadCodesAsync.points env p).head? = some p ∧
    (downloadCodesAsync.points env p).getLast? = some (downloadCodesAsync env p) ∧
    (∀ q ∈ downloadCodesAsync.points env p,
      (q.validCodes = p.validCodes ∨ q.validCodes = (downloadCodesAsync env p).validCodes) ∧
      ((∀ code, IsValidPromoCode unicodeUpper q code = IsValidPromoCode unicodeUpper p code) ∨
        (∀ code, IsValidPromoCode unicodeUpper q code
          = IsValidPromoCode unicodeUpper (downloadCodesAsync env p) code)) ∧
      (GetValidCodesCount q = GetValidCodesCount p ∨
        GetValidCodesCount q = GetValidCodesCount (downloadCodesAsync env p))) ∧
    (∀ q ∈ downloadCodesAsync.points env p,
      (GetServiceStatus q).IsFullyLoaded = true →
        (q = p ∨ q = downloadCodesAsync env p) ∧
        (sameAnswers unicodeUpper q p ∨
          sameAnswers unicodeUpper q (downloadCodesAsync env p))) ∧
    ((downloadCodesAsync env p).isLoaded ≠ 1 →
      ∀ q ∈ downloadCodesAsync.points env p,
        q.validCodes = p.validCodes ∧ q.codesCount = p.codesCount ∧
        ∀ code, IsValidPromoCode unicodeUpper q code = IsValidPromoCode unicodeUpper p code) := by
  have hmap : ∀ q s : PromoCodeService, q.validCodes = s.validCodes →
      ∀ code, IsValidPromoCode unicodeUpper q code = IsValidPromoCode unicodeUpper s code := by
    intro q s h code
    unfold IsValidPromoCode
    rw [h]
  have hfull : ∀ q : PromoCodeService,
      (GetServiceStatus q).IsFullyLoaded = true → q.isLoaded = 1 := by
    intro q h
    rw [GetServiceStatus_IsFullyLoaded] at h
    simpa using h
  have hzero : ∀ q : PromoCodeService, q.isLoaded = 0 →
      ¬ (GetServiceStatus q).IsFullyLoaded = true := by
    intro q h0 h
    have := hfull q h
    rw [h0] at this
    exact absurd this (by decide)
  rcases downloadCodesAsync_points_cases env p with ⟨err, hpts, hfin⟩ | ⟨V, hpts, hfin⟩
  · rw [hpts, hfin]
    refine ⟨rfl, rfl, ?_, ?_, ?_⟩
    · intro q hq
      simp only [List.mem_cons, List.mem_singleton, List.not_mem_nil, or_false] at hq
      rcases hq with rfl | rfl | rfl | rfl <;>
        exact ⟨Or.inl rfl, Or.inl (hmap _ _ rfl), Or.inl rfl⟩
    · intro q hq hfl
      simp only [List.mem_cons, List.mem_singleton, List.not_mem_nil, or_false] at hq
      rcases hq with rfl | rfl | rfl | rfl
      · exact ⟨Or.inl rfl, Or.inl (sameAnswers_refl _ _)⟩
      · exact absurd hfl (hzero _ rfl)
      · exact absurd hfl (hzero _ rfl)
      · exact absurd hfl (hzero _ rfl)
    · intro _ q hq
      simp only [List.mem_cons, List.mem_singleton, List.not_mem_nil, or_false] at hq
      rcases hq with rfl | rfl | rfl | rfl <;> exact ⟨rfl, rfl, hmap _ _ rfl⟩
  · rw [hpts, hfin]
    refine ⟨rfl, rfl, ?_, ?_, ?_⟩
    · intro q hq
      simp only [List.mem_cons, List.mem_singleton, List.not_mem_nil, or_false] at hq
      rcases hq with rfl | rfl | rfl | rfl | rfl | rfl
      · exact ⟨Or.inl rfl, Or.inl (hmap _ _ rfl), Or.inl rfl⟩
      · exact ⟨Or.inl rfl, Or.inl (hmap _ _ rfl), Or.inl rfl⟩
      · exact ⟨Or.inl rfl, Or.inl (hmap _ _ rfl), Or.inl rfl⟩
      · exact ⟨Or.inr rfl, Or.inr (hmap _ _ rfl), Or.inl rfl⟩
      · exact ⟨Or.inr rfl, Or.inr (hmap _ _ rfl), Or.inr rfl⟩
      · exact ⟨Or.inr rfl, Or.inr (hmap _ _ rfl), Or.inr rfl⟩
    · intro q hq hfl
      simp only [List.mem_cons, List.mem_singleton, List.not_mem_nil, or_false] at hq
      rcases hq with rfl | rfl | rfl | rfl | rfl | rfl
      · exact ⟨Or.inl rfl, Or.inl (sameAnswers_refl _ _)⟩
      · exact absurd hfl (hzero _ rfl)
      · exact absurd hfl (hzero _ rfl)
      · exact absurd hfl (hzero _ rfl)
      · exact absurd hfl (hzero _ rfl)
      · exact ⟨Or.inr rfl, Or.inr (sameAnswers_refl _ _)⟩
    · intro hne
      exact absurd rfl hne

end services
